import Mathlib

/-!
# LSDRasterSpectral: a verification development

Shallow embedding of the spectral-analysis routines of `LSDRasterSpectral.cpp`
(part of the LSDTopoTools / dreich algorithm sources) together with theorems
about them.

Conventions of the embedding.

* `Array2D α` is the TNT `Array2D<T>`: two dimensions and unchecked cell storage.
  A C++ reference parameter that is written becomes an argument and a result.
* `for (int i = 0; i < n; ++i)` is `forLoop n body`.
* `float` is an exact ordered field `K`; library functions that are not
  field operations (`sqrt`, `exp`) are parameters.
* `int` dimensions are natural numbers; an `Array2D` of `m*n` cells exists only
  when `m*n` fits an `int`, so products of dimensions do not wrap.
-/

namespace LSD

/-! ## Arrays and loops -/

/-- TNT `Array2D<T>`: `dim1` rows, `dim2` columns, and the cells (`operator[]`
is unchecked, so the storage is total in the model). -/
structure Array2D (α : Type) where
  dim1 : Nat
  dim2 : Nat
  data : Nat → Nat → α

/-- The constructor `Array2D<T> a(m, n, v)`: every cell holds `v`. -/
def Array2D.filled {α : Type} (m n : Nat) (v : α) : Array2D α :=
  ⟨m, n, fun _ _ => v⟩

/-- The read `a[i][j]`. -/
def Array2D.get {α : Type} (a : Array2D α) (i j : Nat) : α := a.data i j

/-- The write `a[i][j] = v`. -/
def Array2D.set {α : Type} (a : Array2D α) (i j : Nat) (v : α) : Array2D α :=
  { a with data := fun p q => if p = i ∧ q = j then v else a.data p q }

/-- The loop `for (int i = 0; i < n; ++i) s = body i s`. -/
def forLoop {σ : Type} : Nat → (Nat → σ → σ) → σ → σ
  | 0, _, s => s
  | n + 1, body, s => body n (forLoop n body s)

/-! ## Quadrant shift of the spectrum -/

/-- `LSDRasterSpectral::shift_spectrum` (lines 636-655). Returns the pair
`(spectrum_real_shift, spectrum_imaginary_shift)`. -/
def shift_spectrum {α : Type} (Ly Lx : Nat) (spectrum_real spectrum_imaginary : Array2D α)
    (spectrum_real_shift spectrum_imaginary_shift : Array2D α) : Array2D α × Array2D α :=
  let QuadrantRows := Ly / 2
  let QuadrantCols := Lx / 2
  forLoop QuadrantRows (fun i s =>
    forLoop QuadrantCols (fun j s =>
      let re := s.1
      let im := s.2
      let re := re.set i j (spectrum_real.get (i + QuadrantRows) (j + QuadrantCols))
      let re := re.set (i + QuadrantRows) j (spectrum_real.get i (j + QuadrantCols))
      let re := re.set i (j + QuadrantCols) (spectrum_real.get (i + QuadrantRows) j)
      let re := re.set (i + QuadrantRows) (j + QuadrantCols) (spectrum_real.get i j)
      let im := im.set i j (spectrum_imaginary.get (i + QuadrantRows) (j + QuadrantCols))
      let im := im.set (i + QuadrantRows) j (spectrum_imaginary.get i (j + QuadrantCols))
      let im := im.set i (j + QuadrantCols) (spectrum_imaginary.get (i + QuadrantRows) j)
      let im := im.set (i + QuadrantRows) (j + QuadrantCols) (spectrum_imaginary.get i j)
      (re, im)) s) (spectrum_real_shift, spectrum_imaginary_shift)

/-- `LSDRasterSpectral::shift_spectrum_inv` (lines 660-680). Returns the pair
`(FilteredSpectrumReal_deshift, FilteredSpectrumImaginary_deshift)`. -/
def shift_spectrum_inv {α : Type} (Ly Lx : Nat)
    (FilteredSpectrumReal FilteredSpectrumImaginary : Array2D α)
    (FilteredSpectrumReal_deshift FilteredSpectrumImaginary_deshift : Array2D α) :
    Array2D α × Array2D α :=
  let QuadrantRows := Ly / 2
  let QuadrantCols := Lx / 2
  forLoop QuadrantRows (fun i s =>
    forLoop QuadrantCols (fun j s =>
      let re := s.1
      let im := s.2
      let re := re.set (i + QuadrantRows) (j + QuadrantCols) (FilteredSpectrumReal.get i j)
      let re := re.set i (j + QuadrantCols) (FilteredSpectrumReal.get (i + QuadrantRows) j)
      let re := re.set (i + QuadrantRows) j (FilteredSpectrumReal.get i (j + QuadrantCols))
      let re := re.set i j (FilteredSpectrumReal.get (i + QuadrantRows) (j + QuadrantCols))
      let im := im.set (i + QuadrantRows) (j + QuadrantCols) (FilteredSpectrumImaginary.get i j)
      let im := im.set i (j + QuadrantCols) (FilteredSpectrumImaginary.get (i + QuadrantRows) j)
      let im := im.set (i + QuadrantRows) j (FilteredSpectrumImaginary.get i (j + QuadrantCols))
      let im := im.set i j (FilteredSpectrumImaginary.get (i + QuadrantRows) (j + QuadrantCols))
      (re, im)) s) (FilteredSpectrumReal_deshift, FilteredSpectrumImaginary_deshift)

/-! ## Rasters -/

/-- TNT `Array1D<T>`: a length and unchecked cell storage. -/
structure Array1D (α : Type) where
  dim : Nat
  data : Nat → α

/-- The constructor `Array1D<T> a(n, v)`. -/
def Array1D.filled {α : Type} (n : Nat) (v : α) : Array1D α := ⟨n, fun _ => v⟩

/-- The read `a[i]`. -/
def Array1D.get {α : Type} (a : Array1D α) (i : Nat) : α := a.data i

/-- The write `a[i] = v`. -/
def Array1D.set {α : Type} (a : Array1D α) (i : Nat) (v : α) : Array1D α :=
  { a with data := fun p => if p = i then v else a.data p }

/-- The data members of `LSDRaster` that the spectral routines use. -/
structure LSDRaster (K : Type) where
  NRows : Nat
  NCols : Nat
  XMinimum : K
  YMinimum : K
  DataResolution : K
  NoDataValue : K
  RasterData : Array2D K

/-- `LSDRasterSpectral`: an `LSDRaster` with the padded dimensions `Ly`, `Lx`,
the summed square of the window weights `WSS`, the 2D periodogram `P_DFT` and
the two radial sequences. -/
structure LSDRasterSpectral (K : Type) extends LSDRaster K where
  Ly : Nat
  Lx : Nat
  WSS : K
  P_DFT : Array2D K
  RadialFrequency : List K
  RadiallyAveragedPSD : List K

section Detrend

variable {K : Type} [LinearOrderedField K]

/-! ## Detrending -/

/-- First loop of `LSDRasterSpectral::detrend2D` (lines 513-542): the normal
matrix `A` and the right-hand side `bb` accumulated over the cells that differ
from `NoDataValue`. -/
def detrend2D_sums (self : LSDRasterSpectral K) (zeta : Array2D K) : Array2D K × Array1D K :=
  forLoop self.NRows (fun i s =>
    forLoop self.NCols (fun j s =>
      if zeta.get i j ≠ self.NoDataValue then
        let x : K := (j : K)
        let y : K := (i : K)
        let A := s.1
        let bb := s.2
        let A := A.set 0 0 (A.get 0 0 + x ^ 2)
        let A := A.set 0 1 (A.get 0 1 + x * y)
        let A := A.set 0 2 (A.get 0 2 + x)
        let A := A.set 1 0 (A.get 1 0 + y * x)
        let A := A.set 1 1 (A.get 1 1 + y ^ 2)
        let A := A.set 1 2 (A.get 1 2 + y)
        let A := A.set 2 0 (A.get 2 0 + x)
        let A := A.set 2 1 (A.get 2 1 + y)
        let A := A.set 2 2 (A.get 2 2 + 1)
        let bb := bb.set 0 (bb.get 0 + zeta.get i j * x)
        let bb := bb.set 1 (bb.get 1 + zeta.get i j * y)
        let bb := bb.set 2 (bb.get 2 + zeta.get i j)
        (A, bb)
      else s) s) (Array2D.filled 3 3 0, Array1D.filled 3 0)

/-- Determinant of the leading 3x3 block of `A`. -/
def det3 (A : Array2D K) : K :=
  A.get 0 0 * (A.get 1 1 * A.get 2 2 - A.get 1 2 * A.get 2 1)
    - A.get 0 1 * (A.get 1 0 * A.get 2 2 - A.get 1 2 * A.get 2 0)
    + A.get 0 2 * (A.get 1 0 * A.get 2 1 - A.get 1 1 * A.get 2 0)

/-- Modelled from the spec: the direct solve of the 3x3 normal equations
(`JAMA::LU<float>(A).solve(bb)` of the TNT/JAMA package, which is not among the
sources). "3x3 system solved by LU or equivalent direct solve": the unique
solution of `A * coeffs = bb` when `A` is non-singular, here written out by
Cramer's rule. A singular `A` has no such solution; the array that the solver
hands back then (in JAMA an array without elements) is the parameter
`singular`. -/
def LU_solve (singular : Array1D K) (A : Array2D K) (bb : Array1D K) : Array1D K :=
  if det3 A = 0 then singular
  else
    let c0 := (bb.get 0 * (A.get 1 1 * A.get 2 2 - A.get 1 2 * A.get 2 1)
      - A.get 0 1 * (bb.get 1 * A.get 2 2 - A.get 1 2 * bb.get 2)
      + A.get 0 2 * (bb.get 1 * A.get 2 1 - A.get 1 1 * bb.get 2)) / det3 A
    let c1 := (A.get 0 0 * (bb.get 1 * A.get 2 2 - A.get 1 2 * bb.get 2)
      - bb.get 0 * (A.get 1 0 * A.get 2 2 - A.get 1 2 * A.get 2 0)
      + A.get 0 2 * (A.get 1 0 * bb.get 2 - bb.get 1 * A.get 2 0)) / det3 A
    let c2 := (A.get 0 0 * (A.get 1 1 * bb.get 2 - bb.get 1 * A.get 2 1)
      - A.get 0 1 * (A.get 1 0 * bb.get 2 - bb.get 1 * A.get 2 0)
      + bb.get 0 * (A.get 1 0 * A.get 2 1 - A.get 1 1 * A.get 2 0)) / det3 A
    ((Array1D.filled 3 (0 : K)).set 0 c0).set 1 c1 |>.set 2 c2

/-- Lines 544-550 of `detrend2D`: the coefficients `(a_plane, b_plane, c_plane)`,
read from cells 0, 1 and 2 of the array that the solver returns. The source
reads them without a test of the matrix or of the returned array. -/
def detrend2D_coeffs (singular : Array1D K) (self : LSDRasterSpectral K) (zeta : Array2D K) :
    K × K × K :=
  let coeffs := LU_solve singular (detrend2D_sums self zeta).1 (detrend2D_sums self zeta).2
  (coeffs.get 0, coeffs.get 1, coeffs.get 2)

/-- Second loop of `detrend2D` (lines 552-570) for given plane coefficients.
Returns `(zeta_detrend, trend_plane)`. -/
def detrend2D_surface (self : LSDRasterSpectral K) (a_plane b_plane c_plane : K)
    (zeta zeta_detrend trend_plane : Array2D K) : Array2D K × Array2D K :=
  forLoop self.NRows (fun i s =>
    forLoop self.NCols (fun j s =>
      let x : K := (j : K)
      let y : K := (i : K)
      let zeta_detrend := s.1
      let trend_plane := s.2
      let trend_plane := trend_plane.set i j (a_plane * x + b_plane * y + c_plane)
      if zeta.get i j ≠ self.NoDataValue then
        (zeta_detrend.set i j (zeta.get i j - trend_plane.get i j), trend_plane)
      else
        (zeta_detrend.set i j 0, trend_plane)) s) (zeta_detrend, trend_plane)

/-- `LSDRasterSpectral::detrend2D` (lines 510-571), a `void` function without
an exit: returns `(zeta_detrend, trend_plane)`. `singular` is the array that
the solver hands back for a singular normal matrix. -/
def detrend2D (singular : Array1D K) (self : LSDRasterSpectral K)
    (zeta zeta_detrend trend_plane : Array2D K) : Array2D K × Array2D K :=
  let coeffs := detrend2D_coeffs singular self zeta
  let a_plane := coeffs.1
  let b_plane := coeffs.2.1
  let c_plane := coeffs.2.2
  detrend2D_surface self a_plane b_plane c_plane zeta zeta_detrend trend_plane

/-! ## Periodogram -/

/-- `LSDRasterSpectral::calculate_2D_PSD` (lines 687-698): the object with
`P_DFT` replaced. -/
def calculate_2D_PSD (self : LSDRasterSpectral K)
    (spectrum_real_shift spectrum_imaginary_shift : Array2D K) : LSDRasterSpectral K :=
  let temp : Array2D K := Array2D.filled self.Ly self.Lx 0
  let P_DFT := temp
  let P_DFT := forLoop self.Ly (fun i P =>
    forLoop self.Lx (fun j P =>
      P.set i j ((spectrum_real_shift.get i j ^ 2 + spectrum_imaginary_shift.get i j ^ 2)
        / (((self.Ly * self.Lx : Nat) : K) * self.WSS))) P) P_DFT
  { self with P_DFT := P_DFT }

/-! ## What the sources take from outside -/

/-- Functions and storage that the routines use and the sources do not define:
the C math library, the FFTW plan execution, the regression helper of
`LSDStatsTools`, the answer of the direct solver to a singular matrix, and the
contents of storage that is read before the program has written it. Theorems
quantify over all of them unless stated otherwise. -/
structure Extern (K : Type) where
  /-- `sqrt` of `math.h`. -/
  sqrt : K → K
  /-- `exp` of `math.h`. -/
  exp : K → K
  /-- `pow` of `math.h`. -/
  pow : K → K → K
  /-- `log10` of `math.h`. -/
  log10 : K → K
  /-- `log` of `math.h`. -/
  log : K → K
  /-- `ceil` of `math.h`. -/
  ceil : K → K
  /-- `floor` of `math.h`. -/
  floor : K → K
  /-- The conversion `int(x)`. -/
  to_int : K → Int
  /-- `cos` of `math.h`. -/
  cos : K → K
  /-- `sin` of `math.h`. -/
  sin : K → K
  /-- `atan2(y, x)` of `math.h`. -/
  atan2 : K → K → K
  /-- `fftw_execute` of a plan made by `fftw_plan_dft_2d(n0, n1, in, out, sign, ..)`:
  from the row-major complex input to the row-major complex output. -/
  fftw_execute : Nat → Nat → Int → (Nat → K × K) → (Nat → K × K)
  /-- `simple_linear_regression(x, y, residuals)` of `LSDStatsTools`: the vector
  `(slope, intercept, r^2, Durbin-Watson)`. -/
  simple_linear_regression : List K → List K → List K
  /-- Contents of an `Array2D<float>` declared without an initial value, per
  declaration site. -/
  uninit : Nat → Nat → Nat → K
  /-- Contents of an `fftw_malloc`ed input buffer after planning, per site. -/
  fftw_buffer : Nat → Nat → K × K
  /-- The `float` found one element past the end of `RadialFrequencyRaw`. -/
  past_end : K
  /-- The array that `JAMA::LU<float>::solve` hands back for a singular matrix;
  `detrend2D` reads its cells 0, 1 and 2. -/
  solve_singular : Array1D K

/-- The declaration `Array2D<float> a(m, n);` at declaration site `site`. -/
def Array2D.uninit (lib : Extern K) (site m n : Nat) : Array2D K := ⟨m, n, lib.uninit site⟩

/-! ## Construction of a spectral surface -/

/-- The expression `int(pow(2,ceil(log(n)/log(2))))` that sets `Ly` from `NRows`
and `Lx` from `NCols` (lines 146-147, 177-178, 204-205, 1425-1426). -/
def padded_length (lib : Extern K) (n : Nat) : Nat :=
  (lib.to_int (lib.pow 2 (lib.ceil (lib.log (n : K) / lib.log 2)))).toNat

/-- `LSDRasterSpectral::create(LSDRaster& An_LSDRaster)` (lines 196-209): the
object with the raster's members copied and `Ly`, `Lx` set. -/
def LSDRasterSpectral.create (lib : Extern K) (self : LSDRasterSpectral K)
    (An_LSDRaster : LSDRaster K) : LSDRasterSpectral K :=
  let self := { self with NRows := An_LSDRaster.NRows }
  let self := { self with NCols := An_LSDRaster.NCols }
  let self := { self with XMinimum := An_LSDRaster.XMinimum }
  let self := { self with YMinimum := An_LSDRaster.YMinimum }
  let self := { self with DataResolution := An_LSDRaster.DataResolution }
  let self := { self with NoDataValue := An_LSDRaster.NoDataValue }
  let self := { self with Ly := padded_length lib self.NRows }
  let self := { self with Lx := padded_length lib self.NCols }
  { self with RasterData := An_LSDRaster.RasterData }

/-! ## Fourier transform wrappers -/

/-- The write `buf[k][0] = v` on an array of `fftw_complex`. -/
def setRe (buf : Nat → K × K) (k : Nat) (v : K) : Nat → K × K :=
  fun p => if p = k then (v, (buf p).2) else buf p

/-- The write `buf[k][1] = v` on an array of `fftw_complex`. -/
def setIm (buf : Nat → K × K) (k : Nat) (v : K) : Nat → K × K :=
  fun p => if p = k then ((buf p).1, v) else buf p

/-- `LSDRasterSpectral::dfftw2D_fwd` (lines 386-437). `input0` is what the
input buffer holds when the data are loaded; only the real parts are loaded.
Returns `(OutputArrayReal, OutputArrayImaginary)`, or `none` for the
`exit(EXIT_FAILURE)` of a wrong direction. -/
def dfftw2D_fwd (fftw_execute : Nat → Nat → Int → (Nat → K × K) → (Nat → K × K))
    (input0 : Nat → K × K) (self : LSDRasterSpectral K)
    (InputArray OutputArrayReal OutputArrayImaginary : Array2D K) (transform_direction : Int) :
    Option (Array2D K × Array2D K) :=
  if transform_direction = -1 then
    let input := forLoop self.Ly (fun i input =>
      forLoop self.Lx (fun j input =>
        setRe input (self.Lx * i + j) (InputArray.get i j)) input) input0
    let output := fftw_execute self.Ly self.Lx transform_direction input
    some (forLoop self.Ly (fun i s =>
      forLoop self.Lx (fun j s =>
        (s.1.set i j (output (self.Lx * i + j)).1,
         s.2.set i j (output (self.Lx * i + j)).2)) s)
      (OutputArrayReal, OutputArrayImaginary))
  else none

/-- `LSDRasterSpectral::dfftw2D_inv` (lines 444-494). Returns `OutputArray`, or
`none` for the `exit(EXIT_FAILURE)` of a wrong direction. -/
def dfftw2D_inv (fftw_execute : Nat → Nat → Int → (Nat → K × K) → (Nat → K × K))
    (input0 : Nat → K × K) (self : LSDRasterSpectral K)
    (InputArrayReal InputArrayImaginary OutputArray : Array2D K) (transform_direction : Int) :
    Option (Array2D K) :=
  if transform_direction = 1 then
    let input := forLoop self.Ly (fun i input =>
      forLoop self.Lx (fun j input =>
        let input := setRe input (self.Lx * i + j) (InputArrayReal.get i j)
        setIm input (self.Lx * i + j) (InputArrayImaginary.get i j)) input) input0
    let output := fftw_execute self.Ly self.Lx transform_direction input
    some (forLoop self.Ly (fun i OutputArray =>
      forLoop self.Lx (fun j OutputArray =>
        OutputArray.set i j (output (self.Lx * i + j)).1) OutputArray) OutputArray)
  else none

/-! ## Radially averaged spectrum -/

/-- Modelled from the spec: `matlab_float_sort` of `LSDStatsTools` (declared in
`LSDStatsTools.hpp`, its body is not among the sources). "Sort all (radius,
power) pairs ascending by radius": the index map lists the positions of
`unsorted` in ascending order of their values and `sorted[i] =
unsorted[index_map[i]]`. Returns `(sorted, index_map)`. -/
def matlab_float_sort (unsorted : List K) : List K × List Nat :=
  let index_map := (List.range unsorted.length).insertionSort
    (fun a b => unsorted.getD a 0 ≤ unsorted.getD b 0)
  (index_map.map (fun k => unsorted.getD k 0), index_map)

/-- Modelled from the spec: `matlab_float_reorder` of `LSDStatsTools` (declared
in `LSDStatsTools.hpp`): `ordered[i] = unordered[index_map[i]]`. -/
def matlab_float_reorder (unordered : List K) (index_map : List Nat) : List K :=
  index_map.map (fun k => unordered.getD k 0)

/-- The radial frequency of spectrum cell `(i, j)` as all routines compute it:
`sqrt((y - Ly/2)*(y - Ly/2)*dfy*dfy + (x - Lx/2)*(x - Lx/2)*dfx*dfx)` with
`dfx = 1/(DataResolution*Lx)`, `dfy = 1/(DataResolution*Ly)`, `x = j`, `y = i`
and `Ly/2`, `Lx/2` integer divisions. -/
def radial_frequency (lib : Extern K) (self : LSDRasterSpectral K) (i j : Nat) : K :=
  let dfx : K := 1 / (self.DataResolution * (self.Lx : K))
  let dfy : K := 1 / (self.DataResolution * (self.Ly : K))
  let x : K := (j : K)
  let y : K := (i : K)
  lib.sqrt ((y - ((self.Ly / 2 : Nat) : K)) * (y - ((self.Ly / 2 : Nat) : K)) * dfy * dfy
    + (x - ((self.Lx / 2 : Nat) : K)) * (x - ((self.Lx / 2 : Nat) : K)) * dfx * dfx)

/-- Lines 711-731 of `calculate_radial_PSD`: the raw vectors
`(RadialFrequencyRaw, RadialPSDRaw, count)` after the collection loop. -/
def radial_PSD_raw (lib : Extern K) (self : LSDRasterSpectral K) : List K × List K × Nat :=
  let RadialFrequencyRaw : List K := List.replicate (self.Ly * (self.Lx / 2 + 1)) 0
  let RadialPSDRaw : List K := List.replicate (self.Ly * (self.Lx / 2 + 1)) 0
  let NyquistFreq : K := 1 / (2 * self.DataResolution)
  forLoop self.Ly (fun i s =>
    forLoop (self.Lx / 2 + 1) (fun j s =>
      let RadialFreq := radial_frequency lib self i j
      if RadialFreq ≤ NyquistFreq then
        (s.1.set s.2.2 RadialFreq, s.2.1.set s.2.2 (2 * self.P_DFT.get i j), s.2.2 + 1)
      else s) s) (RadialFrequencyRaw, RadialPSDRaw, 0)

/-- Lines 738-746 of `calculate_radial_PSD`: the count `n_freqs` of positions
`i < size` with `Raw[i] != Raw[i+1]`; the read at `i + 1 = size` is past the
end of the vector and yields `past_end`. -/
def count_freqs (past_end : K) (size : Nat) (RadialFrequencyRaw : List K) : Nat :=
  forLoop size (fun i n_freqs =>
    if RadialFrequencyRaw.getD i 0 ≠ RadialFrequencyRaw.getD (i + 1) past_end
    then n_freqs + 1 else n_freqs) 0

/-- Lines 750-768 of `calculate_radial_PSD`: the grouping loop over the sorted
raw vectors. State `(RadialFrequency_grouped, RadialPSD_average, n_occurences,
pointer)`. A write at an index past the end of a vector lies outside the
vector: it leaves the elements of the vector as they are, and what else it
overwrites is not part of the state. -/
def group_freqs (past_end : K) (size n_freqs : Nat) (RadialFrequencyRaw RadialPSDRaw : List K) :
    List K × List K × Nat × Nat :=
  forLoop size (fun i s =>
    let grouped := s.1
    let average := s.2.1
    let n_occurences := s.2.2.1
    let pointer := s.2.2.2
    let grouped := grouped.set pointer (RadialFrequencyRaw.getD i 0)
    let average := average.set pointer (average.getD pointer 0 + RadialPSDRaw.getD i 0)
    let n_occurences := n_occurences + 1
    if RadialFrequencyRaw.getD i 0 ≠ RadialFrequencyRaw.getD (i + 1) past_end then
      (grouped, average.set pointer (average.getD pointer 0 / (n_occurences : K)), 0, pointer + 1)
    else
      (grouped, average, n_occurences, pointer))
    (List.replicate n_freqs 0, List.replicate n_freqs 0, 0, 0)

/-- `LSDRasterSpectral::calculate_radial_PSD` (lines 703-774): the object with
`RadialFrequency` and `RadiallyAveragedPSD` replaced. -/
def calculate_radial_PSD (lib : Extern K) (self : LSDRasterSpectral K) : LSDRasterSpectral K :=
  let size := self.Ly * (self.Lx / 2 + 1)
  let raw := radial_PSD_raw lib self
  let sorted := matlab_float_sort raw.1
  let RadialFrequencyRaw := sorted.1
  let index_map := sorted.2
  let RadialPSDRaw := matlab_float_reorder raw.2.1 index_map
  let n_freqs := count_freqs lib.past_end size RadialFrequencyRaw
  let g := group_freqs lib.past_end size n_freqs RadialFrequencyRaw RadialPSDRaw
  { self with RadiallyAveragedPSD := g.2.1, RadialFrequency := g.1 }

/-! ## Filter weights -/

/-- `LSDRasterSpectral::bandpass_filter` (lines 953-980). Returns
`(FilteredSpectrumReal, FilteredSpectrumImaginary)`. -/
def bandpass_filter (lib : Extern K) (self : LSDRasterSpectral K)
    (RawSpectrumReal RawSpectrumImaginary FilteredSpectrumReal FilteredSpectrumImaginary :
      Array2D K) (f1 f2 : K) : Array2D K × Array2D K :=
  let sigma := lib.sqrt ((f2 - f1) * (f2 - f1)) / 6
  forLoop self.Ly (fun i s =>
    forLoop self.Lx (fun j s =>
      let f := radial_frequency lib self i j
      let weight := lib.exp (-(f - (1 / 2) * (f1 + f2)) * (f - (1 / 2) * (f1 + f2))
        / (2 * sigma * sigma))
      (s.1.set i j (weight * RawSpectrumReal.get i j),
       s.2.set i j (weight * RawSpectrumImaginary.get i j))) s)
    (FilteredSpectrumReal, FilteredSpectrumImaginary)

/-- The weight `lowpass_filter` computes at radial frequency `f` (lines 1007-1022). -/
def lowpass_weight (lib : Extern K) (f1 f2 f : K) : K :=
  if f < f1 then 1
  else if f2 > f1 then
    let sigma := lib.sqrt ((f2 - f1) * (f2 - f1)) / 3
    lib.exp (-(f - f1) * (f - f1) / (2 * sigma * sigma))
  else 0

/-- `LSDRasterSpectral::lowpass_filter` (lines 985-1027). -/
def lowpass_filter (lib : Extern K) (self : LSDRasterSpectral K)
    (RawSpectrumReal RawSpectrumImaginary FilteredSpectrumReal FilteredSpectrumImaginary :
      Array2D K) (f1 f2 : K) : Array2D K × Array2D K :=
  forLoop self.Ly (fun i s =>
    forLoop self.Lx (fun j s =>
      let f := radial_frequency lib self i j
      let weight := lowpass_weight lib f1 f2 f
      (s.1.set i j (weight * RawSpectrumReal.get i j),
       s.2.set i j (weight * RawSpectrumImaginary.get i j))) s)
    (FilteredSpectrumReal, FilteredSpectrumImaginary)

/-- The weight `highpass_filter` computes at radial frequency `f` (lines 1057-1072). -/
def highpass_weight (lib : Extern K) (f1 f2 f : K) : K :=
  if f > f2 then 1
  else if f2 > f1 then
    let sigma := lib.sqrt ((f2 - f1) * (f2 - f1)) / 3
    lib.exp (-(f - f2) * (f - f2) / (2 * sigma * sigma))
  else 0

/-- `LSDRasterSpectral::highpass_filter` (lines 1036-1077). -/
def highpass_filter (lib : Extern K) (self : LSDRasterSpectral K)
    (RawSpectrumReal RawSpectrumImaginary FilteredSpectrumReal FilteredSpectrumImaginary :
      Array2D K) (f1 f2 : K) : Array2D K × Array2D K :=
  forLoop self.Ly (fun i s =>
    forLoop self.Lx (fun j s =>
      let f := radial_frequency lib self i j
      let weight := highpass_weight lib f1 f2 f
      (s.1.set i j (weight * RawSpectrumReal.get i j),
       s.2.set i j (weight * RawSpectrumImaginary.get i j))) s)
    (FilteredSpectrumReal, FilteredSpectrumImaginary)

/-- Lines 1118-1139 of `wiener_filter`: the power-law fit `(m_model, c_model)`
to the radial spectrum between `f_low = 0.001` and `f_high = 0.01`. -/
def wiener_model (lib : Extern K) (self : LSDRasterSpectral K) : K × K :=
  let n_freqs := self.RadialFrequency.length
  let f_low : K := 1 / 1000
  let f_high : K := 1 / 100
  let logs := forLoop n_freqs (fun i s =>
    if self.RadialFrequency.getD i 0 ≤ f_high ∧ self.RadialFrequency.getD i 0 ≥ f_low then
      (s.1 ++ [lib.log10 (self.RadialFrequency.getD i 0)],
       s.2 ++ [lib.log10 (self.RadiallyAveragedPSD.getD i 0)])
    else s) (([] : List K), ([] : List K))
  let regression_results := lib.simple_linear_regression logs.1 logs.2
  let m_model := regression_results.getD 0 0
  let logc_model := regression_results.getD 1 0
  (m_model, lib.pow 10 logc_model)

/-- Lines 1162-1173 of `wiener_filter`: the sum and the count `n_freqs_noise`
of the radial spectrum at frequencies `>= pow(10, -0.7)`. -/
def wiener_noise_sum (lib : Extern K) (self : LSDRasterSpectral K) : K × Nat :=
  let f_highpass := lib.pow 10 (-(7 / 10))
  forLoop self.RadiallyAveragedPSD.length (fun i s =>
    if self.RadialFrequency.getD i 0 ≥ f_highpass then
      (s.1 + self.RadiallyAveragedPSD.getD i 0, s.2 + 1)
    else s) ((0 : K), 0)

/-- `LSDRasterSpectral::wiener_filter` (lines 1098-1233). Returns the object
(whose `P_DFT` and radial sequences the call replaces) and the pair
`(FilteredSpectrumReal, FilteredSpectrumImaginary)`. The local vectors
`RadialPSD_model` and `Noise_model`, written and never read, are left out. -/
def wiener_filter (lib : Extern K) (self : LSDRasterSpectral K)
    (RawSpectrumReal RawSpectrumImaginary FilteredSpectrumReal FilteredSpectrumImaginary :
      Array2D K) : LSDRasterSpectral K × Array2D K × Array2D K :=
  let self := calculate_2D_PSD self RawSpectrumReal RawSpectrumImaginary
  let self := calculate_radial_PSD lib self
  let model_fit := wiener_model lib self
  let m_model := model_fit.1
  let c_model := model_fit.2
  let noise_sum := wiener_noise_sum lib self
  let WhiteNoiseAmplitude := noise_sum.1 / (noise_sum.2 : K)
  let filtered := forLoop self.Ly (fun i s =>
    forLoop self.Lx (fun j s =>
      let f := radial_frequency lib self i j
      let model := c_model * lib.pow f m_model
      let noise := WhiteNoiseAmplitude
      let WienerCoefficient := if f = 0 then 1 else model / (model + noise)
      (s.1.set i j (WienerCoefficient * RawSpectrumReal.get i j),
       s.2.set i j (WienerCoefficient * RawSpectrumImaginary.get i j))) s)
    (FilteredSpectrumReal, FilteredSpectrumImaginary)
  (self, filtered.1, filtered.2)

/-! ## The filter pipelines -/

/-- Modelled from the spec: the constructor `LSDRaster(nrows, ncols, xmin, ymin,
cellsize, ndv, data)` (`LSDRaster.cpp` is not among the sources). "Construction
of a new Grid from (dimensions, georeferencing, nodata, dense array)"; as in
the sibling `LSDRasterSpectral::create`, the program exits (`none`) when the
dimensions of `data` are not `(nrows, ncols)`. -/
def LSDRaster.create (nrows ncols : Nat) (xmin ymin cellsize ndv : K) (data : Array2D K) :
    Option (LSDRaster K) :=
  if data.dim1 ≠ nrows then none
  else if data.dim2 ≠ ncols then none
  else some ⟨nrows, ncols, xmin, ymin, cellsize, ndv, data⟩

/-- The padding loop of the pipelines (lines 1288-1302, 1428-1442, 811-825):
`zeta_padded` holds `source` on the `NRows x NCols` block and 0 elsewhere. -/
def pad_to_power_of_two (self : LSDRasterSpectral K) (source zeta_padded : Array2D K) :
    Array2D K :=
  forLoop self.Ly (fun i zeta_padded =>
    forLoop self.Lx (fun j zeta_padded =>
      if i < self.NRows ∧ j < self.NCols then zeta_padded.set i j (source.get i j)
      else zeta_padded.set i j 0) zeta_padded) zeta_padded

/-- The rescaling loop that ends both pipelines (lines 1354-1361, 1483-1490). -/
def rescale_topography (self : LSDRasterSpectral K)
    (FilteredTopographyPadded trend_plane : Array2D K) : Array2D K :=
  forLoop self.NRows (fun i FilteredTopography =>
    forLoop self.NCols (fun j FilteredTopography =>
      if self.RasterData.get i j ≠ self.NoDataValue then
        FilteredTopography.set i j
          (FilteredTopographyPadded.get i j / ((self.Lx * self.Ly : Nat) : K)
            + trend_plane.get i j)
      else FilteredTopography) FilteredTopography)
    (Array2D.filled self.NRows self.NCols self.NoDataValue)

/-- Lines 1304-1364 of `fftw2D_filter` and 1444-1493 of `fftw2D_wiener`, which
are the same statements but for the filter applied: forward transform, shift,
`filter`, de-shift, inverse transform, rescaling, construction of the raster.
`site` numbers the uninitialised declarations. -/
def transform_filter_rebuild (lib : Extern K) (self : LSDRasterSpectral K)
    (zeta_padded trend_plane : Array2D K)
    (filter : Array2D K → Array2D K → Array2D K → Array2D K → Array2D K × Array2D K) :
    Option (LSDRaster K) :=
  let transform_direction : Int := -1
  let spectrum_real := Array2D.uninit lib 3 self.Ly self.Lx
  let spectrum_imaginary := Array2D.uninit lib 4 self.Ly self.Lx
  match dfftw2D_fwd lib.fftw_execute (lib.fftw_buffer 0) self zeta_padded spectrum_real
      spectrum_imaginary transform_direction with
  | none => none
  | some spectrum =>
    let spectrum_real_shift := Array2D.uninit lib 5 self.Ly self.Lx
    let spectrum_imaginary_shift := Array2D.uninit lib 6 self.Ly self.Lx
    let shifted := shift_spectrum self.Ly self.Lx spectrum.1 spectrum.2
      spectrum_real_shift spectrum_imaginary_shift
    let FilteredSpectrumReal : Array2D K := Array2D.filled self.Ly self.Lx 0
    let FilteredSpectrumImaginary : Array2D K := Array2D.filled self.Ly self.Lx 0
    let filtered := filter shifted.1 shifted.2 FilteredSpectrumReal FilteredSpectrumImaginary
    let FilteredSpectrumReal_deshift := Array2D.uninit lib 7 self.Ly self.Lx
    let FilteredSpectrumImaginary_deshift := Array2D.uninit lib 8 self.Ly self.Lx
    let deshifted := shift_spectrum_inv self.Ly self.Lx filtered.1 filtered.2
      FilteredSpectrumReal_deshift FilteredSpectrumImaginary_deshift
    let transform_direction : Int := 1
    let FilteredTopographyPadded := Array2D.uninit lib 9 self.Ly self.Lx
    match dfftw2D_inv lib.fftw_execute (lib.fftw_buffer 1) self deshifted.1 deshifted.2
        FilteredTopographyPadded transform_direction with
    | none => none
    | some FilteredTopographyPadded =>
      let FilteredTopography := rescale_topography self FilteredTopographyPadded trend_plane
      LSDRaster.create self.NRows self.NCols self.XMinimum self.YMinimum self.DataResolution
        self.NoDataValue FilteredTopography

/-- `LSDRasterSpectral::fftw2D_filter` (lines 1267-1365). `none` when the call
does not return a raster. -/
def fftw2D_filter (lib : Extern K) (self : LSDRasterSpectral K) (FilterType : Int)
    (FLow FHigh : K) : Option (LSDRaster K) :=
  let zeta_detrend := Array2D.uninit lib 0 self.NRows self.NCols
  let trend_plane := Array2D.uninit lib 1 self.NRows self.NCols
  let detrended := detrend2D lib.solve_singular self self.RasterData zeta_detrend trend_plane
  let zeta_padded := pad_to_power_of_two self detrended.1
    (Array2D.uninit lib 2 self.Ly self.Lx)
  transform_filter_rebuild lib self zeta_padded detrended.2
    (fun spectrum_real_shift spectrum_imaginary_shift FilteredSpectrumReal
        FilteredSpectrumImaginary =>
      if FilterType = 1 then
        bandpass_filter lib self spectrum_real_shift spectrum_imaginary_shift
          FilteredSpectrumReal FilteredSpectrumImaginary FLow FHigh
      else if FilterType = 2 then
        lowpass_filter lib self spectrum_real_shift spectrum_imaginary_shift
          FilteredSpectrumReal FilteredSpectrumImaginary FLow FHigh
      else if FilterType = 3 then
        highpass_filter lib self spectrum_real_shift spectrum_imaginary_shift
          FilteredSpectrumReal FilteredSpectrumImaginary FLow FHigh
      else (FilteredSpectrumReal, FilteredSpectrumImaginary))

/-- `LSDRasterSpectral::fftw2D_wiener` (lines 1410-1494). `none` when the call
does not return a raster. -/
def fftw2D_wiener (lib : Extern K) (self : LSDRasterSpectral K) : Option (LSDRaster K) :=
  let zeta_detrend := Array2D.uninit lib 0 self.NRows self.NCols
  let trend_plane := Array2D.uninit lib 1 self.NRows self.NCols
  let detrended := detrend2D lib.solve_singular self self.RasterData zeta_detrend trend_plane
  let self := { self with WSS := 1 }
  let self := { self with Ly := padded_length lib self.NRows }
  let self := { self with Lx := padded_length lib self.NCols }
  let zeta_padded := pad_to_power_of_two self detrended.1
    (Array2D.uninit lib 2 self.Ly self.Lx)
  transform_filter_rebuild lib self zeta_padded detrended.2
    (fun spectrum_real_shift spectrum_imaginary_shift FilteredSpectrumReal
        FilteredSpectrumImaginary =>
      (wiener_filter lib self spectrum_real_shift spectrum_imaginary_shift
        FilteredSpectrumReal FilteredSpectrumImaginary).2)

/-! ## The padded arrays of the three pipelines -/

/-- `LSDRasterSpectral::window_data_Hann2D` (lines 582-626). `WSS` is a member
that the loop adds to. Returns the object with the new `WSS` and the pair
`(zeta_Hann2D, Hann2D)`. The local arrays `r_prime_matrix`, `id` and
`theta_matrix`, never read, are left out. -/
def window_data_Hann2D (lib : Extern K) (self : LSDRasterSpectral K)
    (zeta_detrend zeta_Hann2D Hann2D : Array2D K) :
    LSDRasterSpectral K × Array2D K × Array2D K :=
  let PI : K := 314159265 / 100000000
  let ny : K := (self.NRows : K)
  let nx : K := (self.NCols : K)
  let a := (nx - 1) / 2
  let b := (ny - 1) / 2
  let w := forLoop self.NRows (fun i s =>
    forLoop self.NCols (fun j s =>
      let x : K := (j : K)
      let y : K := (i : K)
      let theta := if x = a then PI / 2 else lib.atan2 (y - b) (x - a)
      let r := lib.sqrt ((y - b) * (y - b) + (x - a) * (x - a))
      let rprime := lib.sqrt ((a * a) * (b * b)
        / (b * b * (lib.cos theta * lib.cos theta) + a * a * (lib.sin theta * lib.sin theta)))
      if r < rprime then
        let HannCoefficient := (1 / 2) * (1 + lib.cos (PI * r / rprime))
        (s.1 + HannCoefficient * HannCoefficient,
         s.2.1.set i j (zeta_detrend.get i j * HannCoefficient),
         s.2.2.set i j HannCoefficient)
      else s) s) (self.WSS, zeta_Hann2D, Hann2D)
  ({ self with WSS := w.1 }, w.2.1, w.2.2)

/-- Lines 1276-1302 of `fftw2D_filter`: the padded array `zeta_padded`. -/
def fftw2D_filter_padded (lib : Extern K) (self : LSDRasterSpectral K) : Array2D K :=
  let zeta_detrend := Array2D.uninit lib 0 self.NRows self.NCols
  let trend_plane := Array2D.uninit lib 1 self.NRows self.NCols
  let detrended := detrend2D lib.solve_singular self self.RasterData zeta_detrend trend_plane
  pad_to_power_of_two self detrended.1 (Array2D.uninit lib 2 self.Ly self.Lx)

/-- Lines 1416-1442 of `fftw2D_wiener`: the object with `WSS`, `Ly`, `Lx` set
and the padded array `zeta_padded`. -/
def fftw2D_wiener_padded (lib : Extern K) (self : LSDRasterSpectral K) :
    LSDRasterSpectral K × Array2D K :=
  let zeta_detrend := Array2D.uninit lib 0 self.NRows self.NCols
  let trend_plane := Array2D.uninit lib 1 self.NRows self.NCols
  let detrended := detrend2D lib.solve_singular self self.RasterData zeta_detrend trend_plane
  let self := { self with WSS := 1 }
  let self := { self with Ly := padded_length lib self.NRows }
  let self := { self with Lx := padded_length lib self.NCols }
  (self, pad_to_power_of_two self detrended.1 (Array2D.uninit lib 2 self.Ly self.Lx))

/-- Lines 791-825 of `fftw2D_spectral_analysis`: the object with `WSS` summed
by the window, the windowed array `zeta_Hann2D` and the padded array
`zeta_padded`. -/
def fftw2D_spectral_analysis_padded (lib : Extern K) (self : LSDRasterSpectral K) :
    LSDRasterSpectral K × Array2D K × Array2D K :=
  let zeta_detrend := Array2D.uninit lib 10 self.NRows self.NCols
  let trend_plane := Array2D.uninit lib 11 self.NRows self.NCols
  let detrended := detrend2D lib.solve_singular self self.RasterData zeta_detrend trend_plane
  let Hann2D : Array2D K := Array2D.filled self.NRows self.NCols 0
  let zeta_Hann2D : Array2D K := Array2D.filled self.NRows self.NCols 0
  let self := { self with WSS := 0 }
  let windowed := window_data_Hann2D lib self detrended.1 zeta_Hann2D Hann2D
  let self := windowed.1
  let zeta_Hann2D := windowed.2.1
  let zeta_padded := pad_to_power_of_two self zeta_Hann2D
    (Array2D.uninit lib 12 self.Ly self.Lx)
  (self, zeta_Hann2D, zeta_padded)

/-! ## The periodogram of the analysis path -/

/-- Lines 791-836 of `fftw2D_spectral_analysis`: detrending, windowing (with
`WSS` set to 0 before it), padding, forward transform, shift and periodogram.
Returns the object after `calculate_2D_PSD`, the window `Hann2D` and the
shifted spectrum `(SpectrumReal_shift, SpectrumImaginary_shift)`; `none` when
the call does not get that far. -/
def fftw2D_spectral_analysis_PSD (lib : Extern K) (self : LSDRasterSpectral K) :
    Option (LSDRasterSpectral K × Array2D K × Array2D K × Array2D K) :=
  let zeta_detrend := Array2D.uninit lib 10 self.NRows self.NCols
  let trend_plane := Array2D.uninit lib 11 self.NRows self.NCols
  let detrended := detrend2D lib.solve_singular self self.RasterData zeta_detrend trend_plane
  let Hann2D : Array2D K := Array2D.filled self.NRows self.NCols 0
  let zeta_Hann2D : Array2D K := Array2D.filled self.NRows self.NCols 0
  let self := { self with WSS := 0 }
  let windowed := window_data_Hann2D lib self detrended.1 zeta_Hann2D Hann2D
  let self := windowed.1
  let zeta_Hann2D := windowed.2.1
  let Hann2D := windowed.2.2
  let zeta_padded := pad_to_power_of_two self zeta_Hann2D
    (Array2D.uninit lib 12 self.Ly self.Lx)
  let transform_direction : Int := -1
  let SpectrumReal := Array2D.uninit lib 13 self.Ly self.Lx
  let SpectrumImaginary := Array2D.uninit lib 14 self.Ly self.Lx
  match dfftw2D_fwd lib.fftw_execute (lib.fftw_buffer 0) self zeta_padded SpectrumReal
      SpectrumImaginary transform_direction with
  | none => none
  | some spectrum =>
    let SpectrumReal_shift := Array2D.uninit lib 15 self.Ly self.Lx
    let SpectrumImaginary_shift := Array2D.uninit lib 16 self.Ly self.Lx
    let shifted := shift_spectrum self.Ly self.Lx spectrum.1 spectrum.2
      SpectrumReal_shift SpectrumImaginary_shift
    some (calculate_2D_PSD self shifted.1 shifted.2, Hann2D, shifted.1, shifted.2)

/-! ## Construction from an array -/

/-- `LSDRasterSpectral::create(int nrows, int NCols, float xmin, float ymin,
float cellsize, float ndv, Array2D<float> data)` (lines 165-193). The second
parameter is named `NCols` and hides the member of that name inside the body:
`NCols = NCols;` assigns the parameter to itself and leaves the member as it
was (no update of the member appears below), and the later uses of `NCols` (in
`Lx` and in the dimension test) read the parameter. `none` for
`exit(EXIT_FAILURE)`. -/
def LSDRasterSpectral.create_with_data (lib : Extern K) (self : LSDRasterSpectral K)
    (nrows NCols : Nat) (xmin ymin cellsize ndv : K) (data : Array2D K) :
    Option (LSDRasterSpectral K) :=
  let self : LSDRasterSpectral K :=
    { self with
      NRows := nrows
      XMinimum := xmin
      YMinimum := ymin
      DataResolution := cellsize
      NoDataValue := ndv }
  let self := { self with Ly := padded_length lib self.NRows }
  let self := { self with Lx := padded_length lib NCols }
  let self := { self with RasterData := data }
  if self.RasterData.dim1 ≠ self.NRows then none
  else if self.RasterData.dim2 ≠ NCols then none
  else some self

/-- `LSDRasterSpectral::operator=` (lines 110-118); `rhs_is_this` is the outcome
of the test `&rhs != this` being false. Returns the assigned-to object. -/
def LSDRasterSpectral.assign (lib : Extern K) (self rhs : LSDRasterSpectral K)
    (rhs_is_this : Bool) : Option (LSDRasterSpectral K) :=
  if rhs_is_this then some self
  else
    LSDRasterSpectral.create_with_data lib self rhs.NRows rhs.NCols rhs.XMinimum rhs.YMinimum
      rhs.DataResolution rhs.NoDataValue rhs.RasterData

end Detrend

/-! ## Machine arithmetic -/

/-- Rounding of a rational to the nearest integer, ties to the even one. -/
def round_half_even (q : ℚ) : Int :=
  if q - (⌊q⌋ : ℚ) < 1 / 2 then ⌊q⌋
  else if 1 / 2 < q - (⌊q⌋ : ℚ) then ⌊q⌋ + 1
  else if ⌊q⌋ % 2 = 0 then ⌊q⌋ else ⌊q⌋ + 1

/-- The position of the leading binary digit of `n` (0 for `n < 2`), found by
halving; `fuel >= n` halvings are more than enough. -/
def leading_bit : Nat → Nat → Nat
  | 0, _ => 0
  | fuel + 1, n => if 2 ≤ n then leading_bit fuel (n / 2) + 1 else 0

/-- The exponent `e` with `2^e <= |x| < 2^(e+1)` of a rational `x` other than 0:
the difference of the leading digits of numerator and denominator, or one
less. -/
def binade (x : ℚ) : Int :=
  let e : Int := (leading_bit x.num.natAbs x.num.natAbs : Int) - (leading_bit x.den x.den : Int)
  if (2 : ℚ) ^ e ≤ |x| then e else e - 1

/-- The value of type `float` (IEEE 754 single precision: 24 significant bits,
least exponent -126, round to nearest, ties to even) nearest to `x`, which is
what an operation on `float` operands with exact result `x` yields. Overflow to
infinity, from `2^128` on, is not modelled. -/
def round_to_single (x : ℚ) : ℚ :=
  if x = 0 then 0
  else
    let ulp : ℚ := 2 ^ (max (binade x) (-126) - 23)
    (round_half_even (x / ulp) : ℚ) * ulp

/-! ## Index rasters -/

/-- The read `a[i][j]` with `int` indices. An index outside the array has no
cell of the array to read; `outside i j` stands for what is found there. -/
def Array2D.read {α : Type} (a : Array2D α) (outside : Int → Int → α) (i j : Int) : α :=
  if 0 ≤ i ∧ i < (a.dim1 : Int) ∧ 0 ≤ j ∧ j < (a.dim2 : Int) then a.data i.toNat j.toNat
  else outside i j

/-- The write `a[i][j] = v` with `int` indices. A write to an index outside the
array changes no cell of the array. -/
def Array2D.write {α : Type} (a : Array2D α) (i j : Int) (v : α) : Array2D α :=
  if 0 ≤ i ∧ i < (a.dim1 : Int) ∧ 0 ≤ j ∧ j < (a.dim2 : Int) then a.set i.toNat j.toNat v
  else a

/-- The assignment `a = v` of a scalar to an `Array2D` (TNT's
`Array2D<T>::operator=(const T&)`): every element becomes `v`. -/
def Array2D.assign_scalar {α : Type} (a : Array2D α) (v : α) : Array2D α :=
  { a with data := fun _ _ => v }

/-- The loop `for (int i = lo; i < hi; ++i) s = body i s`. -/
def forRange {σ : Type} (lo hi : Int) (body : Int → σ → σ) (s : σ) : σ :=
  forLoop (hi - lo).toNat (fun k s => body (lo + (k : Int)) s) s

/-- The loop `while (cond a) ++a;` from `a`, run for at most `fuel` steps. -/
def scan_up (cond : Int → Bool) : Nat → Int → Int
  | 0, a => a
  | fuel + 1, a => if cond a then scan_up cond fuel (a + 1) else a

/-- The loop `while (cond a) --a;` from `a`, run for at most `fuel` steps. -/
def scan_down (cond : Int → Bool) : Nat → Int → Int
  | 0, a => a
  | fuel + 1, a => if cond a then scan_down cond fuel (a - 1) else a

/-- Members of `LSDIndexRaster`, a raster of `int`. -/
structure LSDIndexRaster (K : Type) where
  NRows : Nat
  NCols : Nat
  XMinimum : K
  YMinimum : K
  DataResolution : K
  NoDataValue : Int
  RasterData : Array2D Int

section IndexRaster

variable {K : Type} [LinearOrderedField K]

/-- `LSDIndexRaster::create(int nrows, int ncols, float xmin, float ymin, float
cellsize, int ndv, Array2D<int> data)` (lines 121-141), to which the constructor
with these arguments hands them. `none` for `exit(EXIT_FAILURE)`. -/
def LSDIndexRaster.create (nrows ncols : Nat) (xmin ymin cellsize : K) (ndv : Int)
    (data : Array2D Int) : Option (LSDIndexRaster K) :=
  if data.dim1 ≠ nrows then none
  else if data.dim2 ≠ ncols then none
  else some ⟨nrows, ncols, xmin, ymin, cellsize, ndv, data⟩

/-- Lines 372-384 of `RasterTrimmer`: `min_col`. The `while` loop advances `a` at
most `NCols - 1` times, so `NCols` steps of `scan_up` run it to its end. -/
def LSDIndexRaster.trim_min_col (outside : Int → Int → Int) (self : LSDIndexRaster K) : Int :=
  forLoop self.NRows (fun row min_col =>
    let a := scan_up (fun a => decide (self.RasterData.read outside row a = self.NoDataValue
      ∧ a < (self.NCols : Int) - 1)) self.NCols 0
    if min_col > a then a else min_col) 100000

/-- Lines 386-398 of `RasterTrimmer`: `max_col`. -/
def LSDIndexRaster.trim_max_col (outside : Int → Int → Int) (self : LSDIndexRaster K) : Int :=
  forLoop self.NRows (fun row max_col =>
    let a := scan_down (fun a => decide (self.RasterData.read outside row a = self.NoDataValue
      ∧ a > 0)) self.NCols ((self.NCols : Int) - 1)
    if max_col < a then a else max_col) 0

/-- Lines 400-412 of `RasterTrimmer`: `min_row`. -/
def LSDIndexRaster.trim_min_row (outside : Int → Int → Int) (self : LSDIndexRaster K) : Int :=
  forLoop self.NCols (fun col min_row =>
    let a := scan_up (fun a => decide (self.RasterData.read outside a col = self.NoDataValue
      ∧ a < (self.NRows : Int) - 1)) self.NRows 0
    if min_row > a then a else min_row) 100000

/-- Lines 414-426 of `RasterTrimmer`: `max_row`. -/
def LSDIndexRaster.trim_max_row (outside : Int → Int → Int) (self : LSDIndexRaster K) : Int :=
  forLoop self.NCols (fun col max_row =>
    let a := scan_down (fun a => decide (self.RasterData.read outside a col = self.NoDataValue
      ∧ a > 0)) self.NRows ((self.NRows : Int) - 1)
    if max_row < a then a else max_row) 0

/-- Lines 434-444 of `RasterTrimmer`: the copy loop, from `row = min_row - 1` and
`col = min_col - 1`. The state is `(TrimmedData, TrimmedRow, TrimmedCol)`. -/
def LSDIndexRaster.trim_copy (outside : Int → Int → Int) (self : LSDIndexRaster K)
    (min_row max_row min_col max_col : Int) (TrimmedData : Array2D Int) :
    Array2D Int × Nat × Nat :=
  forRange (min_row - 1) max_row (fun row s =>
    let s := forRange (min_col - 1) max_col (fun col s =>
      (s.1.set s.2.1 s.2.2 (self.RasterData.read outside row col), s.2.1, s.2.2 + 1)) s
    (s.1, s.2.1 + 1, 0)) (TrimmedData, 0, 0)

/-- `LSDIndexRaster::RasterTrimmer` (lines 370-455). -/
def LSDIndexRaster.RasterTrimmer (outside : Int → Int → Int) (self : LSDIndexRaster K) :
    Option (LSDIndexRaster K) :=
  let min_col := self.trim_min_col outside
  let max_col := self.trim_max_col outside
  let min_row := self.trim_min_row outside
  let max_row := self.trim_max_row outside
  let new_row_dimension : Int := (max_row - min_row) + 1
  let new_col_dimension : Int := (max_col - min_col) + 1
  let TrimmedData : Array2D Int :=
    Array2D.filled new_row_dimension.toNat new_col_dimension.toNat self.NoDataValue
  let TrimmedData := (self.trim_copy outside min_row max_row min_col max_col TrimmedData).1
  let new_XLL : K := (((min_col - 1 : Int) : K) * self.DataResolution) + self.XMinimum
  let new_YLL : K := self.YMinimum
    + ((((self.NRows : Int) - (max_row + 0) : Int) : K) * self.DataResolution)
  LSDIndexRaster.create new_row_dimension.toNat new_col_dimension.toNat new_XLL new_YLL
    self.DataResolution self.NoDataValue TrimmedData

/-- `LSDIndexRaster::Resample` (lines 846-878) in exact arithmetic. `none` for
`exit(EXIT_FAILURE)`. -/
def LSDIndexRaster.Resample (lib : Extern K) (outside : Int → Int → Int)
    (self : LSDIndexRaster K) (OutputResolution : K) : Option (LSDIndexRaster K) :=
  if OutputResolution < self.DataResolution then none
  else
    let NewNRows : Int := lib.to_int ((self.NRows : K) * self.DataResolution / OutputResolution)
    let NewNCols : Int := lib.to_int ((self.NCols : K) * self.DataResolution / OutputResolution)
    let Resampled : Array2D Int := Array2D.filled NewNRows.toNat NewNCols.toNat self.NoDataValue
    let ResolutionRatio := OutputResolution / self.DataResolution
    let Resampled := forLoop NewNRows.toNat (fun i Resampled =>
      forLoop NewNCols.toNat (fun j Resampled =>
        let centre_i : Int := lib.to_int (((i : K) * ResolutionRatio) + (ResolutionRatio / 2))
        let centre_j : Int := lib.to_int (((j : K) * ResolutionRatio) + (ResolutionRatio / 2))
        Resampled.set i j (self.RasterData.read outside centre_i centre_j)) Resampled) Resampled
    LSDIndexRaster.create NewNRows.toNat NewNCols.toNat self.XMinimum self.YMinimum
      OutputResolution self.NoDataValue Resampled

/-- `LSDIndexRaster::Resample` (lines 846-878) with the rounding of its `float`
operations written out: `fl` is applied to every `int` operand converted to
`float` (`NRows`, `NCols`, `i`, `j`) and to the result of every multiplication,
division and addition of `float` values; `int(x)` then truncates. With `fl` the
identity this is `LSDIndexRaster.Resample`. `none` for `exit(EXIT_FAILURE)`. -/
def LSDIndexRaster.Resample_rounded (fl : K → K) (lib : Extern K) (outside : Int → Int → Int)
    (self : LSDIndexRaster K) (OutputResolution : K) : Option (LSDIndexRaster K) :=
  if OutputResolution < self.DataResolution then none
  else
    let NewNRows : Int :=
      lib.to_int (fl (fl (fl (self.NRows : K) * self.DataResolution) / OutputResolution))
    let NewNCols : Int :=
      lib.to_int (fl (fl (fl (self.NCols : K) * self.DataResolution) / OutputResolution))
    let Resampled : Array2D Int := Array2D.filled NewNRows.toNat NewNCols.toNat self.NoDataValue
    let ResolutionRatio := fl (OutputResolution / self.DataResolution)
    let Resampled := forLoop NewNRows.toNat (fun i Resampled =>
      forLoop NewNCols.toNat (fun j Resampled =>
        let centre_i : Int :=
          lib.to_int (fl (fl (fl (i : K) * ResolutionRatio) + fl (ResolutionRatio / 2)))
        let centre_j : Int :=
          lib.to_int (fl (fl (fl (j : K) * ResolutionRatio) + fl (ResolutionRatio / 2)))
        Resampled.set i j (self.RasterData.read outside centre_i centre_j)) Resampled) Resampled
    LSDIndexRaster.create NewNRows.toNat NewNCols.toNat self.XMinimum self.YMinimum
      OutputResolution self.NoDataValue Resampled

end IndexRaster

/-! ## Thinning to a single-thread network -/

/-- The statements `SkeletonUpdate[i][j] = 0; if (Skeleton[ni][nj] == 2)
SkeletonUpdate[ni][nj] = 1; else SkeletonUpdate[ni][nj] = 2;` that every
direction of step 2 of `thin_to_single_thread_network` uses, `(ni, nj)` being
the neighbour on the far side. -/
def thin_strip (outside : Int → Int → Int) (Skeleton SkeletonUpdate : Array2D Int)
    (i j ni nj : Int) : Array2D Int :=
  let SkeletonUpdate := SkeletonUpdate.write i j 0
  if Skeleton.read outside ni nj = 2 then SkeletonUpdate.write ni nj 1
  else SkeletonUpdate.write ni nj 2

/-- An edge test of step 2: `if (Skeleton[i][j] == 2 && Skeleton[ci][cj] == 0)
{ IsSkeleton = false; ... }` with the statements of `thin_strip`. The state is
`(IsSkeleton, SkeletonUpdate)`. -/
def thin_edge (outside : Int → Int → Int) (Skeleton : Array2D Int) (i j ci cj ni nj : Int)
    (s : Bool × Array2D Int) : Bool × Array2D Int :=
  if Skeleton.read outside i j = 2 ∧ Skeleton.read outside ci cj = 0 then
    (false, thin_strip outside Skeleton s.2 i j ni nj)
  else s

/-- An interior test of step 2: as `thin_edge`, with the two-pixel-wide end
kept (`SkeletonUpdate[i][j] = 2`) when `keep` holds. -/
def thin_inner (outside : Int → Int → Int) (Skeleton : Array2D Int) (i j ci cj ni nj : Int)
    (keep : Bool) (s : Bool × Array2D Int) : Bool × Array2D Int :=
  if Skeleton.read outside i j = 2 ∧ Skeleton.read outside ci cj = 0 then
    if keep then (false, s.2.write i j 2)
    else (false, thin_strip outside Skeleton s.2 i j ni nj)
  else s

section Thinning

variable {K : Type} [LinearOrderedField K]

/-- Step 1 of `thin_to_single_thread_network` (lines 488-579): corners, edges
and the rest of the array. In the loop over the rest of the array the
statements `Skeleton = 2;`, `Skeleton = 3;` and `Skeleton = 0;` assign a scalar
to the whole array. -/
def LSDIndexRaster.thin_outline (outside : Int → Int → Int) (self : LSDIndexRaster K) :
    Array2D Int :=
  let NRows : Int := self.NRows
  let NCols : Int := self.NCols
  let NoDataValue := self.NoDataValue
  let RasterData := self.RasterData.read outside
  let Skeleton : Array2D Int := Array2D.filled self.NRows self.NCols NoDataValue
  let Skeleton :=
    if RasterData 0 0 ≠ NoDataValue then
      if RasterData 0 0 = 0 then Skeleton.write 0 0 0
      else if RasterData 1 0 = 0 ∧ RasterData 0 1 = 0 then Skeleton.write 0 0 1
      else if RasterData 1 0 = 0 ∨ RasterData 0 1 = 0 then Skeleton.write 0 0 2
      else Skeleton.write 0 0 3
    else Skeleton
  let Skeleton :=
    if RasterData 0 (NCols - 1) ≠ NoDataValue then
      if RasterData 0 (NCols - 1) = 0 then Skeleton.write 0 (NCols - 1) 0
      else if RasterData 1 (NCols - 1) = 0 ∧ RasterData 0 (NCols - 2) = 0 then
        Skeleton.write 0 (NCols - 1) 1
      else if RasterData 1 (NCols - 1) = 0 ∨ RasterData 0 (NCols - 2) = 0 then
        Skeleton.write 0 (NCols - 1) 2
      else Skeleton.write 0 0 3
    else Skeleton
  let Skeleton :=
    if RasterData (NRows - 1) 0 ≠ NoDataValue then
      if RasterData (NRows - 1) 0 = 0 then Skeleton.write (NRows - 1) 0 0
      else if RasterData (NRows - 2) 0 = 0 ∧ RasterData (NRows - 1) 1 = 0 then
        Skeleton.write (NRows - 1) 0 1
      else if RasterData (NRows - 2) 0 = 0 ∨ RasterData (NRows - 1) 1 = 0 then
        Skeleton.write (NRows - 1) 0 2
      else Skeleton.write (NRows - 1) 0 3
    else Skeleton
  let Skeleton :=
    if RasterData (NRows - 1) (NCols - 1) ≠ NoDataValue then
      if RasterData (NRows - 1) (NCols - 1) = 0 then Skeleton.write (NRows - 1) (NCols - 1) 0
      else if RasterData (NRows - 2) (NCols - 1) = 0 ∧ RasterData (NRows - 1) (NCols - 2) = 0 then
        Skeleton.write (NRows - 1) (NCols - 1) 1
      else if RasterData (NRows - 2) (NCols - 1) = 0 ∨ RasterData (NRows - 1) (NCols - 2) = 0 then
        Skeleton.write (NRows - 1) (NCols - 1) 2
      else Skeleton.write (NRows - 1) (NCols - 1) 3
    else Skeleton
  let Skeleton := forRange 1 (NRows - 1) (fun i Skeleton =>
    let Skeleton :=
      if RasterData i 0 ≠ NoDataValue then
        if RasterData i 0 = 0 then Skeleton.write i 0 0
        else if RasterData (i + 1) 0 = 0 ∧ RasterData (i - 1) 0 = 0 then Skeleton.write i 0 1
        else if RasterData (i + 1) 0 = 0 ∨ RasterData (i - 1) 0 = 0 ∨ RasterData i 1 = 0 then
          Skeleton.write i 0 2
        else Skeleton.write i 0 3
      else Skeleton
    if RasterData i (NCols - 1) ≠ NoDataValue then
      if RasterData i (NCols - 1) = 0 then Skeleton.write i (NCols - 1) 0
      else if RasterData (i + 1) (NCols - 1) = 0 ∧ RasterData (i - 1) (NCols - 1) = 0 then
        Skeleton.write i (NCols - 1) 1
      else if RasterData (i + 1) (NCols - 1) = 0 ∨ RasterData (i - 1) (NCols - 1) = 0
          ∨ RasterData i (NCols - 2) = 0 then
        Skeleton.write i (NCols - 1) 2
      else Skeleton.write i (NCols - 1) 3
    else Skeleton) Skeleton
  let Skeleton := forRange 1 (NRows - 1) (fun j Skeleton =>
    let Skeleton :=
      if RasterData 0 j ≠ NoDataValue then
        if RasterData 0 j = 0 then Skeleton.write 0 j 0
        else if RasterData 0 (j + 1) = 0 ∧ RasterData 0 (j - 1) = 0 then Skeleton.write 0 j 1
        else if RasterData 0 (j + 1) = 0 ∨ RasterData 0 (j - 1) = 0 ∨ RasterData 1 j = 0 then
          Skeleton.write 0 j 2
        else Skeleton.write 0 j 3
      else Skeleton
    if RasterData (NRows - 1) j ≠ NoDataValue then
      if RasterData (NRows - 1) j = 0 then Skeleton.write (NRows - 1) j 0
      else if RasterData (NRows - 1) (j + 1) = 0 ∧ RasterData (NRows - 1) (j - 1) = 0 then
        Skeleton.write (NRows - 1) j 1
      else if RasterData (NRows - 1) (j + 1) = 0 ∨ RasterData (NRows - 1) (j - 1) = 0
          ∨ RasterData (NRows - 2) j = 0 then
        Skeleton.write (NRows - 1) j 2
      else Skeleton.write (NRows - 1) j 3
    else Skeleton) Skeleton
  forRange 1 (NRows - 1) (fun i Skeleton =>
    forRange 1 (NCols - 1) (fun j Skeleton =>
      if RasterData i j = 1 then
        if (RasterData (i + 1) j = 0 ∧ RasterData (i - 1) j = 0)
            ∨ (RasterData i (j + 1) = 0 ∧ RasterData i (j - 1) = 0) then
          Skeleton.write i j 1
        else if RasterData (i - 1) j = 0 ∨ RasterData (i + 1) j = 0 ∨ RasterData i (j - 1) = 0
            ∨ RasterData i (j - 1) = 0 then
          Skeleton.assign_scalar 2
        else Skeleton.assign_scalar 3
      else Skeleton.assign_scalar 0) Skeleton) Skeleton

/-- One pass of the `while` loop of step 2 (lines 586-804): north, south,
east-facing and west-facing boundaries, each followed by `Skeleton =
SkeletonUpdate.copy()`. On entry `SkeletonUpdate` equals `Skeleton`. Returns
`(IsSkeleton, Skeleton)`. -/
def LSDIndexRaster.thin_pass (outside : Int → Int → Int) (self : LSDIndexRaster K)
    (Skeleton : Array2D Int) : Bool × Array2D Int :=
  let NRows : Int := self.NRows
  let NCols : Int := self.NCols
  let s : Bool × Array2D Int := (true, Skeleton)
  -- north boundaries
  let Sk := Skeleton.read outside
  let s := forRange 1 (NRows - 1) (fun i s =>
    let s := thin_edge outside Skeleton i 0 (i - 1) 0 (i + 1) 0 s
    thin_edge outside Skeleton i (NCols - 1) (i - 1) (NCols - 1) (i + 1) (NCols - 1) s) s
  let s := forRange 1 (NRows - 1) (fun i s =>
    forRange 1 (NCols - 1) (fun j s =>
      thin_inner outside Skeleton i j (i - 1) j (i + 1) j
        (decide ((Sk i (j + 1) = 0 ∧ Sk (i + 1) (j + 1) = 0 ∧ Sk (i + 1) j = 2)
          ∨ (Sk i (j - 1) = 0 ∧ Sk (i + 1) (j - 1) = 0 ∧ Sk (i + 1) j = 2))) s) s) s
  let Skeleton := s.2
  -- south boundaries
  let Sk := Skeleton.read outside
  let s := forRange 1 (NRows - 1) (fun i s =>
    let s := thin_edge outside Skeleton i 0 (i + 1) 0 (i - 1) 0 s
    thin_edge outside Skeleton i (NCols - 1) (i + 1) (NCols - 1) (i - 1) (NCols - 1) s) s
  let s := forRange 1 (NRows - 1) (fun i s =>
    forRange 1 (NCols - 1) (fun j s =>
      thin_inner outside Skeleton i j (i + 1) j (i - 1) j
        (decide ((Sk i (j + 1) = 0 ∧ Sk (i - 1) (j + 1) = 0 ∧ Sk (i - 1) j = 2)
          ∨ (Sk i (j - 1) = 0 ∧ Sk (i - 1) (j - 1) = 0 ∧ Sk (i - 1) j = 2))) s) s) s
  let Skeleton := s.2
  -- east-facing boundaries
  let Sk := Skeleton.read outside
  let s := forRange 1 NCols (fun j s =>
    let s := thin_edge outside Skeleton 0 j 0 (j - 1) 0 (j + 1) s
    thin_edge outside Skeleton (NRows - 1) j (NRows - 1) (j - 1) (NRows - 1) (j + 1) s) s
  let s := forRange 1 (NRows - 1) (fun i s =>
    forRange 1 (NCols - 1) (fun j s =>
      thin_inner outside Skeleton i j i (j - 1) i (j + 1)
        (decide ((Sk (i + 1) j = 0 ∧ Sk (i + 1) (j + 1) = 0 ∧ Sk i (j + 1) = 2)
          ∨ (Sk (i - 1) j = 0 ∧ Sk (i - 1) (j + 1) = 0 ∧ Sk i (j + 1) = 2))) s) s) s
  let Skeleton := s.2
  -- west-facing boundaries
  let Sk := Skeleton.read outside
  let s := forRange 1 NCols (fun j s =>
    let s := thin_edge outside Skeleton 0 j 0 (j + 1) 0 (j - 1) s
    thin_edge outside Skeleton (NRows - 1) j (NRows - 1) (j + 1) (NRows - 1) (j - 1) s) s
  let s := forRange 1 (NRows - 1) (fun i s =>
    forRange 1 (NCols - 1) (fun j s =>
      thin_inner outside Skeleton i j i (j + 1) i (j - 1)
        (decide ((Sk (i + 1) j = 0 ∧ Sk (i + 1) (j - 1) = 0 ∧ Sk i (j - 1) = 2)
          ∨ (Sk (i - 1) j = 0 ∧ Sk (i - 1) (j - 1) = 0 ∧ Sk i (j - 1) = 2))) s) s) s
  s

/-- The loop `while (IsSkeleton == false)` of step 2, run for at most `fuel`
passes; `none` when the passes run out before a pass leaves `IsSkeleton` true. -/
def LSDIndexRaster.thin_loop (outside : Int → Int → Int) (self : LSDIndexRaster K) :
    Nat → Array2D Int → Option (Array2D Int)
  | 0, _ => none
  | fuel + 1, Skeleton =>
    let r := self.thin_pass outside Skeleton
    if r.1 then some r.2 else LSDIndexRaster.thin_loop outside self fuel r.2

/-- `LSDIndexRaster::thin_to_single_thread_network` (lines 486-823). -/
def LSDIndexRaster.thin_to_single_thread_network (outside : Int → Int → Int) (fuel : Nat)
    (self : LSDIndexRaster K) : Option (LSDIndexRaster K) :=
  match self.thin_loop outside fuel (self.thin_outline outside) with
  | none => none
  | some Skeleton =>
    let Skeleton := forLoop self.NRows (fun i Skeleton =>
      forLoop self.NCols (fun j Skeleton =>
        if Skeleton.get i j = 3 then Skeleton.set i j 1 else Skeleton) Skeleton) Skeleton
    LSDIndexRaster.create self.NRows self.NCols self.XMinimum self.YMinimum
      self.DataResolution self.NoDataValue Skeleton

end Thinning

/-! ## Swath profiles -/

/-- Functions of `LSDStatsTools` that `LSDSwathProfile.cpp` calls: `LSDStatsTools.hpp`
declares them and their bodies are not among the sources. Theorems quantify
over all of them. -/
structure StatsTools (K : Type) where
  /-- `bin_data(vector1, vector2, min, max, bin_width, mid_points, binned_data)`,
  as the pair `(mid_points, binned_data)`. -/
  bin_data : List K → List K → K → K → K → List K × List (List K)
  /-- `get_mean(y_data)`. -/
  get_mean : List K → K
  /-- `get_standard_deviation(y_data, mean)`. -/
  get_standard_deviation : List K → K → K
  /-- `get_percentile(data, percentile)`. -/
  get_percentile : List K → K → K

/-- Members of `LSDSwath` that the profile routines use. -/
structure LSDSwath (K : Type) where
  NPtsInProfile : Nat
  NoDataValue : K
  NRows : Nat
  NCols : Nat
  ProfileHalfWidth : K
  XMin : K
  XMax : K
  YMin : K
  YMax : K
  DistanceAlongBaseline : List K
  DistanceToBaselineArray : Array2D K
  DistanceAlongBaselineArray : Array2D K

section Swath

variable {K : Type} [LinearOrderedField K]

/-- `calculate_shortest_distance_to_line` (lines 66-72). A `vector<float>` is a
list; the read `V[i]` is `V.getD i 0`. -/
def calculate_shortest_distance_to_line (lib : Extern K) (V_a V_b V_p : List K) : K :=
  let d := lib.sqrt (((V_b.getD 0 0 - V_a.getD 0 0) * (V_a.getD 1 0 - V_p.getD 1 0)
        - (V_b.getD 1 0 - V_a.getD 1 0) * (V_a.getD 0 0 - V_p.getD 0 0))
      * ((V_b.getD 0 0 - V_a.getD 0 0) * (V_a.getD 1 0 - V_p.getD 1 0)
        - (V_b.getD 1 0 - V_a.getD 1 0) * (V_a.getD 0 0 - V_p.getD 0 0)))
    / lib.sqrt (((V_b.getD 0 0 - V_a.getD 0 0) * (V_b.getD 0 0 - V_a.getD 0 0))
      + ((V_b.getD 1 0 - V_a.getD 1 0) * (V_b.getD 1 0 - V_a.getD 1 0)))
  d

/-- `calculate_t` (lines 76-80). -/
def calculate_t (V_a V_b V_p : List K) : K :=
  let t := -((V_b.getD 0 0 - V_a.getD 0 0) * (V_a.getD 0 0 - V_p.getD 0 0)
      + (V_b.getD 1 0 - V_a.getD 1 0) * (V_a.getD 1 0 - V_p.getD 1 0))
    / ((V_b.getD 0 0 - V_a.getD 0 0) * (V_b.getD 0 0 - V_a.getD 0 0)
      + (V_b.getD 1 0 - V_a.getD 1 0) * (V_b.getD 1 0 - V_a.getD 1 0))
  t

/-- `calculate_distance_between_two_points` (lines 82-86). -/
def calculate_distance_between_two_points (lib : Extern K) (V_a V_b : List K) : K :=
  let distance := lib.sqrt ((V_a.getD 0 0 - V_b.getD 0 0) * (V_a.getD 0 0 - V_b.getD 0 0)
    + (V_a.getD 1 0 - V_b.getD 1 0) * (V_a.getD 1 0 - V_b.getD 1 0))
  distance

/-- `test_point_left` (lines 90-96). The body sets the local `test` from the
sign of the cross product and then ends: it has no `return` statement, so the
value the caller receives is not one the body provides; `received` stands for
it. The result is the pair `(test, value the caller receives)`. -/
def test_point_left (received : Bool) (V_a V_b V_p : List K) : Bool × Bool :=
  let cross_product := (V_b.getD 0 0 - V_a.getD 0 0) * (V_p.getD 1 0 - V_a.getD 1 0)
    - (V_b.getD 1 0 - V_a.getD 1 0) * (V_p.getD 0 0 - V_a.getD 0 0)
  let test : Bool := if cross_product > 0 then true else false
  (test, received)

/-- Lines 468-505 of `get_longitudinal_swath_profile`: the bounding box, the
collection of `(LongitudinalDistance, RasterValues)` over the box, the sort when
percentiles are asked for, and the binning. Returns `(mid_points,
binned_RasterValues)`. -/
def LSDSwath.longitudinal_bins (lib : Extern K) (st : StatsTools K) (self : LSDSwath K)
    (Raster : LSDRaster K) (desired_percentiles : List K) (BinWidth : K) :
    List K × List (List K) :=
  let Resolution := Raster.DataResolution
  let ColStart : Int := lib.to_int (lib.floor (self.XMin / Resolution))
  let ColEnd : Int := ColStart + lib.to_int (lib.ceil ((self.XMax - self.XMin) / Resolution))
  let ColStart := ColStart - lib.to_int (lib.ceil (self.ProfileHalfWidth / Resolution))
  let ColEnd := ColEnd + lib.to_int (lib.ceil (self.ProfileHalfWidth / Resolution))
  let ColStart := if ColStart < 0 then 0 else ColStart
  let ColEnd := if ColEnd > (self.NCols : Int) then (self.NCols : Int) else ColEnd
  let RowEnd : Int := (self.NRows : Int) - 1 - lib.to_int (lib.floor (self.YMin / Resolution))
  let RowStart : Int := RowEnd - lib.to_int (lib.ceil ((self.YMax - self.YMin) / Resolution))
  let RowStart := RowStart - lib.to_int (lib.ceil (self.ProfileHalfWidth / Resolution))
  let RowEnd := RowEnd + lib.to_int (lib.ceil (self.ProfileHalfWidth / Resolution))
  let RowEnd := if RowEnd > (self.NRows : Int) then (self.NRows : Int) else RowEnd
  let RowStart := if RowStart < 0 then 0 else RowStart
  let collected : List K × List K := forRange RowStart RowEnd (fun i s =>
    forRange ColStart ColEnd (fun j s =>
      if self.DistanceToBaselineArray.get i.toNat j.toNat ≠ self.NoDataValue
          ∧ Raster.RasterData.get i.toNat j.toNat ≠ self.NoDataValue then
        (s.1 ++ [self.DistanceToBaselineArray.get i.toNat j.toNat],
         s.2 ++ [Raster.RasterData.get i.toNat j.toNat])
      else s) s) ([], [])
  let LongitudinalDistance := collected.1
  let RasterValues := collected.2
  let NumberOfPercentileProfiles := desired_percentiles.length
  let sorted : List K × List K :=
    if NumberOfPercentileProfiles > 0 then
      let index_map := (matlab_float_sort RasterValues).2
      ((matlab_float_sort RasterValues).1, matlab_float_reorder LongitudinalDistance index_map)
    else (RasterValues, LongitudinalDistance)
  let RasterValues := sorted.1
  let LongitudinalDistance := sorted.2
  let start_point := self.DistanceAlongBaseline.getD 0 0
  let end_point := self.DistanceAlongBaseline.getD (self.NPtsInProfile - 1) 0
  st.bin_data RasterValues LongitudinalDistance start_point end_point BinWidth

/-- `LSDSwath::get_longitudinal_swath_profile` (lines 465-533). `mean_profile` is
the caller's vector as it is on entry, which line 513 reads; `stale i` stands
for what that read finds at an index the vector does not have. Returns
`(mid_points, mean_profile, sd_profile, output_percentile_profiles)`. -/
def LSDSwath.get_longitudinal_swath_profile (lib : Extern K) (st : StatsTools K)
    (self : LSDSwath K) (Raster : LSDRaster K) (desired_percentiles : List K) (BinWidth : K)
    (mean_profile : List K) (stale : Nat → K) :
    List K × List K × List K × List (List K) :=
  let bins := self.longitudinal_bins lib st Raster desired_percentiles BinWidth
  let mid_points := bins.1
  let binned_RasterValues := bins.2
  let NumberOfPercentileProfiles := desired_percentiles.length
  let NBins := mid_points.length
  let mean_profile_temp : List K := List.replicate NBins self.NoDataValue
  let sd_profile_temp : List K := List.replicate NBins self.NoDataValue
  let profiles := forLoop NBins (fun i s =>
    (s.1.set i (st.get_mean (binned_RasterValues.getD i [])),
     s.2.set i (st.get_standard_deviation (binned_RasterValues.getD i [])
       (mean_profile.getD i (stale i))))) (mean_profile_temp, sd_profile_temp)
  let output_percentile_profiles_temp : List (List K) :=
    forLoop NumberOfPercentileProfiles (fun j out =>
      let percentile : List K := List.replicate NBins self.NoDataValue
      let percentile := forLoop NBins (fun i percentile =>
        percentile.set i (st.get_percentile (binned_RasterValues.getD i [])
          (desired_percentiles.getD j 0))) percentile
      out ++ [percentile]) []
  (mid_points, profiles.1, profiles.2, output_percentile_profiles_temp)

end Swath

/-! ## Basins -/

/-- Members of `LSDBasin` that the count over a basin uses (`LSDBasin.hpp`,
lines 617-619). -/
structure LSDBasin where
  BasinNodes : List Nat
  NumberOfCells : Nat

section Basin

variable {K : Type} [LinearOrderedField K]

/-- Modelled from the spec: `LSDBasin::CalculateNumDataPoints(FlowInfo, Data)`,
declared at line 190 of `LSDBasin.hpp`; its body (`LSDBasin.cpp`) is not among
the sources. "Collects the field's value at every index in `BasinNodes` where
the value is not nodata, then reduces", here with the reduction `count`.
`retrieve_current_row_and_col` is the map of the flow topology from a node
index to its row and column. -/
def LSDBasin.CalculateNumDataPoints (retrieve_current_row_and_col : Nat → Nat × Nat)
    (self : LSDBasin) (Data : LSDRaster K) : Nat :=
  forLoop self.BasinNodes.length (fun q count =>
    let node := self.BasinNodes.getD q 0
    let i := (retrieve_current_row_and_col node).1
    let j := (retrieve_current_row_and_col node).2
    if Data.RasterData.get i j ≠ Data.NoDataValue then count + 1 else count) 0

end Basin

/-! ## The transform that the FFTW plan computes -/

/-- The root of unity `exp(2 pi i / N)`. -/
noncomputable def unitRoot (N : Nat) : ℂ := Complex.exp (2 * Real.pi * Complex.I / N)

/-- The unnormalised 2D discrete Fourier transform of an `n0 x n1` complex
array, with the sign of the exponent given:
`Y[k0][k1] = sum over a, b of X[a][b] * w0^(sign*k0*a) * w1^(sign*k1*b)`. -/
noncomputable def dft2 (n0 n1 : Nat) (sign : Int) (z : Nat → Nat → ℂ) (k0 k1 : Nat) : ℂ :=
  ∑ a in Finset.range n0, ∑ b in Finset.range n1,
    z a b * unitRoot n0 ^ (sign * (k0 : ℤ) * (a : ℤ)) * unitRoot n1 ^ (sign * (k1 : ℤ) * (b : ℤ))

/-- Modelled from the spec: the execution of an FFTW plan made by
`fftw_plan_dft_2d(n0, n1, in, out, sign, ..)` (the FFTW library is not among the
sources). "Standard 2D discrete Fourier transform and its inverse, row-major
layout, unnormalized": element `(a, b)` of the array is at position `n1*a + b`,
`sign = -1` is the forward and `sign = 1` the inverse transform, in exact
arithmetic. -/
noncomputable def fftw_dft (n0 n1 : Nat) (sign : Int) (input : Nat → ℝ × ℝ) : Nat → ℝ × ℝ :=
  fun k =>
    ((dft2 n0 n1 sign (fun a b => Complex.mk (input (n1 * a + b)).1 (input (n1 * a + b)).2)
        (k / n1) (k % n1)).re,
     (dft2 n0 n1 sign (fun a b => Complex.mk (input (n1 * a + b)).1 (input (n1 * a + b)).2)
        (k / n1) (k % n1)).im)

/-- The library in exact real arithmetic: the functions of `math.h` as the real
functions they compute to machine precision, `int(x)` as truncation, and the
FFTW plan as the exact transform. The regression helper and the contents of
unwritten storage stay parameters; the solver answers a singular matrix with
the array without elements, over zeroed storage. -/
noncomputable def realLib (regression : List ℝ → List ℝ → List ℝ)
    (uninit : Nat → Nat → Nat → ℝ) (fftw_buffer : Nat → Nat → ℝ × ℝ) (past_end : ℝ) :
    Extern ℝ :=
  { sqrt := Real.sqrt, exp := Real.exp, pow := fun x y => x ^ y,
    log10 := fun x => Real.log x / Real.log 10, log := Real.log,
    ceil := fun x => (⌈x⌉ : ℝ), floor := fun x => (⌊x⌋ : ℝ),
    to_int := fun x => if 0 ≤ x then ⌊x⌋ else ⌈x⌉,
    cos := Real.cos, sin := Real.sin, atan2 := fun y x => Complex.arg (Complex.mk x y),
    fftw_execute := fftw_dft, simple_linear_regression := regression,
    uninit := uninit, fftw_buffer := fftw_buffer, past_end := past_end,
    solve_singular := ⟨0, fun _ => 0⟩ }

/-! ## Vocabulary of the statements -/

section Vocabulary

variable {K : Type} [LinearOrderedField K]

/-- Sum of `f i j` over the cells `(i, j)` of the raster whose value in `zeta`
differs from `NoDataValue`. -/
def validSum (self : LSDRasterSpectral K) (zeta : Array2D K) (f : Nat → Nat → K) : K :=
  ∑ i in Finset.range self.NRows, ∑ j in Finset.range self.NCols,
    if zeta.get i j ≠ self.NoDataValue then f i j else 0

/-- The cells `(i, j)`, `i < Ly`, `j <= Lx/2`, whose radial frequency is at most
the Nyquist frequency `1/(2*DataResolution)` and equal to `f`. -/
def ring_cells (lib : Extern K) (self : LSDRasterSpectral K) (f : K) : List (Nat × Nat) :=
  ((List.range self.Ly).flatMap (fun i => (List.range (self.Lx / 2 + 1)).map (fun j => (i, j)))).filter
    (fun c => radial_frequency lib self c.1 c.2 ≤ 1 / (2 * self.DataResolution) ∧
      radial_frequency lib self c.1 c.2 = f)

/-- The radially averaged power as the specification words it: the arithmetic
mean of `2*P_DFT[i][j]` over exactly the cells of `ring_cells`. -/
def spec_radial_mean (lib : Extern K) (self : LSDRasterSpectral K) (f : K) : K :=
  ((ring_cells lib self f).map (fun c => 2 * self.P_DFT.get c.1 c.2)).sum
    / ((ring_cells lib self f).length : K)

/-- The Gaussian `exp(-(f - centre)^2 / (2*sigma^2))` of the filter descriptions. -/
def gaussian_weight (lib : Extern K) (centre sigma f : K) : K :=
  lib.exp (-(f - centre) ^ 2 / (2 * sigma ^ 2))

/-- The radial frequency of cell `(i, j)` as the filter descriptions write it:
`sqrt(((i - Ly/2)*dfy)^2 + ((j - Lx/2)*dfx)^2)`, `dfx = 1/(DataResolution*Lx)`,
`dfy = 1/(DataResolution*Ly)`, with `Ly/2` and `Lx/2` the integer halves. -/
def spec_radial_frequency (lib : Extern K) (self : LSDRasterSpectral K) (i j : Nat) : K :=
  lib.sqrt ((((i : K) - ((self.Ly / 2 : Nat) : K)) * (1 / (self.DataResolution * (self.Ly : K)))) ^ 2
    + (((j : K) - ((self.Lx / 2 : Nat) : K)) * (1 / (self.DataResolution * (self.Lx : K)))) ^ 2)

/-- The returned raster has the georeferencing of the surface and holds
`NoDataValue` wherever the surface does. -/
def keeps_frame (self : LSDRasterSpectral K) (out : LSDRaster K) : Prop :=
  out.NRows = self.NRows ∧ out.NCols = self.NCols ∧
  out.XMinimum = self.XMinimum ∧ out.YMinimum = self.YMinimum ∧
  out.DataResolution = self.DataResolution ∧ out.NoDataValue = self.NoDataValue ∧
  ∀ i j, i < self.NRows → j < self.NCols →
    self.RasterData.get i j = self.NoDataValue → out.RasterData.get i j = self.NoDataValue

/-- The test `r < rprime` of `window_data_Hann2D` at cell `(i, j)`: the cell lies
inside the ellipse of the window. -/
def hann_inside (lib : Extern K) (self : LSDRasterSpectral K) (i j : Nat) : Prop :=
  let PI : K := 314159265 / 100000000
  let a := ((self.NCols : K) - 1) / 2
  let b := ((self.NRows : K) - 1) / 2
  let x : K := (j : K)
  let y : K := (i : K)
  let theta := if x = a then PI / 2 else lib.atan2 (y - b) (x - a)
  let r := lib.sqrt ((y - b) * (y - b) + (x - a) * (x - a))
  let rprime := lib.sqrt ((a * a) * (b * b)
    / (b * b * (lib.cos theta * lib.cos theta) + a * a * (lib.sin theta * lib.sin theta)))
  r < rprime

/-- The value `0.5 * (1 + cos(PI * r/rprime))` that `window_data_Hann2D` computes
at cell `(i, j)`. -/
def hann_coefficient (lib : Extern K) (self : LSDRasterSpectral K) (i j : Nat) : K :=
  let PI : K := 314159265 / 100000000
  let a := ((self.NCols : K) - 1) / 2
  let b := ((self.NRows : K) - 1) / 2
  let x : K := (j : K)
  let y : K := (i : K)
  let theta := if x = a then PI / 2 else lib.atan2 (y - b) (x - a)
  let r := lib.sqrt ((y - b) * (y - b) + (x - a) * (x - a))
  let rprime := lib.sqrt ((a * a) * (b * b)
    / (b * b * (lib.cos theta * lib.cos theta) + a * a * (lib.sin theta * lib.sin theta)))
  (1 / 2) * (1 + lib.cos (PI * r / rprime))

instance hann_inside_decidable (lib : Extern K) (self : LSDRasterSpectral K) (i j : Nat) :
    Decidable (hann_inside lib self i j) := by
  unfold hann_inside
  infer_instance

end Vocabulary

/-- The quadrant exchange as a function on cells: the value the shifted array
holds at `(p, q)` is the input at the cell half an array away in both
directions. Used to state what the shift loops compute. -/
def quadSwap {α : Type} (QuadrantRows QuadrantCols : Nat) (inp : Array2D α) (p q : Nat) : α :=
  inp.get (if p < QuadrantRows then p + QuadrantRows else p - QuadrantRows)
    (if q < QuadrantCols then q + QuadrantCols else q - QuadrantCols)

/-- The cells written by iteration `(i, j)` of the shift loops. -/
def quadCells (QuadrantRows QuadrantCols i j p q : Nat) : Prop :=
  (p = i ∨ p = i + QuadrantRows) ∧ (q = j ∨ q = j + QuadrantCols)

/-- A state transformer that writes value `v p q` to every cell `(p, q)` of the
footprint `W` and leaves every other cell as it was; `get` selects the array
under consideration inside the loop state. -/
def WritesCells {σ α : Type} (get : σ → Nat → Nat → α) (f : σ → σ)
    (W : Nat → Nat → Prop) (v : Nat → Nat → α) : Prop :=
  ∀ s p q, (W p q → get (f s) p q = v p q) ∧ (¬ W p q → get (f s) p q = get s p q)

/-! ## Sample data -/

/-- A 2 x 4 array of naturals with pairwise different cells. -/
def sampleCells : Array2D Nat := ⟨2, 4, fun i j => 10 * i + j⟩

/-- A second 2 x 4 array, used as the imaginary part. -/
def sampleCells2 : Array2D Nat := ⟨2, 4, fun i j => 100 + 10 * i + j⟩

/-- A 3 x 3 surface over the rationals with one nodata cell, padded to 4 x 4. -/
def sampleSurface : LSDRasterSpectral ℚ :=
  { NRows := 3, NCols := 3, XMinimum := 0, YMinimum := 0, DataResolution := 1,
    NoDataValue := -9999,
    RasterData := ⟨3, 3, fun i j => if i = 2 ∧ j = 2 then -9999 else (i : ℚ) * j + i + 2 * j⟩,
    Ly := 4, Lx := 4, WSS := 1, P_DFT := Array2D.filled 4 4 0,
    RadialFrequency := [], RadiallyAveragedPSD := [] }

/-- Stand-ins over the rationals for what the sources take from outside:
`Rat.sqrt` (exact on squares of rationals), a first-order `exp`, powers with
the exponent rounded down to a natural number, the rounded-up binary logarithm,
a plan execution that copies its input, and a solver that answers a singular
matrix with an array without elements behind which 1, 2, 3, ... are stored. -/
def sampleLib : Extern ℚ :=
  { sqrt := Rat.sqrt, exp := fun x => 1 + x, pow := fun x y => x ^ ⌊y⌋.toNat,
    log10 := fun x => x, log := fun x => (Nat.clog 2 ⌈x⌉.toNat : ℚ),
    ceil := fun x => (⌈x⌉ : ℚ), floor := fun x => (⌊x⌋ : ℚ),
    to_int := fun x => if 0 ≤ x then ⌊x⌋ else ⌈x⌉,
    cos := fun _ => 1, sin := fun _ => 0, atan2 := fun _ _ => 0,
    fftw_execute := fun _ _ _ inp => inp,
    simple_linear_regression := fun _ _ => [0, 0, 0, 0],
    uninit := fun _ _ _ => 7, fftw_buffer := fun _ _ => (7, 7), past_end := 7,
    solve_singular := ⟨0, fun k => (k : ℚ) + 1⟩ }

/-- A 2 x 2 spectrum of resolution 1 whose periodogram is 1 at every cell. -/
def sampleSpectrum : LSDRasterSpectral ℚ :=
  { NRows := 2, NCols := 2, XMinimum := 0, YMinimum := 0, DataResolution := 1,
    NoDataValue := -9999, RasterData := Array2D.filled 2 2 0,
    Ly := 2, Lx := 2, WSS := 1, P_DFT := Array2D.filled 2 2 1,
    RadialFrequency := [], RadiallyAveragedPSD := [] }

/-- A 3 x 3 surface over the reals, padded to 4 x 4. -/
noncomputable def sampleRealSurface : LSDRasterSpectral ℝ :=
  { NRows := 3, NCols := 3, XMinimum := 0, YMinimum := 0, DataResolution := 1,
    NoDataValue := -9999, RasterData := ⟨3, 3, fun i j => (i : ℝ) * j + i + 2 * j⟩,
    Ly := 4, Lx := 4, WSS := 1, P_DFT := Array2D.filled 4 4 0,
    RadialFrequency := [], RadiallyAveragedPSD := [] }

/-- The real library with a regression stand-in and zeroed unwritten storage. -/
noncomputable def sampleRealLib : Extern ℝ :=
  realLib (fun _ _ => [0, 0, 0, 0]) (fun _ _ _ => 0) (fun _ _ => (0, 0)) 0

/-- A 3 x 3 output buffer. -/
def sampleBuffer : Array2D ℚ := Array2D.filled 3 3 0

/-- A 3 x 3 index raster whose only data cell is the centre, with value 5. -/
def sampleIndexRaster : LSDIndexRaster ℚ :=
  { NRows := 3, NCols := 3, XMinimum := 0, YMinimum := 0, DataResolution := 1,
    NoDataValue := -9999,
    RasterData := ⟨3, 3, fun i j => if i = 1 ∧ j = 1 then 5 else -9999⟩ }

/-- A 3 x 3 index raster that holds 1 in every cell. -/
def sampleOnes : LSDIndexRaster ℚ :=
  { NRows := 3, NCols := 3, XMinimum := 0, YMinimum := 0, DataResolution := 1,
    NoDataValue := -9999, RasterData := Array2D.filled 3 3 1 }

/-- Stand-ins over the rationals for the statistics helpers: one bin that takes
every value, the arithmetic mean, the root of the mean squared deviation from
the given mean (with `Rat.sqrt`), and the first element as percentile. -/
def sampleStats : StatsTools ℚ :=
  { bin_data := fun vector1 _ min max _ => ([(min + max) / 2], [vector1]),
    get_mean := fun y => y.sum / (y.length : ℚ),
    get_standard_deviation := fun y mean =>
      Rat.sqrt ((y.map (fun x => (x - mean) * (x - mean))).sum / (y.length : ℚ)),
    get_percentile := fun y _ => y.getD 0 0 }

/-- A swath over a 1 x 2 raster: both cells lie at distance 0 from the baseline
and at distances 10 and 20 along it. -/
def sampleSwath : LSDSwath ℚ :=
  { NPtsInProfile := 2, NoDataValue := -9999, NRows := 1, NCols := 2, ProfileHalfWidth := 1,
    XMin := 0, XMax := 1, YMin := 0, YMax := 0, DistanceAlongBaseline := [0, 30],
    DistanceToBaselineArray := ⟨1, 2, fun _ _ => 0⟩,
    DistanceAlongBaselineArray := ⟨1, 2, fun _ j => if j = 0 then 10 else 20⟩ }

/-- The 1 x 2 raster with values 1 and 7 that the sample swath profiles. -/
def sampleSwathRaster : LSDRaster ℚ :=
  { NRows := 1, NCols := 2, XMinimum := 0, YMinimum := 0, DataResolution := 1,
    NoDataValue := -9999, RasterData := ⟨1, 2, fun _ j => if j = 0 then 1 else 7⟩ }

/-- A basin of three nodes. -/
def sampleBasin : LSDBasin := { BasinNodes := [0, 4, 8], NumberOfCells := 3 }

/-- The stand-in library with the value past the end of `RadialFrequencyRaw`
equal to `1/2`. -/
def sampleLibHalf : Extern ℚ := { sampleLib with past_end := 1 / 2 }

/-- A 2 x 2 index raster whose only data cell is the first one, with value 5. -/
def sampleCornerRaster : LSDIndexRaster ℚ :=
  { NRows := 2, NCols := 2, XMinimum := 0, YMinimum := 0, DataResolution := 1,
    NoDataValue := -9999,
    RasterData := ⟨2, 2, fun i j => if i = 0 ∧ j = 0 then 5 else -9999⟩ }

/-- A 2 x 2 surface over the reals with `DataResolution = 10`. -/
noncomputable def sampleCoarseSurface : LSDRasterSpectral ℝ :=
  { NRows := 2, NCols := 2, XMinimum := 0, YMinimum := 0, DataResolution := 10,
    NoDataValue := -9999, RasterData := ⟨2, 2, fun i j => (i : ℝ) + j⟩,
    Ly := 2, Lx := 2, WSS := 1, P_DFT := Array2D.filled 2 2 0,
    RadialFrequency := [], RadiallyAveragedPSD := [] }

/-- A 3 x 3 index raster: ones at `(0, 1)` and `(1, 1)`, nodata at `(0, 2)`,
zeros elsewhere. -/
def sampleThread : LSDIndexRaster ℚ :=
  { NRows := 3, NCols := 3, XMinimum := 0, YMinimum := 0, DataResolution := 1,
    NoDataValue := -9999,
    RasterData := ⟨3, 3, fun i j =>
      if i = 0 ∧ j = 2 then -9999 else if i ≤ 1 ∧ j = 1 then 1 else 0⟩ }

/-- The 3 x 3 skeleton array with `b` at `(0, 1)`, `c` at `(0, 2)`, 1 at `(1, 1)`
and 0 in the other cells. -/
def threadSkeleton (b c : Int) : Array2D Int :=
  ⟨3, 3, fun i j =>
    if i < 3 ∧ j < 3 then
      (if i = 0 ∧ j = 1 then b else if i = 0 ∧ j = 2 then c else if i = 1 ∧ j = 1 then 1 else 0)
    else -9999⟩

/-- The stand-in library with `exp x` taken as `1 + x` rounded to `float`. For
`-2^-25 < x <= 0` this is the value that `bandpass_filter` stores in its `float`
variable `weight`: the exponential lies between `1 + x` and 1 there, and the
conversion to `float` rounds both of them to 1. -/
def sampleLibSingle : Extern ℚ := { sampleLib with exp := fun x => round_to_single (1 + x) }

/-- The stand-in library with the two values of `log` in IEEE double precision
that `padded_length` uses for `n = 2^29`: `log(2.0) = 0x1.62e42fefa39efp-1` and
`log(536870912.0) = 0x1.419ecb712c481p+4`, the doubles nearest to the real
logarithms. Their quotient exceeds 29 (in double precision it is
29.000000000000004). -/
def sampleLibDouble : Extern ℚ :=
  { sampleLib with
    log := fun x =>
      if x = 2 then 6243314768165359 / 9007199254740992
      else if x = 536870912 then 5658004008649857 / 281474976710656
      else 0 }

/-- A raster of `2^29` rows and one column. -/
def sampleTallRaster : LSDRaster ℚ :=
  { NRows := 536870912, NCols := 1, XMinimum := 0, YMinimum := 0, DataResolution := 1,
    NoDataValue := -9999, RasterData := ⟨536870912, 1, fun _ _ => 0⟩ }

/-- An `n x n` index raster with cell `(i, j)` equal to `10*i + j`, whose
`DataResolution` is the `float` nearest to 0.1. -/
def sampleTenthRaster (n : Nat) : LSDIndexRaster ℚ :=
  { NRows := n, NCols := n, XMinimum := 0, YMinimum := 0,
    DataResolution := round_to_single (1 / 10), NoDataValue := -9999,
    RasterData := ⟨n, n, fun i j => 10 * (i : Int) + (j : Int)⟩ }

/-! # Theorems -/

theorem forLoop_writes {σ α : Type} (get : σ → Nat → Nat → α) (n : Nat)
    (body : Nat → σ → σ) (W : Nat → Nat → Nat → Prop) (v : Nat → Nat → α)
    (h : ∀ i, i < n → WritesCells get (body i) (W i) v) :
    WritesCells get (forLoop n body) (fun p q => ∃ i, i < n ∧ W i p q) v := by
  induction n with
  | zero =>
    intro s p q
    constructor
    · rintro ⟨i, hi, _⟩
      omega
    · intro _
      rfl
  | succ n ih =>
    have ih' := ih (fun i hi => h i (Nat.lt_succ_of_lt hi))
    intro s p q
    have hb := h n (Nat.lt_succ_self n) (forLoop n body s) p q
    have hr := ih' s p q
    constructor
    · rintro ⟨i, hi, hw⟩
      by_cases hn : W n p q
      · exact hb.1 hn
      · have hlt : i < n := by
          rcases Nat.lt_succ_iff_lt_or_eq.mp hi with h1 | h1
          · exact h1
          · subst h1
            exact absurd hw hn
        show get (body n (forLoop n body s)) p q = v p q
        rw [hb.2 hn]
        exact hr.1 ⟨i, hlt, hw⟩
    · intro hne
      have hn : ¬ W n p q := fun hw => hne ⟨n, Nat.lt_succ_self n, hw⟩
      show get (body n (forLoop n body s)) p q = get s p q
      rw [hb.2 hn]
      exact hr.2 (fun ⟨i, hi, hw⟩ => hne ⟨i, Nat.lt_succ_of_lt hi, hw⟩)

theorem quadCells_exists (QR QC p q : Nat) :
    (∃ i, i < QR ∧ ∃ j, j < QC ∧ quadCells QR QC i j p q) ↔ p < 2 * QR ∧ q < 2 * QC := by
  unfold quadCells
  constructor
  · rintro ⟨i, hi, j, hj, hp, hq⟩
    omega
  · rintro ⟨hp, hq⟩
    refine ⟨if p < QR then p else p - QR, ?_, if q < QC then q else q - QC, ?_, ?_, ?_⟩
    · split_ifs <;> omega
    · split_ifs <;> omega
    · split_ifs <;> omega
    · split_ifs <;> omega

theorem shift_body_real {α : Type} (QR QC : Nat) (a b : Array2D α) (i j : Nat)
    (hi : i < QR) (hj : j < QC) :
    WritesCells (fun (s : Array2D α × Array2D α) => s.1.get)
      (fun s =>
        let re := s.1
        let im := s.2
        let re := re.set i j (a.get (i + QR) (j + QC))
        let re := re.set (i + QR) j (a.get i (j + QC))
        let re := re.set i (j + QC) (a.get (i + QR) j)
        let re := re.set (i + QR) (j + QC) (a.get i j)
        let im := im.set i j (b.get (i + QR) (j + QC))
        let im := im.set (i + QR) j (b.get i (j + QC))
        let im := im.set i (j + QC) (b.get (i + QR) j)
        let im := im.set (i + QR) (j + QC) (b.get i j)
        (re, im))
      (quadCells QR QC i j) (quadSwap QR QC a) := by
  intro s p q
  have hQR : QR ≠ 0 := by omega
  have hQC : QC ≠ 0 := by omega
  simp only [Array2D.get, Array2D.set, quadCells, quadSwap]
  constructor
  · rintro ⟨hp | hp, hq | hq⟩ <;> subst hp <;> subst hq <;> simp [hi, hj, hQR, hQC]
  · intro hW
    have h1 : ¬ (p = i + QR ∧ q = j + QC) := fun h => hW ⟨Or.inr h.1, Or.inr h.2⟩
    have h2 : ¬ (p = i ∧ q = j + QC) := fun h => hW ⟨Or.inl h.1, Or.inr h.2⟩
    have h3 : ¬ (p = i + QR ∧ q = j) := fun h => hW ⟨Or.inr h.1, Or.inl h.2⟩
    have h4 : ¬ (p = i ∧ q = j) := fun h => hW ⟨Or.inl h.1, Or.inl h.2⟩
    simp only [h1, h2, h3, h4, if_false]

theorem shift_body_imag {α : Type} (QR QC : Nat) (a b : Array2D α) (i j : Nat)
    (hi : i < QR) (hj : j < QC) :
    WritesCells (fun (s : Array2D α × Array2D α) => s.2.get)
      (fun s =>
        let re := s.1
        let im := s.2
        let re := re.set i j (a.get (i + QR) (j + QC))
        let re := re.set (i + QR) j (a.get i (j + QC))
        let re := re.set i (j + QC) (a.get (i + QR) j)
        let re := re.set (i + QR) (j + QC) (a.get i j)
        let im := im.set i j (b.get (i + QR) (j + QC))
        let im := im.set (i + QR) j (b.get i (j + QC))
        let im := im.set i (j + QC) (b.get (i + QR) j)
        let im := im.set (i + QR) (j + QC) (b.get i j)
        (re, im))
      (quadCells QR QC i j) (quadSwap QR QC b) := by
  intro s p q
  have hQR : QR ≠ 0 := by omega
  have hQC : QC ≠ 0 := by omega
  simp only [Array2D.get, Array2D.set, quadCells, quadSwap]
  constructor
  · rintro ⟨hp | hp, hq | hq⟩ <;> subst hp <;> subst hq <;> simp [hi, hj, hQR, hQC]
  · intro hW
    have h1 : ¬ (p = i + QR ∧ q = j + QC) := fun h => hW ⟨Or.inr h.1, Or.inr h.2⟩
    have h2 : ¬ (p = i ∧ q = j + QC) := fun h => hW ⟨Or.inl h.1, Or.inr h.2⟩
    have h3 : ¬ (p = i + QR ∧ q = j) := fun h => hW ⟨Or.inr h.1, Or.inl h.2⟩
    have h4 : ¬ (p = i ∧ q = j) := fun h => hW ⟨Or.inl h.1, Or.inl h.2⟩
    simp only [h1, h2, h3, h4, if_false]

theorem shift_inv_body_real {α : Type} (QR QC : Nat) (a b : Array2D α) (i j : Nat)
    (hi : i < QR) (hj : j < QC) :
    WritesCells (fun (s : Array2D α × Array2D α) => s.1.get)
      (fun s =>
        let re := s.1
        let im := s.2
        let re := re.set (i + QR) (j + QC) (a.get i j)
        let re := re.set i (j + QC) (a.get (i + QR) j)
        let re := re.set (i + QR) j (a.get i (j + QC))
        let re := re.set i j (a.get (i + QR) (j + QC))
        let im := im.set (i + QR) (j + QC) (b.get i j)
        let im := im.set i (j + QC) (b.get (i + QR) j)
        let im := im.set (i + QR) j (b.get i (j + QC))
        let im := im.set i j (b.get (i + QR) (j + QC))
        (re, im))
      (quadCells QR QC i j) (quadSwap QR QC a) := by
  intro s p q
  have hQR : QR ≠ 0 := by omega
  have hQC : QC ≠ 0 := by omega
  simp only [Array2D.get, Array2D.set, quadCells, quadSwap]
  constructor
  · rintro ⟨hp | hp, hq | hq⟩ <;> subst hp <;> subst hq <;> simp [hi, hj, hQR, hQC]
  · intro hW
    have h1 : ¬ (p = i + QR ∧ q = j + QC) := fun h => hW ⟨Or.inr h.1, Or.inr h.2⟩
    have h2 : ¬ (p = i ∧ q = j + QC) := fun h => hW ⟨Or.inl h.1, Or.inr h.2⟩
    have h3 : ¬ (p = i + QR ∧ q = j) := fun h => hW ⟨Or.inr h.1, Or.inl h.2⟩
    have h4 : ¬ (p = i ∧ q = j) := fun h => hW ⟨Or.inl h.1, Or.inl h.2⟩
    simp only [h1, h2, h3, h4, if_false]

theorem shift_inv_body_imag {α : Type} (QR QC : Nat) (a b : Array2D α) (i j : Nat)
    (hi : i < QR) (hj : j < QC) :
    WritesCells (fun (s : Array2D α × Array2D α) => s.2.get)
      (fun s =>
        let re := s.1
        let im := s.2
        let re := re.set (i + QR) (j + QC) (a.get i j)
        let re := re.set i (j + QC) (a.get (i + QR) j)
        let re := re.set (i + QR) j (a.get i (j + QC))
        let re := re.set i j (a.get (i + QR) (j + QC))
        let im := im.set (i + QR) (j + QC) (b.get i j)
        let im := im.set i (j + QC) (b.get (i + QR) j)
        let im := im.set (i + QR) j (b.get i (j + QC))
        let im := im.set i j (b.get (i + QR) (j + QC))
        (re, im))
      (quadCells QR QC i j) (quadSwap QR QC b) := by
  intro s p q
  have hQR : QR ≠ 0 := by omega
  have hQC : QC ≠ 0 := by omega
  simp only [Array2D.get, Array2D.set, quadCells, quadSwap]
  constructor
  · rintro ⟨hp | hp, hq | hq⟩ <;> subst hp <;> subst hq <;> simp [hi, hj, hQR, hQC]
  · intro hW
    have h1 : ¬ (p = i + QR ∧ q = j + QC) := fun h => hW ⟨Or.inr h.1, Or.inr h.2⟩
    have h2 : ¬ (p = i ∧ q = j + QC) := fun h => hW ⟨Or.inl h.1, Or.inr h.2⟩
    have h3 : ¬ (p = i + QR ∧ q = j) := fun h => hW ⟨Or.inr h.1, Or.inl h.2⟩
    have h4 : ¬ (p = i ∧ q = j) := fun h => hW ⟨Or.inl h.1, Or.inl h.2⟩
    simp only [h1, h2, h3, h4, if_false]

/-- Two nested loops whose inner body writes the cells `W i j` with values `v`
write, together, every cell of some `W i j` with `i < n`, `j < m`. -/
theorem nested_writes {σ α : Type} (get : σ → Nat → Nat → α) (n m : Nat)
    (body : Nat → Nat → σ → σ) (W : Nat → Nat → Nat → Nat → Prop) (v : Nat → Nat → α)
    (h : ∀ i j, i < n → j < m → WritesCells get (body i j) (W i j) v) :
    WritesCells get (forLoop n (fun i s => forLoop m (fun j s => body i j s) s))
      (fun p q => ∃ i, i < n ∧ ∃ j, j < m ∧ W i j p q) v :=
  forLoop_writes get n (fun i s => forLoop m (fun j s => body i j s) s)
    (fun i p q => ∃ j, j < m ∧ W i j p q) v
    (fun i hi => forLoop_writes get m (fun j s => body i j s) (W i) v (fun j hj => h i j hi hj))

theorem shift_spectrum_real_get {α : Type} (Ly Lx : Nat) (re im o1 o2 : Array2D α) (p q : Nat)
    (hp : p < 2 * (Ly / 2)) (hq : q < 2 * (Lx / 2)) :
    (shift_spectrum Ly Lx re im o1 o2).1.get p q = quadSwap (Ly / 2) (Lx / 2) re p q :=
  ((nested_writes (fun (s : Array2D α × Array2D α) => s.1.get) (Ly / 2) (Lx / 2) _ _ _
    (fun i j hi hj => shift_body_real (Ly / 2) (Lx / 2) re im i j hi hj)) (o1, o2) p q).1
    ((quadCells_exists _ _ p q).2 ⟨hp, hq⟩)

theorem shift_spectrum_imag_get {α : Type} (Ly Lx : Nat) (re im o1 o2 : Array2D α) (p q : Nat)
    (hp : p < 2 * (Ly / 2)) (hq : q < 2 * (Lx / 2)) :
    (shift_spectrum Ly Lx re im o1 o2).2.get p q = quadSwap (Ly / 2) (Lx / 2) im p q :=
  ((nested_writes (fun (s : Array2D α × Array2D α) => s.2.get) (Ly / 2) (Lx / 2) _ _ _
    (fun i j hi hj => shift_body_imag (Ly / 2) (Lx / 2) re im i j hi hj)) (o1, o2) p q).1
    ((quadCells_exists _ _ p q).2 ⟨hp, hq⟩)

theorem shift_spectrum_inv_real_get {α : Type} (Ly Lx : Nat) (re im o1 o2 : Array2D α)
    (p q : Nat) (hp : p < 2 * (Ly / 2)) (hq : q < 2 * (Lx / 2)) :
    (shift_spectrum_inv Ly Lx re im o1 o2).1.get p q = quadSwap (Ly / 2) (Lx / 2) re p q :=
  ((nested_writes (fun (s : Array2D α × Array2D α) => s.1.get) (Ly / 2) (Lx / 2) _ _ _
    (fun i j hi hj => shift_inv_body_real (Ly / 2) (Lx / 2) re im i j hi hj)) (o1, o2) p q).1
    ((quadCells_exists _ _ p q).2 ⟨hp, hq⟩)

theorem shift_spectrum_inv_imag_get {α : Type} (Ly Lx : Nat) (re im o1 o2 : Array2D α)
    (p q : Nat) (hp : p < 2 * (Ly / 2)) (hq : q < 2 * (Lx / 2)) :
    (shift_spectrum_inv Ly Lx re im o1 o2).2.get p q = quadSwap (Ly / 2) (Lx / 2) im p q :=
  ((nested_writes (fun (s : Array2D α × Array2D α) => s.2.get) (Ly / 2) (Lx / 2) _ _ _
    (fun i j hi hj => shift_inv_body_imag (Ly / 2) (Lx / 2) re im i j hi hj)) (o1, o2) p q).1
    ((quadCells_exists _ _ p q).2 ⟨hp, hq⟩)

theorem half_shift_mod (L i : Nat) (hL : L % 2 = 0) (hi : i < L) :
    (i + L / 2) % L = if i < L / 2 then i + L / 2 else i - L / 2 := by
  split_ifs with h
  · exact Nat.mod_eq_of_lt (by omega)
  · rw [Nat.mod_eq_sub_mod (by omega), Nat.mod_eq_of_lt (by omega)]
    omega

/-- C1. For even `Ly` and `Lx`, `shift_spectrum` followed by `shift_spectrum_inv`
gives back the original real array and the original imaginary array at every
cell of the `Ly x Lx` grid, whatever the output buffers held before. -/
theorem shift_then_shift_inv_identity {α : Type} (Ly Lx : Nat)
    (hLy : Ly % 2 = 0) (hLx : Lx % 2 = 0)
    (re im s1 s2 d1 d2 : Array2D α) (i j : Nat) (hi : i < Ly) (hj : j < Lx) :
    (shift_spectrum_inv Ly Lx (shift_spectrum Ly Lx re im s1 s2).1
        (shift_spectrum Ly Lx re im s1 s2).2 d1 d2).1.get i j = re.get i j ∧
    (shift_spectrum_inv Ly Lx (shift_spectrum Ly Lx re im s1 s2).1
        (shift_spectrum Ly Lx re im s1 s2).2 d1 d2).2.get i j = im.get i j := by
  have hi2 : i < 2 * (Ly / 2) := by omega
  have hj2 : j < 2 * (Lx / 2) := by omega
  rw [shift_spectrum_inv_real_get Ly Lx _ _ d1 d2 i j hi2 hj2,
    shift_spectrum_inv_imag_get Ly Lx _ _ d1 d2 i j hi2 hj2]
  unfold quadSwap
  simp only [Array2D.get]
  have hp : (if i < Ly / 2 then i + Ly / 2 else i - Ly / 2) < 2 * (Ly / 2) := by
    split_ifs <;> omega
  have hq : (if j < Lx / 2 then j + Lx / 2 else j - Lx / 2) < 2 * (Lx / 2) := by
    split_ifs <;> omega
  have h1 := shift_spectrum_real_get Ly Lx re im s1 s2 _ _ hp hq
  have h2 := shift_spectrum_imag_get Ly Lx re im s1 s2 _ _ hp hq
  simp only [Array2D.get, quadSwap] at h1 h2
  rw [h1, h2]
  have ei : (if (if i < Ly / 2 then i + Ly / 2 else i - Ly / 2) < Ly / 2
      then (if i < Ly / 2 then i + Ly / 2 else i - Ly / 2) + Ly / 2
      else (if i < Ly / 2 then i + Ly / 2 else i - Ly / 2) - Ly / 2) = i := by
    split_ifs <;> omega
  have ej : (if (if j < Lx / 2 then j + Lx / 2 else j - Lx / 2) < Lx / 2
      then (if j < Lx / 2 then j + Lx / 2 else j - Lx / 2) + Lx / 2
      else (if j < Lx / 2 then j + Lx / 2 else j - Lx / 2) - Lx / 2) = j := by
    split_ifs <;> omega
  rw [ei, ej]
  exact ⟨rfl, rfl⟩

/-- C2. For even `Ly` and `Lx`, `shift_spectrum` is the cyclic shift by half
the array in both directions: `output[(i + Ly/2) mod Ly][(j + Lx/2) mod Lx] =
input[i][j]` for the real and the imaginary array; in particular the
zero-frequency element `input[0][0]` ends at `output[Ly/2][Lx/2]`. -/
theorem shift_spectrum_cyclic {α : Type} (Ly Lx : Nat)
    (hLy : Ly % 2 = 0) (hLx : Lx % 2 = 0) (re im s1 s2 : Array2D α) :
    (∀ i j, i < Ly → j < Lx →
      (shift_spectrum Ly Lx re im s1 s2).1.get ((i + Ly / 2) % Ly) ((j + Lx / 2) % Lx)
          = re.get i j ∧
      (shift_spectrum Ly Lx re im s1 s2).2.get ((i + Ly / 2) % Ly) ((j + Lx / 2) % Lx)
          = im.get i j) ∧
    (0 < Ly → 0 < Lx →
      (shift_spectrum Ly Lx re im s1 s2).1.get (Ly / 2) (Lx / 2) = re.get 0 0 ∧
      (shift_spectrum Ly Lx re im s1 s2).2.get (Ly / 2) (Lx / 2) = im.get 0 0) := by
  have main : ∀ i j, i < Ly → j < Lx →
      (shift_spectrum Ly Lx re im s1 s2).1.get ((i + Ly / 2) % Ly) ((j + Lx / 2) % Lx)
          = re.get i j ∧
      (shift_spectrum Ly Lx re im s1 s2).2.get ((i + Ly / 2) % Ly) ((j + Lx / 2) % Lx)
          = im.get i j := by
    intro i j hi hj
    rw [half_shift_mod Ly i hLy hi, half_shift_mod Lx j hLx hj]
    have hp : (if i < Ly / 2 then i + Ly / 2 else i - Ly / 2) < 2 * (Ly / 2) := by
      split_ifs <;> omega
    have hq : (if j < Lx / 2 then j + Lx / 2 else j - Lx / 2) < 2 * (Lx / 2) := by
      split_ifs <;> omega
    rw [shift_spectrum_real_get Ly Lx re im s1 s2 _ _ hp hq,
      shift_spectrum_imag_get Ly Lx re im s1 s2 _ _ hp hq]
    unfold quadSwap
    have ei : (if (if i < Ly / 2 then i + Ly / 2 else i - Ly / 2) < Ly / 2
        then (if i < Ly / 2 then i + Ly / 2 else i - Ly / 2) + Ly / 2
        else (if i < Ly / 2 then i + Ly / 2 else i - Ly / 2) - Ly / 2) = i := by
      split_ifs <;> omega
    have ej : (if (if j < Lx / 2 then j + Lx / 2 else j - Lx / 2) < Lx / 2
        then (if j < Lx / 2 then j + Lx / 2 else j - Lx / 2) + Lx / 2
        else (if j < Lx / 2 then j + Lx / 2 else j - Lx / 2) - Lx / 2) = j := by
      split_ifs <;> omega
    rw [ei, ej]
    exact ⟨rfl, rfl⟩
  refine ⟨main, fun hy hx => ?_⟩
  have h0 := main 0 0 hy hx
  have ey : (0 + Ly / 2) % Ly = Ly / 2 := by
    rw [Nat.zero_add]
    exact Nat.mod_eq_of_lt (by omega)
  have ex : (0 + Lx / 2) % Lx = Lx / 2 := by
    rw [Nat.zero_add]
    exact Nat.mod_eq_of_lt (by omega)
  rw [ey, ex] at h0
  exact h0

theorem shift_then_shift_inv_identity_witness :
    (shift_spectrum_inv 2 4 (shift_spectrum 2 4 sampleCells sampleCells2 sampleCells sampleCells).1
        (shift_spectrum 2 4 sampleCells sampleCells2 sampleCells sampleCells).2
        sampleCells2 sampleCells2).1.get 1 3 = sampleCells.get 1 3 ∧
    (shift_spectrum_inv 2 4 (shift_spectrum 2 4 sampleCells sampleCells2 sampleCells sampleCells).1
        (shift_spectrum 2 4 sampleCells sampleCells2 sampleCells sampleCells).2
        sampleCells2 sampleCells2).2.get 1 3 = sampleCells2.get 1 3 :=
  shift_then_shift_inv_identity 2 4 (by decide) (by decide) sampleCells sampleCells2
    sampleCells sampleCells sampleCells2 sampleCells2 1 3 (by decide) (by decide)

theorem shift_spectrum_cyclic_witness :
    (shift_spectrum 2 4 sampleCells sampleCells2 sampleCells sampleCells).1.get 1 2
        = sampleCells.get 0 0 ∧
    (shift_spectrum 2 4 sampleCells sampleCells2 sampleCells sampleCells).2.get 1 2
        = sampleCells2.get 0 0 :=
  (shift_spectrum_cyclic 2 4 (by decide) (by decide) sampleCells sampleCells2
    sampleCells sampleCells).2 (by decide) (by decide)

/-! ## Detrending: the accumulated sums -/

section DetrendProofs

variable {K : Type} [LinearOrderedField K]

theorem forLoop_accumulates {σ : Type} (g : σ → K) (n : Nat) (body : Nat → σ → σ)
    (t : Nat → K) (h : ∀ i, i < n → ∀ s, g (body i s) = g s + t i) (s : σ) :
    g (forLoop n body s) = g s + ∑ i in Finset.range n, t i := by
  induction n with
  | zero => simp [forLoop]
  | succ n ih =>
    show g (body n (forLoop n body s)) = _
    rw [h n (Nat.lt_succ_self n), ih (fun i hi => h i (Nat.lt_succ_of_lt hi)),
      Finset.sum_range_succ, add_assoc]

theorem nested_accumulates {σ : Type} (g : σ → K) (n m : Nat) (body : Nat → Nat → σ → σ)
    (t : Nat → Nat → K) (h : ∀ i j, i < n → j < m → ∀ s, g (body i j s) = g s + t i j) (s : σ) :
    g (forLoop n (fun i s => forLoop m (fun j s => body i j s) s) s)
      = g s + ∑ i in Finset.range n, ∑ j in Finset.range m, t i j :=
  forLoop_accumulates g n (fun i s => forLoop m (fun j s => body i j s) s)
    (fun i => ∑ j in Finset.range m, t i j)
    (fun i hi s => forLoop_accumulates g m (fun j s => body i j s) (t i)
      (fun j hj s => h i j hi hj s) s) s

/-- What one pass of the body of the first loop of `detrend2D` adds to the
entry selected by `g`, for the twelve accumulators. -/
theorem detrend2D_sums_get (self : LSDRasterSpectral K) (zeta : Array2D K) :
    (detrend2D_sums self zeta).1.get 0 0 = validSum self zeta (fun _ j => (j : K) ^ 2) ∧
    (detrend2D_sums self zeta).1.get 0 1 = validSum self zeta (fun i j => (j : K) * (i : K)) ∧
    (detrend2D_sums self zeta).1.get 0 2 = validSum self zeta (fun _ j => (j : K)) ∧
    (detrend2D_sums self zeta).1.get 1 0 = validSum self zeta (fun i j => (i : K) * (j : K)) ∧
    (detrend2D_sums self zeta).1.get 1 1 = validSum self zeta (fun i _ => (i : K) ^ 2) ∧
    (detrend2D_sums self zeta).1.get 1 2 = validSum self zeta (fun i _ => (i : K)) ∧
    (detrend2D_sums self zeta).1.get 2 0 = validSum self zeta (fun _ j => (j : K)) ∧
    (detrend2D_sums self zeta).1.get 2 1 = validSum self zeta (fun i _ => (i : K)) ∧
    (detrend2D_sums self zeta).1.get 2 2 = validSum self zeta (fun _ _ => (1 : K)) ∧
    (detrend2D_sums self zeta).2.get 0 = validSum self zeta (fun i j => zeta.get i j * (j : K)) ∧
    (detrend2D_sums self zeta).2.get 1 = validSum self zeta (fun i j => zeta.get i j * (i : K)) ∧
    (detrend2D_sums self zeta).2.get 2 = validSum self zeta (fun i j => zeta.get i j) := by
  unfold detrend2D_sums validSum
  refine ⟨?_, ?_, ?_, ?_, ?_, ?_, ?_, ?_, ?_, ?_, ?_, ?_⟩
  · rw [nested_accumulates (fun (s : Array2D K × Array1D K) => s.1.get 0 0) _ _ _
      (fun i j => if zeta.get i j ≠ self.NoDataValue then ((j : K) ^ 2) else 0)]
    · simp [Array2D.filled, Array2D.get, Array1D.filled, Array1D.get]
    · intro i j _ _ s
      by_cases hc : zeta.data i j = self.NoDataValue <;>
        simp [hc, Array2D.get, Array2D.set, Array1D.get, Array1D.set]
  · rw [nested_accumulates (fun (s : Array2D K × Array1D K) => s.1.get 0 1) _ _ _
      (fun i j => if zeta.get i j ≠ self.NoDataValue then ((j : K) * (i : K)) else 0)]
    · simp [Array2D.filled, Array2D.get, Array1D.filled, Array1D.get]
    · intro i j _ _ s
      by_cases hc : zeta.data i j = self.NoDataValue <;>
        simp [hc, Array2D.get, Array2D.set, Array1D.get, Array1D.set]
  · rw [nested_accumulates (fun (s : Array2D K × Array1D K) => s.1.get 0 2) _ _ _
      (fun i j => if zeta.get i j ≠ self.NoDataValue then (j : K) else 0)]
    · simp [Array2D.filled, Array2D.get, Array1D.filled, Array1D.get]
    · intro i j _ _ s
      by_cases hc : zeta.data i j = self.NoDataValue <;>
        simp [hc, Array2D.get, Array2D.set, Array1D.get, Array1D.set]
  · rw [nested_accumulates (fun (s : Array2D K × Array1D K) => s.1.get 1 0) _ _ _
      (fun i j => if zeta.get i j ≠ self.NoDataValue then ((i : K) * (j : K)) else 0)]
    · simp [Array2D.filled, Array2D.get, Array1D.filled, Array1D.get]
    · intro i j _ _ s
      by_cases hc : zeta.data i j = self.NoDataValue <;>
        simp [hc, Array2D.get, Array2D.set, Array1D.get, Array1D.set]
  · rw [nested_accumulates (fun (s : Array2D K × Array1D K) => s.1.get 1 1) _ _ _
      (fun i j => if zeta.get i j ≠ self.NoDataValue then ((i : K) ^ 2) else 0)]
    · simp [Array2D.filled, Array2D.get, Array1D.filled, Array1D.get]
    · intro i j _ _ s
      by_cases hc : zeta.data i j = self.NoDataValue <;>
        simp [hc, Array2D.get, Array2D.set, Array1D.get, Array1D.set]
  · rw [nested_accumulates (fun (s : Array2D K × Array1D K) => s.1.get 1 2) _ _ _
      (fun i j => if zeta.get i j ≠ self.NoDataValue then (i : K) else 0)]
    · simp [Array2D.filled, Array2D.get, Array1D.filled, Array1D.get]
    · intro i j _ _ s
      by_cases hc : zeta.data i j = self.NoDataValue <;>
        simp [hc, Array2D.get, Array2D.set, Array1D.get, Array1D.set]
  · rw [nested_accumulates (fun (s : Array2D K × Array1D K) => s.1.get 2 0) _ _ _
      (fun i j => if zeta.get i j ≠ self.NoDataValue then (j : K) else 0)]
    · simp [Array2D.filled, Array2D.get, Array1D.filled, Array1D.get]
    · intro i j _ _ s
      by_cases hc : zeta.data i j = self.NoDataValue <;>
        simp [hc, Array2D.get, Array2D.set, Array1D.get, Array1D.set]
  · rw [nested_accumulates (fun (s : Array2D K × Array1D K) => s.1.get 2 1) _ _ _
      (fun i j => if zeta.get i j ≠ self.NoDataValue then (i : K) else 0)]
    · simp [Array2D.filled, Array2D.get, Array1D.filled, Array1D.get]
    · intro i j _ _ s
      by_cases hc : zeta.data i j = self.NoDataValue <;>
        simp [hc, Array2D.get, Array2D.set, Array1D.get, Array1D.set]
  · rw [nested_accumulates (fun (s : Array2D K × Array1D K) => s.1.get 2 2) _ _ _
      (fun i j => if zeta.get i j ≠ self.NoDataValue then (1 : K) else 0)]
    · simp [Array2D.filled, Array2D.get, Array1D.filled, Array1D.get]
    · intro i j _ _ s
      by_cases hc : zeta.data i j = self.NoDataValue <;>
        simp [hc, Array2D.get, Array2D.set, Array1D.get, Array1D.set]
  · rw [nested_accumulates (fun (s : Array2D K × Array1D K) => s.2.get 0) _ _ _
      (fun i j => if zeta.get i j ≠ self.NoDataValue then (zeta.get i j * (j : K)) else 0)]
    · simp [Array2D.filled, Array2D.get, Array1D.filled, Array1D.get]
    · intro i j _ _ s
      by_cases hc : zeta.data i j = self.NoDataValue <;>
        simp [hc, Array2D.get, Array2D.set, Array1D.get, Array1D.set]
  · rw [nested_accumulates (fun (s : Array2D K × Array1D K) => s.2.get 1) _ _ _
      (fun i j => if zeta.get i j ≠ self.NoDataValue then (zeta.get i j * (i : K)) else 0)]
    · simp [Array2D.filled, Array2D.get, Array1D.filled, Array1D.get]
    · intro i j _ _ s
      by_cases hc : zeta.data i j = self.NoDataValue <;>
        simp [hc, Array2D.get, Array2D.set, Array1D.get, Array1D.set]
  · rw [nested_accumulates (fun (s : Array2D K × Array1D K) => s.2.get 2) _ _ _
      (fun i j => if zeta.get i j ≠ self.NoDataValue then (zeta.get i j) else 0)]
    · simp [Array2D.filled, Array2D.get, Array1D.filled, Array1D.get]
    · intro i j _ _ s
      by_cases hc : zeta.data i j = self.NoDataValue <;>
        simp [hc, Array2D.get, Array2D.set, Array1D.get, Array1D.set]

theorem LU_solve_spec (singular : Array1D K) (A : Array2D K) (bb : Array1D K)
    (h : det3 A ≠ 0) :
    ∃ coeffs, LU_solve singular A bb = coeffs ∧
      A.get 0 0 * coeffs.get 0 + A.get 0 1 * coeffs.get 1 + A.get 0 2 * coeffs.get 2 = bb.get 0 ∧
      A.get 1 0 * coeffs.get 0 + A.get 1 1 * coeffs.get 1 + A.get 1 2 * coeffs.get 2 = bb.get 1 ∧
      A.get 2 0 * coeffs.get 0 + A.get 2 1 * coeffs.get 1 + A.get 2 2 * coeffs.get 2 = bb.get 2 := by
  unfold LU_solve
  rw [if_neg h]
  refine ⟨_, rfl, ?_, ?_, ?_⟩ <;>
  · simp only [Array1D.get, Array1D.set, Array1D.filled]
    simp only [if_true, if_false, OfNat.ofNat_ne_zero, OfNat.ofNat_ne_one, one_ne_zero,
      OfNat.zero_ne_ofNat, OfNat.one_ne_ofNat, zero_ne_one, Nat.succ_ne_self]
    field_simp
    unfold det3
    ring

theorem LU_solve_zero_rhs (singular : Array1D K) (A : Array2D K) (bb : Array1D K)
    (coeffs : Array1D K) (hd : det3 A ≠ 0) (h : LU_solve singular A bb = coeffs)
    (h0 : bb.get 0 = 0) (h1 : bb.get 1 = 0) (h2 : bb.get 2 = 0) :
    coeffs.get 0 = 0 ∧ coeffs.get 1 = 0 ∧ coeffs.get 2 = 0 := by
  unfold LU_solve at h
  rw [if_neg hd] at h
  subst h
  simp [Array1D.get, Array1D.set, Array1D.filled, h0, h1, h2]
  simp [Array1D.get] at h0 h1 h2
  simp [h0, h1, h2]

theorem single_cell_exists (n m p q : Nat) :
    (∃ i, i < n ∧ ∃ j, j < m ∧ (p = i ∧ q = j)) ↔ p < n ∧ q < m := by
  constructor
  · rintro ⟨i, hi, j, hj, rfl, rfl⟩
    exact ⟨hi, hj⟩
  · rintro ⟨hp, hq⟩
    exact ⟨p, hp, q, hq, rfl, rfl⟩

theorem detrend2D_surface_trend (self : LSDRasterSpectral K) (a b c : K)
    (zeta zd tp : Array2D K) (i j : Nat) (hi : i < self.NRows) (hj : j < self.NCols) :
    (detrend2D_surface self a b c zeta zd tp).2.get i j = a * (j : K) + b * (i : K) + c := by
  have h := (nested_writes (fun (s : Array2D K × Array2D K) => s.2.get) self.NRows self.NCols
    (fun i j s =>
      let x : K := (j : K)
      let y : K := (i : K)
      let zeta_detrend := s.1
      let trend_plane := s.2
      let trend_plane := trend_plane.set i j (a * x + b * y + c)
      if zeta.get i j ≠ self.NoDataValue then
        (zeta_detrend.set i j (zeta.get i j - trend_plane.get i j), trend_plane)
      else
        (zeta_detrend.set i j 0, trend_plane))
    (fun i j p q => p = i ∧ q = j) (fun p q => a * (q : K) + b * (p : K) + c)
    (by
      intro i j _ _ s p q
      by_cases hc : zeta.data i j = self.NoDataValue <;>
      · constructor
        · rintro ⟨rfl, rfl⟩
          simp [hc, Array2D.get, Array2D.set]
        · intro hW
          simp [hc, Array2D.get, Array2D.set, hW])) (zd, tp) i j
  exact h.1 ((single_cell_exists _ _ i j).2 ⟨hi, hj⟩)

theorem detrend2D_surface_detrend (self : LSDRasterSpectral K) (a b c : K)
    (zeta zd tp : Array2D K) (i j : Nat) (hi : i < self.NRows) (hj : j < self.NCols) :
    (detrend2D_surface self a b c zeta zd tp).1.get i j =
      if zeta.get i j ≠ self.NoDataValue then zeta.get i j - (a * (j : K) + b * (i : K) + c)
      else 0 := by
  have h := (nested_writes (fun (s : Array2D K × Array2D K) => s.1.get) self.NRows self.NCols
    (fun i j s =>
      let x : K := (j : K)
      let y : K := (i : K)
      let zeta_detrend := s.1
      let trend_plane := s.2
      let trend_plane := trend_plane.set i j (a * x + b * y + c)
      if zeta.get i j ≠ self.NoDataValue then
        (zeta_detrend.set i j (zeta.get i j - trend_plane.get i j), trend_plane)
      else
        (zeta_detrend.set i j 0, trend_plane))
    (fun i j p q => p = i ∧ q = j)
    (fun p q => if zeta.get p q ≠ self.NoDataValue
      then zeta.get p q - (a * (q : K) + b * (p : K) + c) else 0)
    (by
      intro i j _ _ s p q
      by_cases hc : zeta.data i j = self.NoDataValue <;>
      · constructor
        · rintro ⟨rfl, rfl⟩
          simp [hc, Array2D.get, Array2D.set]
        · intro hW
          simp [hc, Array2D.get, Array2D.set, hW])) (zd, tp) i j
  exact h.1 ((single_cell_exists _ _ i j).2 ⟨hi, hj⟩)

/-- With the coefficients read, `detrend2D` returns the arrays of its second
loop. -/
theorem detrend2D_of_coeffs (singular : Array1D K) (self : LSDRasterSpectral K)
    (zeta zd tp : Array2D K) (a b c : K)
    (h : detrend2D_coeffs singular self zeta = (a, b, c)) :
    detrend2D singular self zeta zd tp = detrend2D_surface self a b c zeta zd tp := by
  unfold detrend2D
  rw [h]

/-- What `detrend2D` reads as coefficients: the cells 0, 1 and 2 of the array
of the solver. -/
theorem detrend2D_coeffs_eq (singular : Array1D K) (self : LSDRasterSpectral K)
    (zeta : Array2D K) :
    detrend2D_coeffs singular self zeta =
      ((LU_solve singular (detrend2D_sums self zeta).1 (detrend2D_sums self zeta).2).get 0,
       (LU_solve singular (detrend2D_sums self zeta).1 (detrend2D_sums self zeta).2).get 1,
       (LU_solve singular (detrend2D_sums self zeta).1 (detrend2D_sums self zeta).2).get 2) :=
  rfl

/-- C5. With `(a, b, c)` the coefficients `detrend2D` reads from the solved
normal equations, the call returns and, for every cell `(i, j)` of the grid,
`trend_plane[i][j] = a*j + b*i + c`, `zeta_detrend[i][j] = zeta[i][j] -
trend_plane[i][j]` where `zeta[i][j]` is not `NoDataValue`, and
`zeta_detrend[i][j] = 0` where it is. -/
theorem detrend2D_cells (singular : Array1D K) (self : LSDRasterSpectral K)
    (zeta zd tp : Array2D K) (a b c : K)
    (h : detrend2D_coeffs singular self zeta = (a, b, c)) :
    ∃ zd' tp', detrend2D singular self zeta zd tp = (zd', tp') ∧
      ∀ i j, i < self.NRows → j < self.NCols →
        tp'.get i j = a * (j : K) + b * (i : K) + c ∧
        (zeta.get i j ≠ self.NoDataValue → zd'.get i j = zeta.get i j - tp'.get i j) ∧
        (zeta.get i j = self.NoDataValue → zd'.get i j = 0) := by
  refine ⟨(detrend2D_surface self a b c zeta zd tp).1,
    (detrend2D_surface self a b c zeta zd tp).2,
    detrend2D_of_coeffs singular self zeta zd tp a b c h, ?_⟩
  · intro i j hi hj
    rw [detrend2D_surface_trend self a b c zeta zd tp i j hi hj,
      detrend2D_surface_detrend self a b c zeta zd tp i j hi hj]
    refine ⟨rfl, ?_, ?_⟩
    · intro hne
      rw [if_pos hne]
    · intro he
      rw [if_neg (not_not.mpr he)]

theorem validSum_eq_sum_filter (self : LSDRasterSpectral K) (zeta : Array2D K)
    (f : Nat → Nat → K) :
    validSum self zeta f =
      ∑ p in (Finset.range self.NRows ×ˢ Finset.range self.NCols).filter
        (fun p => zeta.get p.1 p.2 ≠ self.NoDataValue), f p.1 p.2 := by
  unfold validSum
  rw [Finset.sum_filter, Finset.sum_product]

theorem validSum_lincomb (self : LSDRasterSpectral K) (zeta : Array2D K)
    (f1 f2 f3 f4 : Nat → Nat → K) (a b c : K) :
    validSum self zeta (fun i j => f4 i j - (f1 i j * a + f2 i j * b + f3 i j * c)) =
      validSum self zeta f4 -
        (validSum self zeta f1 * a + validSum self zeta f2 * b + validSum self zeta f3 * c) := by
  simp only [validSum_eq_sum_filter, Finset.sum_mul, ← Finset.sum_add_distrib,
    ← Finset.sum_sub_distrib]

/-- The normal equations in residual form: with the coefficients read by
`detrend2D`, the residuals over the valid cells sum to zero, also when weighted
by the column index or by the row index. -/
theorem detrend2D_normal_equations (singular : Array1D K) (self : LSDRasterSpectral K)
    (zeta : Array2D K) (a b c : K) (hd : det3 (detrend2D_sums self zeta).1 ≠ 0)
    (h : detrend2D_coeffs singular self zeta = (a, b, c)) :
    validSum self zeta (fun i j => zeta.get i j - (a * (j : K) + b * (i : K) + c)) = 0 ∧
    validSum self zeta
      (fun i j => (j : K) * (zeta.get i j - (a * (j : K) + b * (i : K) + c))) = 0 ∧
    validSum self zeta
      (fun i j => (i : K) * (zeta.get i j - (a * (j : K) + b * (i : K) + c))) = 0 := by
  rw [detrend2D_coeffs_eq] at h
  obtain ⟨coeffs, hc, e0, e1, e2⟩ :=
    LU_solve_spec singular (detrend2D_sums self zeta).1 (detrend2D_sums self zeta).2 hd
  rw [hc] at h
  have ha : coeffs.get 0 = a := congrArg (fun t => t.1) h
  have hb : coeffs.get 1 = b := congrArg (fun t => t.2.1) h
  have hcc : coeffs.get 2 = c := congrArg (fun t => t.2.2) h
  rw [ha, hb, hcc] at e0 e1 e2
  obtain ⟨s00, s01, s02, s10, s11, s12, s20, s21, s22, b0, b1, b2⟩ :=
    detrend2D_sums_get self zeta
  rw [s00, s01, s02, b0] at e0
  rw [s10, s11, s12, b1] at e1
  rw [s20, s21, s22, b2] at e2
  refine ⟨?_, ?_, ?_⟩
  · have e : (fun (i j : Nat) => zeta.get i j - (a * (j : K) + b * (i : K) + c)) =
        (fun (i j : Nat) => zeta.get i j - ((j : K) * a + (i : K) * b + (1 : K) * c)) := by
      funext i j
      ring
    rw [e, validSum_lincomb, e2, sub_self]
  · have e : (fun (i j : Nat) => (j : K) * (zeta.get i j - (a * (j : K) + b * (i : K) + c))) =
        (fun (i j : Nat) => zeta.get i j * (j : K)
          - ((j : K) ^ 2 * a + (j : K) * (i : K) * b + (j : K) * c)) := by
      funext i j
      ring
    rw [e, validSum_lincomb, e0, sub_self]
  · have e : (fun (i j : Nat) => (i : K) * (zeta.get i j - (a * (j : K) + b * (i : K) + c))) =
        (fun (i j : Nat) => zeta.get i j * (i : K)
          - ((i : K) * (j : K) * a + (i : K) ^ 2 * b + (i : K) * c)) := by
      funext i j
      ring
    rw [e, validSum_lincomb, e1, sub_self]

/-- C6. Detrending is idempotent: when `detrend2D`, with a non-singular plane
fit, has produced a detrended array none of whose cells equals `NoDataValue`,
and the plane fit to that array is non-singular, `detrend2D` applied to it
returns a trend plane that is zero at every cell and a detrended array equal to
its input at every cell. -/
theorem detrend2D_idempotent (singular : Array1D K) (self : LSDRasterSpectral K)
    (zeta zd tp zd' tp' o1 o2 : Array2D K)
    (h0 : det3 (detrend2D_sums self zeta).1 ≠ 0)
    (h1 : detrend2D singular self zeta zd tp = (zd', tp'))
    (h2 : det3 (detrend2D_sums self zd').1 ≠ 0)
    (h3 : ∀ i j, i < self.NRows → j < self.NCols → zd'.get i j ≠ self.NoDataValue) :
    ∃ zd'' tp'', detrend2D singular self zd' o1 o2 = (zd'', tp'') ∧
      ∀ i j, i < self.NRows → j < self.NCols →
        tp''.get i j = 0 ∧ zd''.get i j = zd'.get i j := by
  -- the first fit
  have hco : ∃ a b c, detrend2D_coeffs singular self zeta = (a, b, c) ∧
      zd' = (detrend2D_surface self a b c zeta zd tp).1 := by
    refine ⟨(detrend2D_coeffs singular self zeta).1, (detrend2D_coeffs singular self zeta).2.1,
      (detrend2D_coeffs singular self zeta).2.2, rfl, ?_⟩
    exact (congrArg (fun t => t.1) h1).symm
  obtain ⟨a, b, c, hq, hzd⟩ := hco
  obtain ⟨n0, nx, ny⟩ := detrend2D_normal_equations singular self zeta a b c h0 hq
  have hval : ∀ i j, i < self.NRows → j < self.NCols → zd'.get i j =
      if zeta.get i j ≠ self.NoDataValue then zeta.get i j - (a * (j : K) + b * (i : K) + c)
      else 0 := by
    intro i j hi hj
    rw [hzd]
    exact detrend2D_surface_detrend self a b c zeta zd tp i j hi hj
  -- sums over the detrended array, every cell of which is valid
  have hsum : ∀ w : Nat → Nat → K,
      validSum self zd' (fun i j => zd'.get i j * w i j) =
        validSum self zeta
          (fun i j => w i j * (zeta.get i j - (a * (j : K) + b * (i : K) + c))) := by
    intro w
    unfold validSum
    refine Finset.sum_congr rfl (fun i hi => Finset.sum_congr rfl (fun j hj => ?_))
    have hi' := Finset.mem_range.mp hi
    have hj' := Finset.mem_range.mp hj
    rw [if_pos (h3 i j hi' hj')]
    show zd'.get i j * w i j = if zeta.get i j ≠ self.NoDataValue
      then w i j * (zeta.get i j - (a * (j : K) + b * (i : K) + c)) else 0
    rw [hval i j hi' hj']
    by_cases hc : zeta.get i j ≠ self.NoDataValue
    · rw [if_pos hc, if_pos hc, mul_comm]
    · rw [if_neg hc, if_neg hc, zero_mul]
  obtain ⟨_, _, _, _, _, _, _, _, _, b0, b1, b2⟩ := detrend2D_sums_get self zd'
  have hb0 : (detrend2D_sums self zd').2.get 0 = 0 := by
    rw [b0, hsum (fun _ j => (j : K))]
    exact nx
  have hb1 : (detrend2D_sums self zd').2.get 1 = 0 := by
    rw [b1, hsum (fun i _ => (i : K))]
    exact ny
  have hb2 : (detrend2D_sums self zd').2.get 2 = 0 := by
    have e : (fun (i j : Nat) => zd'.get i j) = (fun (i j : Nat) => zd'.get i j * (1 : K)) := by
      funext i j
      rw [mul_one]
    rw [b2, e, hsum (fun _ _ => (1 : K))]
    simp only [one_mul]
    exact n0
  obtain ⟨coeffs, hc, _, _, _⟩ :=
    LU_solve_spec singular (detrend2D_sums self zd').1 (detrend2D_sums self zd').2 h2
  obtain ⟨z0, z1, z2⟩ := LU_solve_zero_rhs singular _ _ coeffs h2 hc hb0 hb1 hb2
  have hco2 : detrend2D_coeffs singular self zd' = (0, 0, 0) := by
    rw [detrend2D_coeffs_eq, hc, z0, z1, z2]
  refine ⟨(detrend2D_surface self 0 0 0 zd' o1 o2).1, (detrend2D_surface self 0 0 0 zd' o1 o2).2,
    detrend2D_of_coeffs singular self zd' o1 o2 0 0 0 hco2, fun i j hi hj => ?_⟩
  rw [detrend2D_surface_trend self 0 0 0 zd' o1 o2 i j hi hj,
    detrend2D_surface_detrend self 0 0 0 zd' o1 o2 i j hi hj, if_pos (h3 i j hi hj)]
  constructor <;> ring

end DetrendProofs

/-! ## Detrending: a worked surface -/

theorem sampleSurface_coeffs :
    detrend2D_coeffs sampleLib.solve_singular sampleSurface sampleSurface.RasterData
      = (27 / 10, 17 / 10, -3 / 5) := by
  decide!

theorem detrend2D_cells_witness :
    ∃ zd' tp', detrend2D sampleLib.solve_singular sampleSurface sampleSurface.RasterData
        sampleBuffer sampleBuffer = (zd', tp') ∧
      ∀ i j, i < sampleSurface.NRows → j < sampleSurface.NCols →
        tp'.get i j = 27 / 10 * (j : ℚ) + 17 / 10 * (i : ℚ) + -3 / 5 ∧
        (sampleSurface.RasterData.get i j ≠ sampleSurface.NoDataValue →
          zd'.get i j = sampleSurface.RasterData.get i j - tp'.get i j) ∧
        (sampleSurface.RasterData.get i j = sampleSurface.NoDataValue → zd'.get i j = 0) :=
  detrend2D_cells sampleLib.solve_singular sampleSurface sampleSurface.RasterData sampleBuffer
    sampleBuffer (27 / 10) (17 / 10) (-3 / 5) sampleSurface_coeffs

theorem detrend2D_idempotent_witness :
    ∃ zd'' tp'', detrend2D sampleLib.solve_singular sampleSurface
        (detrend2D_surface sampleSurface (27 / 10) (17 / 10) (-3 / 5)
          sampleSurface.RasterData sampleBuffer sampleBuffer).1 sampleBuffer sampleBuffer
        = (zd'', tp'') ∧
      ∀ i j, i < sampleSurface.NRows → j < sampleSurface.NCols →
        tp''.get i j = 0 ∧
        zd''.get i j = (detrend2D_surface sampleSurface (27 / 10) (17 / 10) (-3 / 5)
          sampleSurface.RasterData sampleBuffer sampleBuffer).1.get i j :=
  detrend2D_idempotent sampleLib.solve_singular sampleSurface sampleSurface.RasterData
    sampleBuffer sampleBuffer
    (detrend2D_surface sampleSurface (27 / 10) (17 / 10) (-3 / 5)
      sampleSurface.RasterData sampleBuffer sampleBuffer).1
    (detrend2D_surface sampleSurface (27 / 10) (17 / 10) (-3 / 5)
      sampleSurface.RasterData sampleBuffer sampleBuffer).2
    sampleBuffer sampleBuffer
    (by decide!)
    (detrend2D_of_coeffs sampleLib.solve_singular sampleSurface sampleSurface.RasterData
      sampleBuffer sampleBuffer (27 / 10) (17 / 10) (-3 / 5) sampleSurface_coeffs)
    (by decide!)
    (by
      intro i j hi hj
      have hi' : i < 3 := hi
      have hj' : j < 3 := hj
      interval_cases i <;> interval_cases j <;> decide!)

/-! ## Periodogram -/

section PeriodogramProofs

variable {K : Type} [LinearOrderedField K]

theorem forLoop_preserves {σ : Type} (P : σ → Prop) (n : Nat) (body : Nat → σ → σ)
    (h : ∀ i s, P s → P (body i s)) (s : σ) (hs : P s) : P (forLoop n body s) := by
  induction n with
  | zero => exact hs
  | succ n ih => exact h n _ ih

/-- Two nested loops that assign `f i j` to cell `(i, j)`: the cells of the
`n x m` block hold `f`. -/
theorem fill_loop_get {α : Type} (n m : Nat) (f : Nat → Nat → α) (P0 : Array2D α)
    (i j : Nat) (hi : i < n) (hj : j < m) :
    (forLoop n (fun i P => forLoop m (fun j P => P.set i j (f i j)) P) P0).get i j = f i j := by
  have h := (nested_writes (fun (P : Array2D α) => P.get) n m
    (fun i j P => P.set i j (f i j)) (fun i j p q => p = i ∧ q = j) f
    (by
      intro i j _ _ P p q
      constructor
      · rintro ⟨rfl, rfl⟩
        simp [Array2D.get, Array2D.set]
      · intro hW
        simp [Array2D.get, Array2D.set, hW])) P0 i j
  exact h.1 ((single_cell_exists _ _ i j).2 ⟨hi, hj⟩)

/-- The same loops leave every cell outside the `n x m` block as it was. -/
theorem fill_loop_get_outside {α : Type} (n m : Nat) (f : Nat → Nat → α) (P0 : Array2D α)
    (i j : Nat) (h : ¬ (i < n ∧ j < m)) :
    (forLoop n (fun i P => forLoop m (fun j P => P.set i j (f i j)) P) P0).get i j
      = P0.get i j := by
  have h' := (nested_writes (fun (P : Array2D α) => P.get) n m
    (fun i j P => P.set i j (f i j)) (fun i j p q => p = i ∧ q = j) f
    (by
      intro i j _ _ P p q
      constructor
      · rintro ⟨rfl, rfl⟩
        simp [Array2D.get, Array2D.set]
      · intro hW
        simp [Array2D.get, Array2D.set, hW])) P0 i j
  exact h'.2 (fun hx => h ((single_cell_exists _ _ i j).1 hx))

theorem fill_loop_dims {α : Type} (n m : Nat) (f : Nat → Nat → α) (P0 : Array2D α) :
    (forLoop n (fun i P => forLoop m (fun j P => P.set i j (f i j)) P) P0).dim1 = P0.dim1 ∧
    (forLoop n (fun i P => forLoop m (fun j P => P.set i j (f i j)) P) P0).dim2 = P0.dim2 := by
  refine forLoop_preserves (fun (P : Array2D α) => P.dim1 = P0.dim1 ∧ P.dim2 = P0.dim2) n
    (fun i P => forLoop m (fun j P => P.set i j (f i j)) P) ?_ P0 ⟨rfl, rfl⟩
  intro i P hP
  exact forLoop_preserves (fun (P : Array2D α) => P.dim1 = P0.dim1 ∧ P.dim2 = P0.dim2) m
    (fun j P => P.set i j (f i j)) (fun j P hP => hP) P hP

/-- C7. After `calculate_2D_PSD(real, imag)` the array `P_DFT` has dimensions
`Ly x Lx` and `P_DFT[i][j] = (real[i][j]^2 + imag[i][j]^2) / (Ly * Lx * WSS)` for
every `i < Ly`, `j < Lx`. -/
theorem calculate_2D_PSD_cells (self : LSDRasterSpectral K) (re im : Array2D K) :
    (calculate_2D_PSD self re im).P_DFT.dim1 = self.Ly ∧
    (calculate_2D_PSD self re im).P_DFT.dim2 = self.Lx ∧
    ∀ i j, i < self.Ly → j < self.Lx →
      (calculate_2D_PSD self re im).P_DFT.get i j =
        (re.get i j ^ 2 + im.get i j ^ 2) / ((self.Ly : K) * (self.Lx : K) * self.WSS) := by
  have hd := fill_loop_dims self.Ly self.Lx
    (fun i j => (re.get i j ^ 2 + im.get i j ^ 2) / (((self.Ly * self.Lx : Nat) : K) * self.WSS))
    (Array2D.filled self.Ly self.Lx 0)
  refine ⟨hd.1, hd.2, ?_⟩
  intro i j hi hj
  have h := fill_loop_get self.Ly self.Lx
    (fun i j => (re.get i j ^ 2 + im.get i j ^ 2) / (((self.Ly * self.Lx : Nat) : K) * self.WSS))
    (Array2D.filled self.Ly self.Lx 0) i j hi hj
  have e : ((self.Ly * self.Lx : Nat) : K) = (self.Ly : K) * (self.Lx : K) := Nat.cast_mul _ _
  rw [← e]
  exact h

theorem calculate_2D_PSD_cells_witness :
    (calculate_2D_PSD sampleSurface sampleSurface.RasterData sampleBuffer).P_DFT.get 1 2 =
      (sampleSurface.RasterData.get 1 2 ^ 2 + sampleBuffer.get 1 2 ^ 2)
        / ((sampleSurface.Ly : ℚ) * (sampleSurface.Lx : ℚ) * sampleSurface.WSS) :=
  (calculate_2D_PSD_cells sampleSurface sampleSurface.RasterData sampleBuffer).2.2 1 2
    (by decide) (by decide)

end PeriodogramProofs

/-! ## The filter pipelines keep the frame -/

theorem dfftw2D_fwd_forward {K : Type} (f : Nat → Nat → Int → (Nat → K × K) → (Nat → K × K))
    (b : Nat → K × K) (self : LSDRasterSpectral K) (a o1 o2 : Array2D K) :
    dfftw2D_fwd f b self a o1 o2 (-1) ≠ none := by
  unfold dfftw2D_fwd
  simp

theorem dfftw2D_inv_inverse {K : Type} (f : Nat → Nat → Int → (Nat → K × K) → (Nat → K × K))
    (b : Nat → K × K) (self : LSDRasterSpectral K) (a1 a2 o : Array2D K) :
    dfftw2D_inv f b self a1 a2 o 1 ≠ none := by
  unfold dfftw2D_inv
  simp

section PipelineProofs

variable {K : Type} [LinearOrderedField K]

theorem rescale_topography_dims (self : LSDRasterSpectral K) (padded tp : Array2D K) :
    (rescale_topography self padded tp).dim1 = self.NRows ∧
    (rescale_topography self padded tp).dim2 = self.NCols := by
  unfold rescale_topography
  refine forLoop_preserves
    (fun (P : Array2D K) => P.dim1 = self.NRows ∧ P.dim2 = self.NCols) _ _ ?_ _ ⟨rfl, rfl⟩
  intro i P hP
  refine forLoop_preserves
    (fun (P : Array2D K) => P.dim1 = self.NRows ∧ P.dim2 = self.NCols) _ _ ?_ P hP
  intro j P hP
  show (if self.RasterData.get i j ≠ self.NoDataValue then _ else P).dim1 = self.NRows ∧
    (if self.RasterData.get i j ≠ self.NoDataValue then _ else P).dim2 = self.NCols
  split_ifs
  · exact hP
  · exact hP

theorem rescale_topography_nodata (self : LSDRasterSpectral K) (padded tp : Array2D K)
    (p q : Nat) (h : self.RasterData.get p q = self.NoDataValue) :
    (rescale_topography self padded tp).get p q = self.NoDataValue := by
  unfold rescale_topography
  refine forLoop_preserves (fun (P : Array2D K) => P.get p q = self.NoDataValue) _ _ ?_ _ rfl
  intro i P hP
  refine forLoop_preserves (fun (P : Array2D K) => P.get p q = self.NoDataValue) _ _ ?_ P hP
  intro j P hP
  show (if self.RasterData.get i j ≠ self.NoDataValue then _ else P).get p q = self.NoDataValue
  split_ifs with hc
  · simp only [Array2D.get, Array2D.set]
    by_cases hpq : p = i ∧ q = j
    · obtain ⟨rfl, rfl⟩ := hpq
      exact absurd h hc
    · rw [if_neg hpq]
      exact hP
  · exact hP

theorem create_keeps_frame (self : LSDRasterSpectral K) (padded tp : Array2D K) :
    ∃ out, LSDRaster.create self.NRows self.NCols self.XMinimum self.YMinimum
        self.DataResolution self.NoDataValue (rescale_topography self padded tp) = some out ∧
      keeps_frame self out := by
  obtain ⟨d1, d2⟩ := rescale_topography_dims self padded tp
  refine ⟨⟨self.NRows, self.NCols, self.XMinimum, self.YMinimum, self.DataResolution,
    self.NoDataValue, rescale_topography self padded tp⟩, ?_, rfl, rfl, rfl, rfl, rfl, rfl, ?_⟩
  · unfold LSDRaster.create
    rw [if_neg (not_not.mpr d1), if_neg (not_not.mpr d2)]
  · intro i j _ _ h
    exact rescale_topography_nodata self padded tp i j h

/-- The common tail of the two pipelines returns a raster, whatever the filter,
and that raster keeps the frame of the surface it was computed from. -/
theorem transform_filter_rebuild_frame (lib : Extern K) (self : LSDRasterSpectral K)
    (zeta_padded trend_plane : Array2D K)
    (filter : Array2D K → Array2D K → Array2D K → Array2D K → Array2D K × Array2D K) :
    ∃ out, transform_filter_rebuild lib self zeta_padded trend_plane filter = some out ∧
      keeps_frame self out := by
  unfold transform_filter_rebuild
  dsimp only
  split
  · rename_i hfwd
    exact absurd hfwd (dfftw2D_fwd_forward _ _ _ _ _ _)
  · split
    · rename_i hinv
      exact absurd hinv (dfftw2D_inv_inverse _ _ _ _ _ _)
    · exact create_keeps_frame self _ trend_plane

/-- C10. When the plane fit of the surface is non-singular, `fftw2D_filter`
(for every `FilterType`, `FLow`, `FHigh`) and `fftw2D_wiener` return a raster,
and every raster they return has the input's `NRows`, `NCols`, `XMinimum`,
`YMinimum`, `DataResolution` and `NoDataValue` and holds `NoDataValue` at every
cell where the input raster holds `NoDataValue`. -/
theorem fftw2D_filter_keeps_frame (lib : Extern K) (self : LSDRasterSpectral K) :
    (det3 (detrend2D_sums self self.RasterData).1 ≠ 0 →
      (∀ (FilterType : Int) (FLow FHigh : K),
        ∃ out, fftw2D_filter lib self FilterType FLow FHigh = some out) ∧
      ∃ out, fftw2D_wiener lib self = some out) ∧
    (∀ (FilterType : Int) (FLow FHigh : K) (out : LSDRaster K),
      fftw2D_filter lib self FilterType FLow FHigh = some out → keeps_frame self out) ∧
    (∀ out : LSDRaster K, fftw2D_wiener lib self = some out → keeps_frame self out) := by
  have hfilter : ∀ (FilterType : Int) (FLow FHigh : K),
      ∃ out, fftw2D_filter lib self FilterType FLow FHigh = some out ∧ keeps_frame self out := by
    intro FilterType FLow FHigh
    unfold fftw2D_filter
    exact transform_filter_rebuild_frame lib self _ _ _
  have hwiener : ∃ out, fftw2D_wiener lib self = some out ∧ keeps_frame self out := by
    unfold fftw2D_wiener
    exact transform_filter_rebuild_frame lib
      { self with
        WSS := 1
        Ly := padded_length lib self.NRows
        Lx := padded_length lib self.NCols }
      _ _ _
  refine ⟨?_, ?_, ?_⟩
  · intro _
    refine ⟨fun FilterType FLow FHigh => ?_, ?_⟩
    · obtain ⟨out, ho, _⟩ := hfilter FilterType FLow FHigh
      exact ⟨out, ho⟩
    · obtain ⟨out, ho, _⟩ := hwiener
      exact ⟨out, ho⟩
  · intro FilterType FLow FHigh out ho
    obtain ⟨out', ho', hk⟩ := hfilter FilterType FLow FHigh
    rw [ho] at ho'
    rw [Option.some.inj ho']
    exact hk
  · intro out ho
    obtain ⟨out', ho', hk⟩ := hwiener
    rw [ho] at ho'
    rw [Option.some.inj ho']
    exact hk

end PipelineProofs

theorem fftw2D_filter_keeps_frame_witness :
    (∀ (FilterType : Int) (FLow FHigh : ℚ),
        ∃ out, fftw2D_filter sampleLib sampleSurface FilterType FLow FHigh = some out) ∧
      ∃ out, fftw2D_wiener sampleLib sampleSurface = some out :=
  (fftw2D_filter_keeps_frame sampleLib sampleSurface).1 (by decide!)

/-! ## Radially averaged spectrum -/

theorem forLoop_induct {σ : Type} (P : Nat → σ → Prop) (n : Nat) (body : Nat → σ → σ) (s : σ)
    (h0 : P 0 s) (hstep : ∀ i, i < n → ∀ t, P i t → P (i + 1) (body i t)) :
    P n (forLoop n body s) := by
  induction n with
  | zero => exact h0
  | succ n ih =>
    exact hstep n (Nat.lt_succ_self n) _ (ih (fun i hi t ht => hstep i (Nat.lt_succ_of_lt hi) t ht))

section RadialProofs

variable {K : Type} [LinearOrderedField K]

theorem matlab_float_sort_length (l : List K) : (matlab_float_sort l).1.length = l.length := by
  unfold matlab_float_sort
  simp [List.length_insertionSort]

theorem radial_PSD_raw_length (lib : Extern K) (self : LSDRasterSpectral K) :
    (radial_PSD_raw lib self).1.length = self.Ly * (self.Lx / 2 + 1) := by
  unfold radial_PSD_raw
  refine forLoop_preserves
    (fun (t : List K × List K × Nat) => t.1.length = self.Ly * (self.Lx / 2 + 1)) _ _ ?_ _
    (by simp)
  intro i t ht
  refine forLoop_preserves
    (fun (t : List K × List K × Nat) => t.1.length = self.Ly * (self.Lx / 2 + 1)) _ _ ?_ t ht
  intro j t ht
  show (if radial_frequency lib self i j ≤ 1 / (2 * self.DataResolution) then _ else t).1.length
    = self.Ly * (self.Lx / 2 + 1)
  split_ifs
  · simp [ht]
  · exact ht

end RadialProofs

/-! ## Radially averaged spectrum: the zero-frequency entry -/

/-- C8 (failing input). On the 2 x 2 spectrum of resolution 1 with periodogram 1
everywhere, cell `(0, 0)` lies beyond the Nyquist radius and is skipped by the
collection loop, but its slot of the raw vectors keeps the initial pair
`(0, 0)`, is sorted in with the zero-frequency cell `(1, 1)` and halves the
first average: `calculate_radial_PSD` yields 1 at frequency 0 where the mean of
`2*P_DFT` over the cells of frequency 0 is 2. -/
theorem calculate_radial_PSD_dilutes_zero_frequency :
    (radial_PSD_raw sampleLib sampleSpectrum) = ([1 / 2, 1 / 2, 0, 0], [2, 2, 2, 0], 3) ∧
    (calculate_radial_PSD sampleLib sampleSpectrum).RadialFrequency = [0, 1 / 2] ∧
    (calculate_radial_PSD sampleLib sampleSpectrum).RadiallyAveragedPSD = [1, 2] ∧
    ring_cells sampleLib sampleSpectrum 0 = [(1, 1)] ∧
    spec_radial_mean sampleLib sampleSpectrum 0 = 2 := by
  refine ⟨?_, ?_, ?_, ?_, ?_⟩ <;> decide!

/-! ## Forward and inverse transform -/

theorem unitRoot_orth (N m a : Nat) (hm : m < N) (ha : a < N) :
    ∑ k in Finset.range N,
      unitRoot N ^ ((1 : ℤ) * (m : ℤ) * (k : ℤ)) * unitRoot N ^ ((-1 : ℤ) * (k : ℤ) * (a : ℤ))
      = if a = m then (N : ℂ) else 0 := by
  have hN : N ≠ 0 := by omega
  have hζ : IsPrimitiveRoot (unitRoot N) N := Complex.isPrimitiveRoot_exp N hN
  have h0 : unitRoot N ≠ 0 := hζ.ne_zero hN
  have hterm : ∀ k : ℕ, unitRoot N ^ ((1 : ℤ) * (m : ℤ) * (k : ℤ))
      * unitRoot N ^ ((-1 : ℤ) * (k : ℤ) * (a : ℤ))
      = (unitRoot N ^ ((m : ℤ) - (a : ℤ))) ^ k := by
    intro k
    rw [← zpow_add₀ h0, ← zpow_natCast, ← zpow_mul]
    congr 1
    ring
  simp only [hterm]
  by_cases h : a = m
  · subst h
    simp
  · rw [if_neg h]
    have hx : unitRoot N ^ ((m : ℤ) - (a : ℤ)) ≠ 1 := by
      intro hx
      rw [hζ.zpow_eq_one_iff_dvd] at hx
      have : (m : ℤ) - (a : ℤ) = 0 := by
        apply Int.eq_zero_of_abs_lt_dvd hx
        rw [abs_lt]
        constructor <;> omega
      omega
    rw [geom_sum_eq hx]
    have hxN : (unitRoot N ^ ((m : ℤ) - (a : ℤ))) ^ N = 1 := by
      rw [← zpow_natCast, ← zpow_mul, mul_comm, zpow_mul, zpow_natCast, hζ.pow_eq_one, one_zpow]
    rw [hxN, sub_self, zero_div]

theorem sum4_reorder (s0 s1 s2 s3 : Finset ℕ) (f : ℕ → ℕ → ℕ → ℕ → ℂ) :
    ∑ k0 in s0, ∑ k1 in s1, ∑ a in s2, ∑ b in s3, f k0 k1 a b
      = ∑ a in s2, ∑ b in s3, ∑ k0 in s0, ∑ k1 in s1, f k0 k1 a b := by
  calc ∑ k0 in s0, ∑ k1 in s1, ∑ a in s2, ∑ b in s3, f k0 k1 a b
      = ∑ k0 in s0, ∑ a in s2, ∑ k1 in s1, ∑ b in s3, f k0 k1 a b :=
        Finset.sum_congr rfl (fun k0 _ => Finset.sum_comm)
    _ = ∑ a in s2, ∑ k0 in s0, ∑ k1 in s1, ∑ b in s3, f k0 k1 a b := Finset.sum_comm
    _ = ∑ a in s2, ∑ k0 in s0, ∑ b in s3, ∑ k1 in s1, f k0 k1 a b :=
        Finset.sum_congr rfl (fun a _ => Finset.sum_congr rfl (fun k0 _ => Finset.sum_comm))
    _ = ∑ a in s2, ∑ b in s3, ∑ k0 in s0, ∑ k1 in s1, f k0 k1 a b :=
        Finset.sum_congr rfl (fun a _ => Finset.sum_comm)

theorem dft2_inversion (n0 n1 : Nat) (z : Nat → Nat → ℂ) (m0 m1 : Nat)
    (h0 : m0 < n0) (h1 : m1 < n1) :
    dft2 n0 n1 1 (dft2 n0 n1 (-1) z) m0 m1 = (n0 : ℂ) * (n1 : ℂ) * z m0 m1 := by
  unfold dft2
  have step1 : ∀ k0 k1 : ℕ,
      (∑ a in Finset.range n0, ∑ b in Finset.range n1,
        z a b * unitRoot n0 ^ ((-1 : ℤ) * (k0 : ℤ) * (a : ℤ))
          * unitRoot n1 ^ ((-1 : ℤ) * (k1 : ℤ) * (b : ℤ)))
        * unitRoot n0 ^ ((1 : ℤ) * (m0 : ℤ) * (k0 : ℤ))
        * unitRoot n1 ^ ((1 : ℤ) * (m1 : ℤ) * (k1 : ℤ))
      = ∑ a in Finset.range n0, ∑ b in Finset.range n1,
        z a b * (unitRoot n0 ^ ((1 : ℤ) * (m0 : ℤ) * (k0 : ℤ))
            * unitRoot n0 ^ ((-1 : ℤ) * (k0 : ℤ) * (a : ℤ)))
          * (unitRoot n1 ^ ((1 : ℤ) * (m1 : ℤ) * (k1 : ℤ))
            * unitRoot n1 ^ ((-1 : ℤ) * (k1 : ℤ) * (b : ℤ))) := by
    intro k0 k1
    rw [Finset.sum_mul, Finset.sum_mul]
    refine Finset.sum_congr rfl (fun a _ => ?_)
    rw [Finset.sum_mul, Finset.sum_mul]
    exact Finset.sum_congr rfl (fun b _ => by ring)
  simp only [step1]
  rw [sum4_reorder]
  have step2 : ∀ a b : ℕ, a ∈ Finset.range n0 → b ∈ Finset.range n1 →
      ∑ k0 in Finset.range n0, ∑ k1 in Finset.range n1,
        z a b * (unitRoot n0 ^ ((1 : ℤ) * (m0 : ℤ) * (k0 : ℤ))
            * unitRoot n0 ^ ((-1 : ℤ) * (k0 : ℤ) * (a : ℤ)))
          * (unitRoot n1 ^ ((1 : ℤ) * (m1 : ℤ) * (k1 : ℤ))
            * unitRoot n1 ^ ((-1 : ℤ) * (k1 : ℤ) * (b : ℤ)))
      = if a = m0 then (if b = m1 then (n0 : ℂ) * (n1 : ℂ) * z a b else 0) else 0 := by
    intro a b ha hb
    have e : ∑ k0 in Finset.range n0, ∑ k1 in Finset.range n1,
        z a b * (unitRoot n0 ^ ((1 : ℤ) * (m0 : ℤ) * (k0 : ℤ))
            * unitRoot n0 ^ ((-1 : ℤ) * (k0 : ℤ) * (a : ℤ)))
          * (unitRoot n1 ^ ((1 : ℤ) * (m1 : ℤ) * (k1 : ℤ))
            * unitRoot n1 ^ ((-1 : ℤ) * (k1 : ℤ) * (b : ℤ)))
        = z a b * (∑ k0 in Finset.range n0, unitRoot n0 ^ ((1 : ℤ) * (m0 : ℤ) * (k0 : ℤ))
            * unitRoot n0 ^ ((-1 : ℤ) * (k0 : ℤ) * (a : ℤ)))
          * (∑ k1 in Finset.range n1, unitRoot n1 ^ ((1 : ℤ) * (m1 : ℤ) * (k1 : ℤ))
            * unitRoot n1 ^ ((-1 : ℤ) * (k1 : ℤ) * (b : ℤ))) := by
      rw [mul_assoc (z a b), Finset.sum_mul_sum, Finset.mul_sum]
      refine Finset.sum_congr rfl (fun k0 _ => ?_)
      rw [Finset.mul_sum]
      exact Finset.sum_congr rfl (fun k1 _ => by ring)
    rw [e, unitRoot_orth n0 m0 a h0 (Finset.mem_range.mp ha),
      unitRoot_orth n1 m1 b h1 (Finset.mem_range.mp hb)]
    split_ifs <;> ring
  rw [Finset.sum_congr rfl (fun a ha => Finset.sum_congr rfl (fun b hb => step2 a b ha hb))]
  simp only [Finset.sum_ite_eq', Finset.mem_range, h0, h1, if_true, Finset.sum_const_zero,
    Finset.sum_ite_irrel]
theorem dft2_congr (n0 n1 : Nat) (sign : Int) (z z' : Nat → Nat → ℂ) (k0 k1 : Nat)
    (h : ∀ a b, a < n0 → b < n1 → z a b = z' a b) :
    dft2 n0 n1 sign z k0 k1 = dft2 n0 n1 sign z' k0 k1 := by
  unfold dft2
  refine Finset.sum_congr rfl (fun a ha => Finset.sum_congr rfl (fun b hb => ?_))
  rw [h a b (Finset.mem_range.mp ha) (Finset.mem_range.mp hb)]

theorem row_major_div (n1 a b : Nat) (hb : b < n1) : (n1 * a + b) / n1 = a := by
  rw [Nat.mul_add_div (by omega), Nat.div_eq_of_lt hb, Nat.add_zero]

theorem row_major_mod (n1 a b : Nat) (hb : b < n1) : (n1 * a + b) % n1 = b := by
  rw [Nat.mul_add_mod, Nat.mod_eq_of_lt hb]

/-- The loading loop of `dfftw2D_fwd`: real parts from the array, imaginary
parts left as the buffer had them. -/
theorem load_real_parts {K : Type} (n0 n1 : Nat) (f : Nat → Nat → K) (buf0 : Nat → K × K)
    (a b : Nat) (ha : a < n0) (hb : b < n1) :
    (forLoop n0 (fun i input => forLoop n1 (fun j input =>
        setRe input (n1 * i + j) (f i j)) input) buf0) (n1 * a + b)
      = (f a b, (buf0 (n1 * a + b)).2) := by
  have h1 := (nested_writes (fun (s : Nat → K × K) p (_ : Nat) => (s p).1) n0 n1
    (fun i j input => setRe input (n1 * i + j) (f i j))
    (fun i j p _ => p = n1 * i + j) (fun p _ => f (p / n1) (p % n1))
    (by
      intro i j _ hj s p q
      constructor
      · intro hp
        subst hp
        simp [setRe, row_major_div n1 i j hj, row_major_mod n1 i j hj]
      · intro hp
        simp [setRe, hp])) buf0 (n1 * a + b) 0
  have h2 := forLoop_preserves (fun (s : Nat → K × K) => ∀ k, (s k).2 = (buf0 k).2) n0
    (fun i input => forLoop n1 (fun j input => setRe input (n1 * i + j) (f i j)) input)
    (fun i s hs => forLoop_preserves (fun (s : Nat → K × K) => ∀ k, (s k).2 = (buf0 k).2) n1
      (fun j input => setRe input (n1 * i + j) (f i j))
      (fun j s hs k => by
        show (if k = n1 * i + j then (f i j, (s k).2) else s k).2 = (buf0 k).2
        by_cases hk : k = n1 * i + j
        · rw [if_pos hk]
          exact hs k
        · rw [if_neg hk]
          exact hs k) s hs) buf0 (fun _ => rfl)
  have h1' := h1.1 ⟨a, ha, b, hb, rfl⟩
  simp only [row_major_div n1 a b hb, row_major_mod n1 a b hb] at h1'
  exact Prod.ext h1' (h2 (n1 * a + b))

/-- The loading loop of `dfftw2D_inv`: both parts from the arrays. -/
theorem load_both_parts {K : Type} (n0 n1 : Nat) (f g : Nat → Nat → K) (buf0 : Nat → K × K)
    (a b : Nat) (ha : a < n0) (hb : b < n1) :
    (forLoop n0 (fun i input => forLoop n1 (fun j input =>
        let input := setRe input (n1 * i + j) (f i j)
        setIm input (n1 * i + j) (g i j)) input) buf0) (n1 * a + b)
      = (f a b, g a b) := by
  have h1 := (nested_writes (fun (s : Nat → K × K) p (_ : Nat) => (s p).1) n0 n1
    (fun i j input =>
      let input := setRe input (n1 * i + j) (f i j)
      setIm input (n1 * i + j) (g i j))
    (fun i j p _ => p = n1 * i + j) (fun p _ => f (p / n1) (p % n1))
    (by
      intro i j _ hj s p q
      constructor
      · intro hp
        subst hp
        simp [setRe, setIm, row_major_div n1 i j hj, row_major_mod n1 i j hj]
      · intro hp
        simp [setRe, setIm, hp])) buf0 (n1 * a + b) 0
  have h2 := (nested_writes (fun (s : Nat → K × K) p (_ : Nat) => (s p).2) n0 n1
    (fun i j input =>
      let input := setRe input (n1 * i + j) (f i j)
      setIm input (n1 * i + j) (g i j))
    (fun i j p _ => p = n1 * i + j) (fun p _ => g (p / n1) (p % n1))
    (by
      intro i j _ hj s p q
      constructor
      · intro hp
        subst hp
        simp [setRe, setIm, row_major_div n1 i j hj, row_major_mod n1 i j hj]
      · intro hp
        simp [setRe, setIm, hp])) buf0 (n1 * a + b) 0
  have h1' := h1.1 ⟨a, ha, b, hb, rfl⟩
  have h2' := h2.1 ⟨a, ha, b, hb, rfl⟩
  simp only [row_major_div n1 a b hb, row_major_mod n1 a b hb] at h1' h2'
  exact Prod.ext h1' h2'

/-- Two nested loops that assign `f i j` and `g i j` to cell `(i, j)` of a pair
of arrays. -/
theorem fill_pair_loop_get {α : Type} (n m : Nat) (f g : Nat → Nat → α)
    (P0 : Array2D α × Array2D α) (i j : Nat) (hi : i < n) (hj : j < m) :
    (forLoop n (fun i s => forLoop m (fun j s =>
        (s.1.set i j (f i j), s.2.set i j (g i j))) s) P0).1.get i j = f i j ∧
    (forLoop n (fun i s => forLoop m (fun j s =>
        (s.1.set i j (f i j), s.2.set i j (g i j))) s) P0).2.get i j = g i j := by
  have h1 := (nested_writes (fun (s : Array2D α × Array2D α) => s.1.get) n m
    (fun i j s => (s.1.set i j (f i j), s.2.set i j (g i j)))
    (fun i j p q => p = i ∧ q = j) f
    (by
      intro i j _ _ P p q
      constructor
      · rintro ⟨rfl, rfl⟩
        simp [Array2D.get, Array2D.set]
      · intro hW
        simp [Array2D.get, Array2D.set, hW])) P0 i j
  have h2 := (nested_writes (fun (s : Array2D α × Array2D α) => s.2.get) n m
    (fun i j s => (s.1.set i j (f i j), s.2.set i j (g i j)))
    (fun i j p q => p = i ∧ q = j) g
    (by
      intro i j _ _ P p q
      constructor
      · rintro ⟨rfl, rfl⟩
        simp [Array2D.get, Array2D.set]
      · intro hW
        simp [Array2D.get, Array2D.set, hW])) P0 i j
  exact ⟨h1.1 ((single_cell_exists _ _ i j).2 ⟨hi, hj⟩),
    h2.1 ((single_cell_exists _ _ i j).2 ⟨hi, hj⟩)⟩

/-- What `dfftw2D_fwd` returns for direction -1, in terms of the plan execution
`f`: the loaded buffer holds the array in its real parts, and the two output
arrays hold the parts of the transform of that buffer. -/
theorem dfftw2D_fwd_cells {K : Type} (f : Nat → Nat → Int → (Nat → K × K) → (Nat → K × K))
    (b0 : Nat → K × K) (self : LSDRasterSpectral K) (X o1 o2 : Array2D K) :
    ∃ input spectrum,
      (∀ a b, a < self.Ly → b < self.Lx →
        input (self.Lx * a + b) = (X.get a b, (b0 (self.Lx * a + b)).2)) ∧
      dfftw2D_fwd f b0 self X o1 o2 (-1) = some spectrum ∧
      ∀ a b, a < self.Ly → b < self.Lx →
        spectrum.1.get a b = (f self.Ly self.Lx (-1) input (self.Lx * a + b)).1 ∧
        spectrum.2.get a b = (f self.Ly self.Lx (-1) input (self.Lx * a + b)).2 := by
  unfold dfftw2D_fwd
  rw [if_pos rfl]
  refine ⟨forLoop self.Ly (fun i input => forLoop self.Lx (fun j input =>
    setRe input (self.Lx * i + j) (X.get i j)) input) b0, _, ?_, rfl, ?_⟩
  · intro a b ha hb
    exact load_real_parts self.Ly self.Lx (fun i j => X.get i j) b0 a b ha hb
  · intro a b ha hb
    exact fill_pair_loop_get self.Ly self.Lx _ _ (o1, o2) a b ha hb

/-- What `dfftw2D_inv` returns for direction 1, in terms of the plan execution. -/
theorem dfftw2D_inv_cells {K : Type} (f : Nat → Nat → Int → (Nat → K × K) → (Nat → K × K))
    (b1 : Nat → K × K) (self : LSDRasterSpectral K) (re im o3 : Array2D K) :
    ∃ input out,
      (∀ a b, a < self.Ly → b < self.Lx →
        input (self.Lx * a + b) = (re.get a b, im.get a b)) ∧
      dfftw2D_inv f b1 self re im o3 1 = some out ∧
      ∀ a b, a < self.Ly → b < self.Lx →
        out.get a b = (f self.Ly self.Lx 1 input (self.Lx * a + b)).1 := by
  unfold dfftw2D_inv
  rw [if_pos rfl]
  refine ⟨forLoop self.Ly (fun i input => forLoop self.Lx (fun j input =>
    let input := setRe input (self.Lx * i + j) (re.get i j)
    setIm input (self.Lx * i + j) (im.get i j)) input) b1, _, ?_, rfl, ?_⟩
  · intro a b ha hb
    exact load_both_parts self.Ly self.Lx (fun i j => re.get i j) (fun i j => im.get i j)
      b1 a b ha hb
  · intro a b ha hb
    exact fill_loop_get self.Ly self.Lx _ o3 a b ha hb

section FilterProofs

variable {K : Type} [LinearOrderedField K]

theorem radial_frequency_eq_spec (lib : Extern K) (self : LSDRasterSpectral K) (i j : Nat) :
    radial_frequency lib self i j = spec_radial_frequency lib self i j := by
  unfold radial_frequency spec_radial_frequency
  exact congrArg lib.sqrt (by ring)

/-- Every cell of the output of `lowpass_filter` is the raw cell times the
weight at the radial frequency of the cell. -/
theorem lowpass_filter_cells (lib : Extern K) (self : LSDRasterSpectral K)
    (re im o1 o2 : Array2D K) (f1 f2 : K) (i j : Nat) (hi : i < self.Ly) (hj : j < self.Lx) :
    (lowpass_filter lib self re im o1 o2 f1 f2).1.get i j
      = lowpass_weight lib f1 f2 (radial_frequency lib self i j) * re.get i j ∧
    (lowpass_filter lib self re im o1 o2 f1 f2).2.get i j
      = lowpass_weight lib f1 f2 (radial_frequency lib self i j) * im.get i j :=
  fill_pair_loop_get self.Ly self.Lx
    (fun i j => lowpass_weight lib f1 f2 (radial_frequency lib self i j) * re.get i j)
    (fun i j => lowpass_weight lib f1 f2 (radial_frequency lib self i j) * im.get i j)
    (o1, o2) i j hi hj

/-- Every cell of the output of `highpass_filter` is the raw cell times the
weight at the radial frequency of the cell. -/
theorem highpass_filter_cells (lib : Extern K) (self : LSDRasterSpectral K)
    (re im o1 o2 : Array2D K) (f1 f2 : K) (i j : Nat) (hi : i < self.Ly) (hj : j < self.Lx) :
    (highpass_filter lib self re im o1 o2 f1 f2).1.get i j
      = highpass_weight lib f1 f2 (radial_frequency lib self i j) * re.get i j ∧
    (highpass_filter lib self re im o1 o2 f1 f2).2.get i j
      = highpass_weight lib f1 f2 (radial_frequency lib self i j) * im.get i j :=
  fill_pair_loop_get self.Ly self.Lx
    (fun i j => highpass_weight lib f1 f2 (radial_frequency lib self i j) * re.get i j)
    (fun i j => highpass_weight lib f1 f2 (radial_frequency lib self i j) * im.get i j)
    (o1, o2) i j hi hj

/-- The Gaussian edge of the low-pass weight, with `sqrt((f2-f1)*(f2-f1))`
evaluated. -/
theorem lowpass_weight_taper (lib : Extern K) (f1 f2 f : K) (h12 : f1 < f2)
    (hsqrt : ∀ x : K, 0 ≤ x → lib.sqrt (x * x) = x) (hf : f1 ≤ f) :
    lowpass_weight lib f1 f2 f = gaussian_weight lib f1 ((f2 - f1) / 3) f := by
  unfold lowpass_weight gaussian_weight
  rw [if_neg (not_lt.mpr hf), if_pos h12, hsqrt (f2 - f1) (by linarith)]
  exact congrArg lib.exp (by ring)

/-- The Gaussian edge of the high-pass weight. -/
theorem highpass_weight_taper (lib : Extern K) (f1 f2 f : K) (h12 : f1 < f2)
    (hsqrt : ∀ x : K, 0 ≤ x → lib.sqrt (x * x) = x) (hf : f ≤ f2) :
    highpass_weight lib f1 f2 f = gaussian_weight lib f2 ((f2 - f1) / 3) f := by
  unfold highpass_weight gaussian_weight
  rw [if_neg (not_lt.mpr hf), if_pos h12, hsqrt (f2 - f1) (by linarith)]
  exact congrArg lib.exp (by ring)

/-- C11 (as amended). `lowpass_filter` called with `f1 = f2` is a hard step
filter with the edge itself cut: every cell whose radial frequency `f`
satisfies `f < f1` keeps its real and imaginary parts, and every cell with
`f >= f1` gets real and imaginary parts 0. -/
theorem lowpass_filter_step (lib : Extern K) (self : LSDRasterSpectral K)
    (re im o1 o2 : Array2D K) (f1 : K) (i j : Nat) (hi : i < self.Ly) (hj : j < self.Lx) :
    (radial_frequency lib self i j < f1 →
      (lowpass_filter lib self re im o1 o2 f1 f1).1.get i j = re.get i j ∧
      (lowpass_filter lib self re im o1 o2 f1 f1).2.get i j = im.get i j) ∧
    (f1 ≤ radial_frequency lib self i j →
      (lowpass_filter lib self re im o1 o2 f1 f1).1.get i j = 0 ∧
      (lowpass_filter lib self re im o1 o2 f1 f1).2.get i j = 0) := by
  obtain ⟨h1, h2⟩ := lowpass_filter_cells lib self re im o1 o2 f1 f1 i j hi hj
  rw [h1, h2]
  unfold lowpass_weight
  constructor
  · intro hf
    rw [if_pos hf, one_mul, one_mul]
    exact ⟨rfl, rfl⟩
  · intro hf
    rw [if_neg (not_lt.mpr hf), if_neg (lt_irrefl f1), zero_mul, zero_mul]
    exact ⟨rfl, rfl⟩

/-- C12. For `f1 < f2` and every cell `(i, j)`, with `f` the radial frequency
of the cell and `sqrt` inverting the square on non-negative numbers,
`lowpass_filter` multiplies the real and the imaginary part by the same weight,
which is 1 when `f < f1` and `exp(-(f - f1)^2 / (2*sigma^2))` with
`sigma = (f2 - f1)/3` when `f >= f1`. -/
theorem lowpass_filter_weight (lib : Extern K) (self : LSDRasterSpectral K)
    (re im o1 o2 : Array2D K) (f1 f2 : K) (h12 : f1 < f2)
    (hsqrt : ∀ x : K, 0 ≤ x → lib.sqrt (x * x) = x)
    (i j : Nat) (hi : i < self.Ly) (hj : j < self.Lx) :
    (lowpass_filter lib self re im o1 o2 f1 f2).1.get i j
      = (if spec_radial_frequency lib self i j < f1 then 1
          else gaussian_weight lib f1 ((f2 - f1) / 3) (spec_radial_frequency lib self i j))
        * re.get i j ∧
    (lowpass_filter lib self re im o1 o2 f1 f2).2.get i j
      = (if spec_radial_frequency lib self i j < f1 then 1
          else gaussian_weight lib f1 ((f2 - f1) / 3) (spec_radial_frequency lib self i j))
        * im.get i j := by
  obtain ⟨h1, h2⟩ := lowpass_filter_cells lib self re im o1 o2 f1 f2 i j hi hj
  rw [h1, h2, radial_frequency_eq_spec]
  by_cases hf : spec_radial_frequency lib self i j < f1
  · rw [if_pos hf]
    unfold lowpass_weight
    rw [if_pos hf]
    exact ⟨rfl, rfl⟩
  · rw [if_neg hf, lowpass_weight_taper lib f1 f2 _ h12 hsqrt (not_lt.mp hf)]
    exact ⟨rfl, rfl⟩

/-- C13. The high-pass weight is the mirror image of the low-pass weight: both
filters multiply every cell by their weight at the radial frequency of the
cell, and for all `f1`, `f2` (so for `f1 <= f2`) the high-pass weight at
`f1 + f2 - f` is the low-pass weight at `f`; the high-pass weight is 1 for
`f > f2` and, when `f1 < f2` and
`sqrt` inverts the square, `exp(-(f - f2)^2 / (2*sigma^2))` with
`sigma = (f2 - f1)/3` for `f <= f2`. -/
theorem highpass_mirrors_lowpass (lib : Extern K) (self : LSDRasterSpectral K)
    (re im o1 o2 : Array2D K) (f1 f2 : K) :
    (∀ i j, i < self.Ly → j < self.Lx →
      ((highpass_filter lib self re im o1 o2 f1 f2).1.get i j
          = highpass_weight lib f1 f2 (radial_frequency lib self i j) * re.get i j ∧
        (highpass_filter lib self re im o1 o2 f1 f2).2.get i j
          = highpass_weight lib f1 f2 (radial_frequency lib self i j) * im.get i j) ∧
      ((lowpass_filter lib self re im o1 o2 f1 f2).1.get i j
          = lowpass_weight lib f1 f2 (radial_frequency lib self i j) * re.get i j ∧
        (lowpass_filter lib self re im o1 o2 f1 f2).2.get i j
          = lowpass_weight lib f1 f2 (radial_frequency lib self i j) * im.get i j)) ∧
    (∀ f : K, highpass_weight lib f1 f2 (f1 + f2 - f) = lowpass_weight lib f1 f2 f) ∧
    (∀ f : K, f2 < f → highpass_weight lib f1 f2 f = 1) ∧
    (f1 < f2 → (∀ x : K, 0 ≤ x → lib.sqrt (x * x) = x) →
      ∀ f : K, f ≤ f2 →
        highpass_weight lib f1 f2 f = gaussian_weight lib f2 ((f2 - f1) / 3) f) := by
  refine ⟨fun i j hi hj => ⟨highpass_filter_cells lib self re im o1 o2 f1 f2 i j hi hj,
    lowpass_filter_cells lib self re im o1 o2 f1 f2 i j hi hj⟩, ?_, ?_, ?_⟩
  · intro f
    unfold highpass_weight lowpass_weight
    by_cases hf : f < f1
    · rw [if_pos hf, if_pos (by linarith)]
    · rw [if_neg hf, if_neg (by linarith)]
      by_cases h : f2 > f1
      · rw [if_pos h, if_pos h]
        exact congrArg lib.exp (by ring)
      · rw [if_neg h, if_neg h]
  · intro f hf
    unfold highpass_weight
    rw [if_pos hf]
  · intro hlt hsqrt f hf
    exact highpass_weight_taper lib f1 f2 f hlt hsqrt hf

/-- Every cell of the output of `bandpass_filter` is the raw cell times the
Gaussian centred at `(f1 + f2)/2` of width `sqrt((f2-f1)*(f2-f1))/6`. -/
theorem bandpass_filter_cells (lib : Extern K) (self : LSDRasterSpectral K)
    (re im o1 o2 : Array2D K) (f1 f2 : K) (i j : Nat) (hi : i < self.Ly) (hj : j < self.Lx) :
    (bandpass_filter lib self re im o1 o2 f1 f2).1.get i j
      = gaussian_weight lib ((f1 + f2) / 2) (lib.sqrt ((f2 - f1) * (f2 - f1)) / 6)
          (radial_frequency lib self i j) * re.get i j ∧
    (bandpass_filter lib self re im o1 o2 f1 f2).2.get i j
      = gaussian_weight lib ((f1 + f2) / 2) (lib.sqrt ((f2 - f1) * (f2 - f1)) / 6)
          (radial_frequency lib self i j) * im.get i j := by
  have e : ∀ f : K,
      lib.exp (-(f - (1 / 2) * (f1 + f2)) * (f - (1 / 2) * (f1 + f2))
        / (2 * (lib.sqrt ((f2 - f1) * (f2 - f1)) / 6) * (lib.sqrt ((f2 - f1) * (f2 - f1)) / 6)))
      = gaussian_weight lib ((f1 + f2) / 2) (lib.sqrt ((f2 - f1) * (f2 - f1)) / 6) f := by
    intro f
    unfold gaussian_weight
    exact congrArg lib.exp (by ring)
  have h := fill_pair_loop_get self.Ly self.Lx
    (fun i j => lib.exp (-(radial_frequency lib self i j - (1 / 2) * (f1 + f2))
        * (radial_frequency lib self i j - (1 / 2) * (f1 + f2))
        / (2 * (lib.sqrt ((f2 - f1) * (f2 - f1)) / 6) * (lib.sqrt ((f2 - f1) * (f2 - f1)) / 6)))
      * re.get i j)
    (fun i j => lib.exp (-(radial_frequency lib self i j - (1 / 2) * (f1 + f2))
        * (radial_frequency lib self i j - (1 / 2) * (f1 + f2))
        / (2 * (lib.sqrt ((f2 - f1) * (f2 - f1)) / 6) * (lib.sqrt ((f2 - f1) * (f2 - f1)) / 6)))
      * im.get i j)
    (o1, o2) i j hi hj
  rw [← e]
  exact h

/-- C14 (as amended). For `f1 < f2`, with `sqrt` inverting the square,
`exp 0 = 1` and `exp x <= 1` for `x <= 0`: `bandpass_filter` multiplies the real
and imaginary parts of every cell by `exp(-(f - (f1 + f2)/2)^2 / (2*sigma^2))`
with `sigma = |f2 - f1|/6`; that weight is 1 at `f = (f1 + f2)/2`, at most 1
everywhere, and equal at frequencies equidistant from `(f1 + f2)/2`. Where
moreover `exp x < 1` for every `x < 0`, as in exact arithmetic, the weight is 1
only at `f = (f1 + f2)/2` and less than 1 elsewhere. -/
theorem bandpass_filter_weight (lib : Extern K) (self : LSDRasterSpectral K)
    (re im o1 o2 : Array2D K) (f1 f2 : K) (h12 : f1 < f2)
    (hsqrt : ∀ x : K, 0 ≤ x → lib.sqrt (x * x) = x)
    (hexp0 : lib.exp 0 = 1) (hexp1 : ∀ x : K, x ≤ 0 → lib.exp x ≤ 1) :
    (∀ i j, i < self.Ly → j < self.Lx →
      (bandpass_filter lib self re im o1 o2 f1 f2).1.get i j
        = gaussian_weight lib ((f1 + f2) / 2) (|f2 - f1| / 6)
            (spec_radial_frequency lib self i j) * re.get i j ∧
      (bandpass_filter lib self re im o1 o2 f1 f2).2.get i j
        = gaussian_weight lib ((f1 + f2) / 2) (|f2 - f1| / 6)
            (spec_radial_frequency lib self i j) * im.get i j) ∧
    gaussian_weight lib ((f1 + f2) / 2) (|f2 - f1| / 6) ((f1 + f2) / 2) = 1 ∧
    (∀ f : K, gaussian_weight lib ((f1 + f2) / 2) (|f2 - f1| / 6) f ≤ 1) ∧
    (∀ d : K, gaussian_weight lib ((f1 + f2) / 2) (|f2 - f1| / 6) ((f1 + f2) / 2 + d)
      = gaussian_weight lib ((f1 + f2) / 2) (|f2 - f1| / 6) ((f1 + f2) / 2 - d)) ∧
    ((∀ x : K, x < 0 → lib.exp x < 1) →
      (∀ f : K, gaussian_weight lib ((f1 + f2) / 2) (|f2 - f1| / 6) f = 1
        ↔ f = (f1 + f2) / 2) ∧
      (∀ f : K, f ≠ (f1 + f2) / 2 →
        gaussian_weight lib ((f1 + f2) / 2) (|f2 - f1| / 6) f < 1)) := by
  have habs : |f2 - f1| = f2 - f1 := abs_of_pos (by linarith)
  have hsig : lib.sqrt ((f2 - f1) * (f2 - f1)) = |f2 - f1| := by
    rw [habs]
    exact hsqrt (f2 - f1) (by linarith)
  have hden : 0 < 2 * (|f2 - f1| / 6) ^ 2 := by
    rw [habs]
    have : 0 < f2 - f1 := by linarith
    positivity
  have hle : ∀ f : K, gaussian_weight lib ((f1 + f2) / 2) (|f2 - f1| / 6) f ≤ 1 := by
    intro f
    unfold gaussian_weight
    apply hexp1
    apply div_nonpos_of_nonpos_of_nonneg _ (le_of_lt hden)
    have hsq : 0 ≤ (f - (f1 + f2) / 2) ^ 2 := sq_nonneg _
    linarith
  have hone : gaussian_weight lib ((f1 + f2) / 2) (|f2 - f1| / 6) ((f1 + f2) / 2) = 1 := by
    unfold gaussian_weight
    rw [sub_self]
    simp [hexp0]
  refine ⟨?_, hone, hle, ?_, ?_⟩
  · intro i j hi hj
    obtain ⟨h1, h2⟩ := bandpass_filter_cells lib self re im o1 o2 f1 f2 i j hi hj
    rw [h1, h2, hsig, radial_frequency_eq_spec]
    exact ⟨rfl, rfl⟩
  · intro d
    unfold gaussian_weight
    exact congrArg lib.exp (by ring)
  · intro hexp
    have hlt : ∀ f : K, f ≠ (f1 + f2) / 2 →
        gaussian_weight lib ((f1 + f2) / 2) (|f2 - f1| / 6) f < 1 := by
      intro f hf
      unfold gaussian_weight
      apply hexp
      have hsq : 0 < (f - (f1 + f2) / 2) ^ 2 := by
        have : f - (f1 + f2) / 2 ≠ 0 := sub_ne_zero.mpr hf
        positivity
      apply div_neg_of_neg_of_pos _ hden
      linarith
    refine ⟨fun f => ⟨fun h => ?_, fun h => ?_⟩, hlt⟩
    · by_contra hne
      exact absurd h (ne_of_lt (hlt f hne))
    · rw [h]
      exact hone

end FilterProofs

/-! ## Filter weights on the sample spectrum -/

theorem sampleLib_sqrt_square (x : ℚ) (hx : 0 ≤ x) : sampleLib.sqrt (x * x) = x := by
  show Rat.sqrt (x * x) = x
  rw [Rat.sqrt_eq, abs_of_nonneg hx]

/-- C11 (counterexample). On the 2 x 2 spectrum of resolution 1, cell `(0, 1)`
has radial frequency `1/2`; with `f1 = f2 = 1/2` it satisfies `f <= f1`, and
`lowpass_filter` gives it real part 0 although its raw real part is 1. -/
theorem lowpass_filter_cuts_edge :
    radial_frequency sampleLib sampleSpectrum 0 1 ≤ 1 / 2 ∧
    sampleSpectrum.P_DFT.get 0 1 = 1 ∧
    (lowpass_filter sampleLib sampleSpectrum sampleSpectrum.P_DFT sampleSpectrum.P_DFT
      sampleSpectrum.RasterData sampleSpectrum.RasterData (1 / 2) (1 / 2)).1.get 0 1 = 0 := by
  refine ⟨?_, ?_, ?_⟩ <;> decide!

theorem lowpass_filter_step_witness :
    (radial_frequency sampleLib sampleSpectrum 1 1 < 1 / 2 →
      (lowpass_filter sampleLib sampleSpectrum sampleSpectrum.P_DFT sampleSpectrum.P_DFT
        sampleSpectrum.RasterData sampleSpectrum.RasterData (1 / 2) (1 / 2)).1.get 1 1
          = sampleSpectrum.P_DFT.get 1 1 ∧
      (lowpass_filter sampleLib sampleSpectrum sampleSpectrum.P_DFT sampleSpectrum.P_DFT
        sampleSpectrum.RasterData sampleSpectrum.RasterData (1 / 2) (1 / 2)).2.get 1 1
          = sampleSpectrum.P_DFT.get 1 1) ∧
    (1 / 2 ≤ radial_frequency sampleLib sampleSpectrum 1 1 →
      (lowpass_filter sampleLib sampleSpectrum sampleSpectrum.P_DFT sampleSpectrum.P_DFT
        sampleSpectrum.RasterData sampleSpectrum.RasterData (1 / 2) (1 / 2)).1.get 1 1 = 0 ∧
      (lowpass_filter sampleLib sampleSpectrum sampleSpectrum.P_DFT sampleSpectrum.P_DFT
        sampleSpectrum.RasterData sampleSpectrum.RasterData (1 / 2) (1 / 2)).2.get 1 1 = 0) :=
  lowpass_filter_step sampleLib sampleSpectrum sampleSpectrum.P_DFT sampleSpectrum.P_DFT
    sampleSpectrum.RasterData sampleSpectrum.RasterData (1 / 2) 1 1 (by decide) (by decide)

theorem lowpass_filter_weight_witness :
    (lowpass_filter sampleLib sampleSpectrum sampleSpectrum.P_DFT sampleSpectrum.P_DFT
        sampleSpectrum.RasterData sampleSpectrum.RasterData (1 / 4) (1 / 2)).1.get 0 1
      = (if spec_radial_frequency sampleLib sampleSpectrum 0 1 < 1 / 4 then 1
          else gaussian_weight sampleLib (1 / 4) ((1 / 2 - 1 / 4) / 3)
            (spec_radial_frequency sampleLib sampleSpectrum 0 1))
        * sampleSpectrum.P_DFT.get 0 1 ∧
    (lowpass_filter sampleLib sampleSpectrum sampleSpectrum.P_DFT sampleSpectrum.P_DFT
        sampleSpectrum.RasterData sampleSpectrum.RasterData (1 / 4) (1 / 2)).2.get 0 1
      = (if spec_radial_frequency sampleLib sampleSpectrum 0 1 < 1 / 4 then 1
          else gaussian_weight sampleLib (1 / 4) ((1 / 2 - 1 / 4) / 3)
            (spec_radial_frequency sampleLib sampleSpectrum 0 1))
        * sampleSpectrum.P_DFT.get 0 1 :=
  lowpass_filter_weight sampleLib sampleSpectrum sampleSpectrum.P_DFT sampleSpectrum.P_DFT
    sampleSpectrum.RasterData sampleSpectrum.RasterData (1 / 4) (1 / 2) (by norm_num)
    sampleLib_sqrt_square 0 1 (by decide) (by decide)

theorem highpass_mirrors_lowpass_witness :
    highpass_weight sampleLib (1 / 4) (1 / 2) (1 / 4 + 1 / 2 - 1 / 3)
        = lowpass_weight sampleLib (1 / 4) (1 / 2) (1 / 3) ∧
    highpass_weight sampleLib (1 / 4) (1 / 2) (1 / 3)
        = gaussian_weight sampleLib (1 / 2) ((1 / 2 - 1 / 4) / 3) (1 / 3) :=
  ⟨(highpass_mirrors_lowpass sampleLib sampleSpectrum sampleSpectrum.P_DFT sampleSpectrum.P_DFT
      sampleSpectrum.RasterData sampleSpectrum.RasterData (1 / 4) (1 / 2)).2.1 (1 / 3),
   (highpass_mirrors_lowpass sampleLib sampleSpectrum sampleSpectrum.P_DFT sampleSpectrum.P_DFT
      sampleSpectrum.RasterData sampleSpectrum.RasterData (1 / 4) (1 / 2)).2.2.2 (by norm_num)
      sampleLib_sqrt_square (1 / 3) (by norm_num)⟩

theorem bandpass_filter_weight_witness :
    (bandpass_filter sampleLib sampleSpectrum sampleSpectrum.P_DFT sampleSpectrum.P_DFT
        sampleSpectrum.RasterData sampleSpectrum.RasterData (1 / 4) (1 / 2)).1.get 0 1
      = gaussian_weight sampleLib ((1 / 4 + 1 / 2) / 2) (|1 / 2 - 1 / 4| / 6)
          (spec_radial_frequency sampleLib sampleSpectrum 0 1) * sampleSpectrum.P_DFT.get 0 1 ∧
    gaussian_weight sampleLib ((1 / 4 + 1 / 2) / 2) (|1 / 2 - 1 / 4| / 6) (1 / 2) < 1 :=
  ⟨((bandpass_filter_weight sampleLib sampleSpectrum sampleSpectrum.P_DFT sampleSpectrum.P_DFT
      sampleSpectrum.RasterData sampleSpectrum.RasterData (1 / 4) (1 / 2) (by norm_num)
      sampleLib_sqrt_square (by decide!)
      (fun x hx => by
        show 1 + x ≤ 1
        linarith)).1 0 1 (by decide) (by decide)).1,
   ((bandpass_filter_weight sampleLib sampleSpectrum sampleSpectrum.P_DFT sampleSpectrum.P_DFT
      sampleSpectrum.RasterData sampleSpectrum.RasterData (1 / 4) (1 / 2) (by norm_num)
      sampleLib_sqrt_square (by decide!)
      (fun x hx => by
        show 1 + x ≤ 1
        linarith)).2.2.2.2
      (fun x hx => by
        show 1 + x < 1
        linarith)).2 (1 / 2) (by norm_num)⟩

/-- C14 (counterexample). In single precision the weight is 1 away from the
centre: on the 2 x 2 spectrum of resolution 1 with `f1 = 0` and
`f2 = 1 + 2^-15`, cell `(0, 1)` has radial frequency `1/2`, which is not the
centre `1/2 + 2^-16`; the exponent is about `-4.2e-9`, the exponential rounds to
1 in the `float` weight, and the filtered cell equals the raw cell. -/
theorem bandpass_filter_weight_single :
    radial_frequency sampleLibSingle sampleSpectrum 0 1 = 1 / 2 ∧
    (1 / 2 : ℚ) ≠ (0 + 32769 / 32768) / 2 ∧
    gaussian_weight sampleLibSingle ((0 + 32769 / 32768) / 2) (|32769 / 32768 - 0| / 6)
      (1 / 2) = 1 ∧
    (bandpass_filter sampleLibSingle sampleSpectrum sampleSpectrum.P_DFT sampleSpectrum.P_DFT
      sampleSpectrum.RasterData sampleSpectrum.RasterData 0 (32769 / 32768)).1.get 0 1
      = sampleSpectrum.P_DFT.get 0 1 := by
  have hs : sampleLibSingle.sqrt ((32769 / 32768 - 0) * (32769 / 32768 - 0))
      = 32769 / 32768 - 0 := sampleLib_sqrt_square _ (by norm_num)
  refine ⟨by decide!, by decide!, by decide!, ?_⟩
  rw [(bandpass_filter_cells sampleLibSingle sampleSpectrum sampleSpectrum.P_DFT
    sampleSpectrum.P_DFT sampleSpectrum.RasterData sampleSpectrum.RasterData 0 (32769 / 32768)
    0 1 (by decide) (by decide)).1, hs]
  decide!

/-! ## The Wiener weights -/

section WienerProofs

variable {K : Type} [LinearOrderedField K]

/-- Every cell of the output of `wiener_filter` is the raw cell times the
Wiener coefficient at the radial frequency of the cell. -/
theorem wiener_filter_cell (lib : Extern K) (self : LSDRasterSpectral K)
    (re im o1 o2 : Array2D K) (i j : Nat) (hi : i < self.Ly) (hj : j < self.Lx) :
    (wiener_filter lib self re im o1 o2).2.1.get i j
      = (if radial_frequency lib self i j = 0 then 1
          else (wiener_model lib (wiener_filter lib self re im o1 o2).1).2
              * lib.pow (radial_frequency lib self i j)
                (wiener_model lib (wiener_filter lib self re im o1 o2).1).1
            / ((wiener_model lib (wiener_filter lib self re im o1 o2).1).2
                * lib.pow (radial_frequency lib self i j)
                  (wiener_model lib (wiener_filter lib self re im o1 o2).1).1
              + (wiener_noise_sum lib (wiener_filter lib self re im o1 o2).1).1
                / ((wiener_noise_sum lib (wiener_filter lib self re im o1 o2).1).2 : K)))
        * re.get i j ∧
    (wiener_filter lib self re im o1 o2).2.2.get i j
      = (if radial_frequency lib self i j = 0 then 1
          else (wiener_model lib (wiener_filter lib self re im o1 o2).1).2
              * lib.pow (radial_frequency lib self i j)
                (wiener_model lib (wiener_filter lib self re im o1 o2).1).1
            / ((wiener_model lib (wiener_filter lib self re im o1 o2).1).2
                * lib.pow (radial_frequency lib self i j)
                  (wiener_model lib (wiener_filter lib self re im o1 o2).1).1
              + (wiener_noise_sum lib (wiener_filter lib self re im o1 o2).1).1
                / ((wiener_noise_sum lib (wiener_filter lib self re im o1 o2).1).2 : K)))
        * im.get i j :=
  fill_pair_loop_get self.Ly self.Lx
    (fun i j => (if radial_frequency lib self i j = 0 then 1
          else (wiener_model lib (wiener_filter lib self re im o1 o2).1).2
              * lib.pow (radial_frequency lib self i j)
                (wiener_model lib (wiener_filter lib self re im o1 o2).1).1
            / ((wiener_model lib (wiener_filter lib self re im o1 o2).1).2
                * lib.pow (radial_frequency lib self i j)
                  (wiener_model lib (wiener_filter lib self re im o1 o2).1).1
              + (wiener_noise_sum lib (wiener_filter lib self re im o1 o2).1).1
                / ((wiener_noise_sum lib (wiener_filter lib self re im o1 o2).1).2 : K)))
        * re.get i j)
    (fun i j => (if radial_frequency lib self i j = 0 then 1
          else (wiener_model lib (wiener_filter lib self re im o1 o2).1).2
              * lib.pow (radial_frequency lib self i j)
                (wiener_model lib (wiener_filter lib self re im o1 o2).1).1
            / ((wiener_model lib (wiener_filter lib self re im o1 o2).1).2
                * lib.pow (radial_frequency lib self i j)
                  (wiener_model lib (wiener_filter lib self re im o1 o2).1).1
              + (wiener_noise_sum lib (wiener_filter lib self re im o1 o2).1).1
                / ((wiener_noise_sum lib (wiener_filter lib self re im o1 o2).1).2 : K)))
        * im.get i j)
    (o1, o2) i j hi hj

/-- The radial frequency of the centre cell is `sqrt 0`. -/
theorem radial_frequency_centre (lib : Extern K) (self : LSDRasterSpectral K) :
    radial_frequency lib self (self.Ly / 2) (self.Lx / 2) = lib.sqrt 0 := by
  unfold radial_frequency
  exact congrArg lib.sqrt (by ring)

/-- Away from the centre cell the radicand of the radial frequency is
positive, when the resolution is. -/
theorem radial_frequency_pos (lib : Extern K) (self : LSDRasterSpectral K)
    (hspos : ∀ x : K, 0 < x → 0 < lib.sqrt x) (hres : 0 < self.DataResolution)
    (i j : Nat) (hi : i < self.Ly) (hj : j < self.Lx)
    (hne : ¬ (i = self.Ly / 2 ∧ j = self.Lx / 2)) :
    0 < radial_frequency lib self i j := by
  rw [radial_frequency_eq_spec]
  unfold spec_radial_frequency
  apply hspos
  have hLy : (0 : K) < (self.Ly : K) := Nat.cast_pos.mpr (by omega)
  have hLx : (0 : K) < (self.Lx : K) := Nat.cast_pos.mpr (by omega)
  have hdy : (0 : K) < 1 / (self.DataResolution * (self.Ly : K)) := by positivity
  have hdx : (0 : K) < 1 / (self.DataResolution * (self.Lx : K)) := by positivity
  by_cases h : i = self.Ly / 2
  · have hj' : j ≠ self.Lx / 2 := fun hj' => hne ⟨h, hj'⟩
    have hB : ((j : K) - ((self.Lx / 2 : Nat) : K)) ≠ 0 :=
      sub_ne_zero.mpr (fun hc => hj' (Nat.cast_injective hc))
    have : (((j : K) - ((self.Lx / 2 : Nat) : K))
        * (1 / (self.DataResolution * (self.Lx : K)))) ≠ 0 := mul_ne_zero hB (ne_of_gt hdx)
    positivity
  · have hA : ((i : K) - ((self.Ly / 2 : Nat) : K)) ≠ 0 :=
      sub_ne_zero.mpr (fun hc => h (Nat.cast_injective hc))
    have : (((i : K) - ((self.Ly / 2 : Nat) : K))
        * (1 / (self.DataResolution * (self.Ly : K)))) ≠ 0 := mul_ne_zero hA (ne_of_gt hdy)
    positivity

/-- C15. With `sqrt 0 = 0`, `sqrt` positive on positive numbers and a positive
`DataResolution`: `wiener_filter` leaves the zero-frequency cell
`[Ly/2][Lx/2]` unchanged, and every other cell has radial frequency `f > 0` and
gets its real and imaginary parts multiplied by `model/(model + noise)`, with
`model = c_model * pow(f, m_model)` the fitted power law and `noise` the
white-noise amplitude (the summed high-frequency power over its count). -/
theorem wiener_filter_weights (lib : Extern K) (self : LSDRasterSpectral K)
    (re im o1 o2 : Array2D K)
    (hs0 : lib.sqrt 0 = 0) (hspos : ∀ x : K, 0 < x → 0 < lib.sqrt x)
    (hres : 0 < self.DataResolution) :
    (0 < self.Ly → 0 < self.Lx →
      (wiener_filter lib self re im o1 o2).2.1.get (self.Ly / 2) (self.Lx / 2)
        = re.get (self.Ly / 2) (self.Lx / 2) ∧
      (wiener_filter lib self re im o1 o2).2.2.get (self.Ly / 2) (self.Lx / 2)
        = im.get (self.Ly / 2) (self.Lx / 2)) ∧
    ∀ i j, i < self.Ly → j < self.Lx → ¬ (i = self.Ly / 2 ∧ j = self.Lx / 2) →
      0 < radial_frequency lib self i j ∧
      (wiener_filter lib self re im o1 o2).2.1.get i j
        = (wiener_model lib (wiener_filter lib self re im o1 o2).1).2
              * lib.pow (radial_frequency lib self i j)
                (wiener_model lib (wiener_filter lib self re im o1 o2).1).1
            / ((wiener_model lib (wiener_filter lib self re im o1 o2).1).2
                * lib.pow (radial_frequency lib self i j)
                  (wiener_model lib (wiener_filter lib self re im o1 o2).1).1
              + (wiener_noise_sum lib (wiener_filter lib self re im o1 o2).1).1
                / ((wiener_noise_sum lib (wiener_filter lib self re im o1 o2).1).2 : K))
          * re.get i j ∧
      (wiener_filter lib self re im o1 o2).2.2.get i j
        = (wiener_model lib (wiener_filter lib self re im o1 o2).1).2
              * lib.pow (radial_frequency lib self i j)
                (wiener_model lib (wiener_filter lib self re im o1 o2).1).1
            / ((wiener_model lib (wiener_filter lib self re im o1 o2).1).2
                * lib.pow (radial_frequency lib self i j)
                  (wiener_model lib (wiener_filter lib self re im o1 o2).1).1
              + (wiener_noise_sum lib (wiener_filter lib self re im o1 o2).1).1
                / ((wiener_noise_sum lib (wiener_filter lib self re im o1 o2).1).2 : K))
          * im.get i j := by
  constructor
  · intro hLy hLx
    obtain ⟨h1, h2⟩ := wiener_filter_cell lib self re im o1 o2 (self.Ly / 2) (self.Lx / 2)
      (Nat.div_lt_self hLy (by decide)) (Nat.div_lt_self hLx (by decide))
    rw [h1, h2, if_pos ((radial_frequency_centre lib self).trans hs0), one_mul, one_mul]
    exact ⟨rfl, rfl⟩
  · intro i j hi hj hne
    have hpos := radial_frequency_pos lib self hspos hres i j hi hj hne
    obtain ⟨h1, h2⟩ := wiener_filter_cell lib self re im o1 o2 i j hi hj
    rw [h1, h2, if_neg (ne_of_gt hpos)]
    exact ⟨hpos, rfl, rfl⟩

end WienerProofs

theorem wiener_filter_weights_witness :
    (wiener_filter sampleRealLib sampleRealSurface sampleRealSurface.P_DFT
        sampleRealSurface.RasterData sampleRealSurface.P_DFT sampleRealSurface.P_DFT).2.1.get
          (sampleRealSurface.Ly / 2) (sampleRealSurface.Lx / 2)
      = sampleRealSurface.P_DFT.get (sampleRealSurface.Ly / 2) (sampleRealSurface.Lx / 2) ∧
    (wiener_filter sampleRealLib sampleRealSurface sampleRealSurface.P_DFT
        sampleRealSurface.RasterData sampleRealSurface.P_DFT sampleRealSurface.P_DFT).2.2.get
          (sampleRealSurface.Ly / 2) (sampleRealSurface.Lx / 2)
      = sampleRealSurface.RasterData.get (sampleRealSurface.Ly / 2)
          (sampleRealSurface.Lx / 2) :=
  (wiener_filter_weights sampleRealLib sampleRealSurface sampleRealSurface.P_DFT
    sampleRealSurface.RasterData sampleRealSurface.P_DFT sampleRealSurface.P_DFT
    Real.sqrt_zero (fun _ hx => Real.sqrt_pos.mpr hx)
    (by
      show (0 : ℝ) < 1
      norm_num)).1 (by decide) (by decide)

/-! ## Failure behaviour -/

section FailureProofs

variable {K : Type} [LinearOrderedField K]

/-- After detrending, `fftw2D_filter` returns a raster for every filter
selector. -/
theorem fftw2D_filter_of_detrend (lib : Extern K) (self : LSDRasterSpectral K)
    (FilterType : Int) (FLow FHigh : K) :
    ∃ out, fftw2D_filter lib self FilterType FLow FHigh = some out := by
  unfold fftw2D_filter
  obtain ⟨out, ho, _⟩ := transform_filter_rebuild_frame lib self
    (pad_to_power_of_two self
      (detrend2D lib.solve_singular self self.RasterData
        (Array2D.uninit lib 0 self.NRows self.NCols)
        (Array2D.uninit lib 1 self.NRows self.NCols)).1
      (Array2D.uninit lib 2 self.Ly self.Lx))
    (detrend2D lib.solve_singular self self.RasterData
      (Array2D.uninit lib 0 self.NRows self.NCols)
      (Array2D.uninit lib 1 self.NRows self.NCols)).2
    (fun spectrum_real_shift spectrum_imaginary_shift FilteredSpectrumReal
        FilteredSpectrumImaginary =>
      if FilterType = 1 then
        bandpass_filter lib self spectrum_real_shift spectrum_imaginary_shift
          FilteredSpectrumReal FilteredSpectrumImaginary FLow FHigh
      else if FilterType = 2 then
        lowpass_filter lib self spectrum_real_shift spectrum_imaginary_shift
          FilteredSpectrumReal FilteredSpectrumImaginary FLow FHigh
      else if FilterType = 3 then
        highpass_filter lib self spectrum_real_shift spectrum_imaginary_shift
          FilteredSpectrumReal FilteredSpectrumImaginary FLow FHigh
      else (FilteredSpectrumReal, FilteredSpectrumImaginary))
  exact ⟨out, ho⟩

/-- C16 (as amended). For a `FilterType` other than 1, 2 and 3 `fftw2D_filter`
does not fail: it applies none of the three filters, hands the zero-initialised
filtered spectrum on to the de-shift and the inverse transform, and returns a
raster whenever the plane fit is non-singular. -/
theorem fftw2D_filter_unknown_type (lib : Extern K) (self : LSDRasterSpectral K)
    (FilterType : Int) (FLow FHigh : K)
    (h1 : FilterType ≠ 1) (h2 : FilterType ≠ 2) (h3 : FilterType ≠ 3) :
    fftw2D_filter lib self FilterType FLow FHigh =
      transform_filter_rebuild lib self
        (pad_to_power_of_two self
          (detrend2D lib.solve_singular self self.RasterData
            (Array2D.uninit lib 0 self.NRows self.NCols)
            (Array2D.uninit lib 1 self.NRows self.NCols)).1
          (Array2D.uninit lib 2 self.Ly self.Lx))
        (detrend2D lib.solve_singular self self.RasterData
          (Array2D.uninit lib 0 self.NRows self.NCols)
          (Array2D.uninit lib 1 self.NRows self.NCols)).2
        (fun _ _ FilteredSpectrumReal FilteredSpectrumImaginary =>
          (FilteredSpectrumReal, FilteredSpectrumImaginary)) ∧
    (det3 (detrend2D_sums self self.RasterData).1 ≠ 0 →
      ∃ out, fftw2D_filter lib self FilterType FLow FHigh = some out) := by
  constructor
  · unfold fftw2D_filter
    simp only [if_neg h1, if_neg h2, if_neg h3]
  · intro _
    exact fftw2D_filter_of_detrend lib self FilterType FLow FHigh

end FailureProofs

/-- C17. `dfftw2D_fwd` returns its output arrays if and only if
`transform_direction = -1` and `dfftw2D_inv` returns its output array if and
only if `transform_direction = 1`; for any other direction the call ends in
the fatal exit, which precedes every write to an output array. -/
theorem dfftw2D_direction {K : Type} (f : Nat → Nat → Int → (Nat → K × K) → (Nat → K × K))
    (b : Nat → K × K) (self : LSDRasterSpectral K) (a1 a2 o1 o2 : Array2D K)
    (transform_direction : Int) :
    ((∃ r, dfftw2D_fwd f b self a1 o1 o2 transform_direction = some r)
      ↔ transform_direction = -1) ∧
    (transform_direction ≠ -1 → dfftw2D_fwd f b self a1 o1 o2 transform_direction = none) ∧
    ((∃ r, dfftw2D_inv f b self a1 a2 o1 transform_direction = some r)
      ↔ transform_direction = 1) ∧
    (transform_direction ≠ 1 → dfftw2D_inv f b self a1 a2 o1 transform_direction = none) := by
  unfold dfftw2D_fwd dfftw2D_inv
  refine ⟨?_, ?_, ?_, ?_⟩
  · constructor
    · rintro ⟨r, hr⟩
      by_contra hd
      rw [if_neg hd] at hr
      exact absurd hr (by simp)
    · intro hd
      rw [if_pos hd]
      exact ⟨_, rfl⟩
  · intro hd
    rw [if_neg hd]
  · constructor
    · rintro ⟨r, hr⟩
      by_contra hd
      rw [if_neg hd] at hr
      exact absurd hr (by simp)
    · intro hd
      rw [if_pos hd]
      exact ⟨_, rfl⟩
  · intro hd
    rw [if_neg hd]

/-- C16 (counterexample). With selector 7 `fftw2D_filter` returns a raster for
the sample surface. -/
theorem fftw2D_filter_type_seven_returns :
    ∃ out, fftw2D_filter sampleLib sampleSurface 7 (1 / 10) (1 / 5) = some out :=
  fftw2D_filter_of_detrend sampleLib sampleSurface 7 (1 / 10) (1 / 5)

theorem fftw2D_filter_unknown_type_witness :
    ∃ out, fftw2D_filter sampleLib sampleSurface 0 (1 / 10) (1 / 5) = some out :=
  (fftw2D_filter_unknown_type sampleLib sampleSurface 0 (1 / 10) (1 / 5)
    (by decide) (by decide) (by decide)).2 (by decide!)

theorem dfftw2D_direction_witness :
    dfftw2D_fwd sampleLib.fftw_execute (sampleLib.fftw_buffer 0) sampleSurface
        sampleSurface.P_DFT sampleSurface.P_DFT sampleSurface.P_DFT 1 = none ∧
    dfftw2D_inv sampleLib.fftw_execute (sampleLib.fftw_buffer 1) sampleSurface
        sampleSurface.P_DFT sampleSurface.P_DFT sampleSurface.P_DFT (-1) = none :=
  ⟨(dfftw2D_direction sampleLib.fftw_execute (sampleLib.fftw_buffer 0) sampleSurface
      sampleSurface.P_DFT sampleSurface.P_DFT sampleSurface.P_DFT sampleSurface.P_DFT 1).2.1
      (by decide),
   (dfftw2D_direction sampleLib.fftw_execute (sampleLib.fftw_buffer 1) sampleSurface
      sampleSurface.P_DFT sampleSurface.P_DFT sampleSurface.P_DFT sampleSurface.P_DFT (-1)).2.2.2
      (by decide)⟩

/-! ## Singular plane fit -/

section SingularProofs

variable {K : Type} [LinearOrderedField K]

end SingularProofs

theorem padded_length_real (regression : List ℝ → List ℝ → List ℝ)
    (uninit : Nat → Nat → Nat → ℝ) (fftw_buffer : Nat → Nat → ℝ × ℝ) (past_end : ℝ) (n : Nat) :
    padded_length (realLib regression uninit fftw_buffer past_end) n = 2 ^ Nat.clog 2 n := by
  unfold padded_length realLib
  simp only
  rw [Real.log_div_log]
  have hc : ⌈Real.logb 2 (n : ℝ)⌉ = (Nat.clog 2 n : ℤ) := by
    have h := Real.ceil_logb_natCast (b := 2) (r := (n : ℝ)) (Nat.cast_nonneg n)
    rw [Int.clog_natCast] at h
    exact_mod_cast h
  rw [hc]
  have hp : (2 : ℝ) ^ (((Nat.clog 2 n : ℤ)) : ℝ) = ((2 ^ Nat.clog 2 n : ℕ) : ℝ) := by
    rw [Int.cast_natCast, Real.rpow_natCast]
    push_cast
    rfl
  rw [hp, if_pos (Nat.cast_nonneg _), Int.floor_natCast, Int.toNat_natCast]

theorem clog_two_bounds (n : Nat) (hn : 1 ≤ n) :
    n ≤ 2 ^ Nat.clog 2 n ∧ 2 ^ Nat.clog 2 n < 2 * n ∧
    ∀ k, n ≤ 2 ^ k → 2 ^ Nat.clog 2 n ≤ 2 ^ k := by
  refine ⟨Nat.le_pow_clog (by norm_num) n, ?_, ?_⟩
  · rcases Nat.lt_or_ge 1 n with h | h
    · have h1 := Nat.pow_pred_clog_lt_self (b := 2) (by norm_num) h
      have h2 : 0 < Nat.clog 2 n := Nat.clog_pos (by norm_num) h
      have h3 : 2 ^ Nat.clog 2 n = 2 * 2 ^ (Nat.clog 2 n).pred := by
        rw [← pow_succ']
        congr 1
        exact (Nat.succ_pred_eq_of_pos h2).symm
      omega
    · have : n = 1 := by omega
      subst this
      simp
  · intro k hk
    exact Nat.pow_le_pow_right (by norm_num) ((Nat.le_pow_iff_clog_le (by norm_num)).mp hk)


/-- C19 (as amended). In exact real arithmetic, for a raster with
`NRows >= 1` and `NCols >= 1` the surface built by `create(LSDRaster&)` has the
raster's `NRows` and `NCols`, `Ly = 2^k` for the least `k` with `NRows <= 2^k`
(so `Ly` is a power of two, `NRows <= Ly < 2*NRows`, and no smaller power of two
is `>= NRows`), and `Lx` likewise from `NCols`; the lengths that
`fftw2D_wiener` recomputes are the same powers of two. -/
theorem create_padded_dims (regression : List ℝ → List ℝ → List ℝ)
    (uninit : Nat → Nat → Nat → ℝ) (fftw_buffer : Nat → Nat → ℝ × ℝ) (past_end : ℝ)
    (self : LSDRasterSpectral ℝ) (An_LSDRaster : LSDRaster ℝ)
    (hr : 1 ≤ An_LSDRaster.NRows) (hc : 1 ≤ An_LSDRaster.NCols) :
    ((LSDRasterSpectral.create (realLib regression uninit fftw_buffer past_end) self
        An_LSDRaster).NRows = An_LSDRaster.NRows ∧
      (LSDRasterSpectral.create (realLib regression uninit fftw_buffer past_end) self
        An_LSDRaster).Ly = 2 ^ Nat.clog 2 An_LSDRaster.NRows ∧
      An_LSDRaster.NRows ≤ (LSDRasterSpectral.create
        (realLib regression uninit fftw_buffer past_end) self An_LSDRaster).Ly ∧
      (LSDRasterSpectral.create (realLib regression uninit fftw_buffer past_end) self
        An_LSDRaster).Ly < 2 * An_LSDRaster.NRows ∧
      ∀ k, An_LSDRaster.NRows ≤ 2 ^ k → (LSDRasterSpectral.create
        (realLib regression uninit fftw_buffer past_end) self An_LSDRaster).Ly ≤ 2 ^ k) ∧
    ((LSDRasterSpectral.create (realLib regression uninit fftw_buffer past_end) self
        An_LSDRaster).NCols = An_LSDRaster.NCols ∧
      (LSDRasterSpectral.create (realLib regression uninit fftw_buffer past_end) self
        An_LSDRaster).Lx = 2 ^ Nat.clog 2 An_LSDRaster.NCols ∧
      An_LSDRaster.NCols ≤ (LSDRasterSpectral.create
        (realLib regression uninit fftw_buffer past_end) self An_LSDRaster).Lx ∧
      (LSDRasterSpectral.create (realLib regression uninit fftw_buffer past_end) self
        An_LSDRaster).Lx < 2 * An_LSDRaster.NCols ∧
      ∀ k, An_LSDRaster.NCols ≤ 2 ^ k → (LSDRasterSpectral.create
        (realLib regression uninit fftw_buffer past_end) self An_LSDRaster).Lx ≤ 2 ^ k) ∧
    ((fftw2D_wiener_padded (realLib regression uninit fftw_buffer past_end) self).1.NRows
        = self.NRows ∧
      (fftw2D_wiener_padded (realLib regression uninit fftw_buffer past_end) self).1.NCols
        = self.NCols ∧
      (fftw2D_wiener_padded (realLib regression uninit fftw_buffer past_end) self).1.Ly
        = 2 ^ Nat.clog 2 self.NRows ∧
      (fftw2D_wiener_padded (realLib regression uninit fftw_buffer past_end) self).1.Lx
        = 2 ^ Nat.clog 2 self.NCols) := by
  have hLy : (LSDRasterSpectral.create (realLib regression uninit fftw_buffer past_end) self
      An_LSDRaster).Ly = 2 ^ Nat.clog 2 An_LSDRaster.NRows :=
    padded_length_real regression uninit fftw_buffer past_end An_LSDRaster.NRows
  have hLx : (LSDRasterSpectral.create (realLib regression uninit fftw_buffer past_end) self
      An_LSDRaster).Lx = 2 ^ Nat.clog 2 An_LSDRaster.NCols :=
    padded_length_real regression uninit fftw_buffer past_end An_LSDRaster.NCols
  obtain ⟨r1, r2, r3⟩ := clog_two_bounds An_LSDRaster.NRows hr
  obtain ⟨c1, c2, c3⟩ := clog_two_bounds An_LSDRaster.NCols hc
  refine ⟨⟨rfl, hLy, ?_, ?_, ?_⟩, ⟨rfl, hLx, ?_, ?_, ?_⟩, ?_⟩
  · rw [hLy]
    exact r1
  · rw [hLy]
    exact r2
  · rw [hLy]
    exact r3
  · rw [hLx]
    exact c1
  · rw [hLx]
    exact c2
  · rw [hLx]
    exact c3
  · exact ⟨rfl, rfl,
      padded_length_real regression uninit fftw_buffer past_end self.NRows,
      padded_length_real regression uninit fftw_buffer past_end self.NCols⟩

theorem create_padded_dims_witness :
    (LSDRasterSpectral.create sampleRealLib sampleRealSurface
      sampleRealSurface.toLSDRaster).Ly = 2 ^ Nat.clog 2 3 ∧
    (LSDRasterSpectral.create sampleRealLib sampleRealSurface
      sampleRealSurface.toLSDRaster).Lx = 2 ^ Nat.clog 2 3 :=
  ⟨(create_padded_dims (fun _ _ => [0, 0, 0, 0]) (fun _ _ _ => 0) (fun _ _ => (0, 0)) 0
      sampleRealSurface sampleRealSurface.toLSDRaster (by decide) (by decide)).1.2.1,
   (create_padded_dims (fun _ _ => [0, 0, 0, 0]) (fun _ _ _ => 0) (fun _ _ => (0, 0)) 0
      sampleRealSurface sampleRealSurface.toLSDRaster (by decide) (by decide)).2.1.2.1⟩

/-- C19 (counterexample). In double precision `log(2^29)/log(2)` exceeds 29, so
for a raster of `2^29` rows `create` sets `Ly = 2^30 = 2*NRows`, which is
neither below `2*NRows` nor the least power of two that is `>= NRows`. -/
theorem create_padded_dims_double :
    sampleLibDouble.log 536870912 / sampleLibDouble.log 2 > 29 ∧
    (LSDRasterSpectral.create sampleLibDouble sampleSurface sampleTallRaster).NRows = 2 ^ 29 ∧
    (LSDRasterSpectral.create sampleLibDouble sampleSurface sampleTallRaster).Ly = 2 ^ 30 ∧
    ¬ (LSDRasterSpectral.create sampleLibDouble sampleSurface sampleTallRaster).Ly
      < 2 * sampleTallRaster.NRows ∧
    sampleTallRaster.NRows ≤ 2 ^ 29 := by
  refine ⟨?_, ?_, ?_, ?_, ?_⟩ <;> decide!

section PaddingProofs

variable {K : Type} [LinearOrderedField K]

theorem pad_to_power_of_two_eq (self : LSDRasterSpectral K) (source buffer : Array2D K) :
    pad_to_power_of_two self source buffer =
      forLoop self.Ly (fun i P => forLoop self.Lx (fun j P =>
        P.set i j (if i < self.NRows ∧ j < self.NCols then source.get i j else 0)) P) buffer := by
  unfold pad_to_power_of_two
  congr 1
  funext i P
  congr 1
  funext j P
  split_ifs <;> rfl

/-- The padding loop on a freshly declared `Ly x Lx` array: dimensions and
every cell. -/
theorem pad_to_power_of_two_cells (lib : Extern K) (self : LSDRasterSpectral K)
    (source : Array2D K) (site : Nat) :
    (pad_to_power_of_two self source (Array2D.uninit lib site self.Ly self.Lx)).dim1 = self.Ly ∧
    (pad_to_power_of_two self source (Array2D.uninit lib site self.Ly self.Lx)).dim2 = self.Lx ∧
    ∀ i j, i < self.Ly → j < self.Lx →
      (pad_to_power_of_two self source (Array2D.uninit lib site self.Ly self.Lx)).get i j =
        if i < self.NRows ∧ j < self.NCols then source.get i j else 0 := by
  rw [pad_to_power_of_two_eq]
  refine ⟨(fill_loop_dims _ _ _ _).1, (fill_loop_dims _ _ _ _).2, ?_⟩
  intro i j hi hj
  exact fill_loop_get self.Ly self.Lx
    (fun i j => if i < self.NRows ∧ j < self.NCols then source.get i j else 0) _ i j hi hj

/-- C20. The padded array of `fftw2D_filter`, of `fftw2D_wiener` and of
`fftw2D_spectral_analysis` has dimensions `Ly x Lx` and holds, at every index
`[i][j]` of it, the source array (the detrended array, or the windowed array
`zeta_Hann2D` in the analysis path) where `i < NRows` and `j < NCols`, and 0
everywhere else. -/
theorem padded_array_contents (lib : Extern K) (self : LSDRasterSpectral K) :
    (∃ d P, detrend2D lib.solve_singular self self.RasterData
        (Array2D.uninit lib 0 self.NRows self.NCols)
        (Array2D.uninit lib 1 self.NRows self.NCols) = d ∧
      fftw2D_filter_padded lib self = P ∧
      P.dim1 = self.Ly ∧ P.dim2 = self.Lx ∧
      ∀ i j, i < self.Ly → j < self.Lx →
        P.get i j = if i < self.NRows ∧ j < self.NCols then d.1.get i j else 0) ∧
    (∃ d s P, detrend2D lib.solve_singular self self.RasterData
        (Array2D.uninit lib 0 self.NRows self.NCols)
        (Array2D.uninit lib 1 self.NRows self.NCols) = d ∧
      fftw2D_wiener_padded lib self = (s, P) ∧
      s.NRows = self.NRows ∧ s.NCols = self.NCols ∧
      P.dim1 = s.Ly ∧ P.dim2 = s.Lx ∧
      ∀ i j, i < s.Ly → j < s.Lx →
        P.get i j = if i < s.NRows ∧ j < s.NCols then d.1.get i j else 0) ∧
    (∃ s zeta_Hann2D P, fftw2D_spectral_analysis_padded lib self = (s, zeta_Hann2D, P) ∧
      s.NRows = self.NRows ∧ s.NCols = self.NCols ∧ s.Ly = self.Ly ∧ s.Lx = self.Lx ∧
      P.dim1 = self.Ly ∧ P.dim2 = self.Lx ∧
      ∀ i j, i < self.Ly → j < self.Lx →
        P.get i j = if i < self.NRows ∧ j < self.NCols then zeta_Hann2D.get i j else 0) := by
  obtain ⟨d, hd⟩ : ∃ d, detrend2D lib.solve_singular self self.RasterData
      (Array2D.uninit lib 0 self.NRows self.NCols)
      (Array2D.uninit lib 1 self.NRows self.NCols) = d := ⟨_, rfl⟩
  obtain ⟨d', hd'⟩ : ∃ d, detrend2D lib.solve_singular self self.RasterData
      (Array2D.uninit lib 10 self.NRows self.NCols)
      (Array2D.uninit lib 11 self.NRows self.NCols) = d := ⟨_, rfl⟩
  refine ⟨?_, ?_, ?_⟩
  · obtain ⟨p1, p2, p3⟩ := pad_to_power_of_two_cells lib self d.1 2
    refine ⟨d, _, hd, ?_, p1, p2, p3⟩
    unfold fftw2D_filter_padded
    simp only [hd]
  · obtain ⟨p1, p2, p3⟩ := pad_to_power_of_two_cells lib
      { self with
        WSS := 1
        Ly := padded_length lib self.NRows
        Lx := padded_length lib self.NCols } d.1 2
    refine ⟨d,
      { self with
        WSS := 1
        Ly := padded_length lib self.NRows
        Lx := padded_length lib self.NCols }, _, hd, ?_, rfl, rfl, p1, p2, p3⟩
    unfold fftw2D_wiener_padded
    simp only [hd]
  · obtain ⟨p1, p2, p3⟩ := pad_to_power_of_two_cells lib
      (window_data_Hann2D lib { self with WSS := 0 } d'.1
        (Array2D.filled self.NRows self.NCols 0) (Array2D.filled self.NRows self.NCols 0)).1
      (window_data_Hann2D lib { self with WSS := 0 } d'.1
        (Array2D.filled self.NRows self.NCols 0) (Array2D.filled self.NRows self.NCols 0)).2.1 12
    refine ⟨(window_data_Hann2D lib { self with WSS := 0 } d'.1
        (Array2D.filled self.NRows self.NCols 0) (Array2D.filled self.NRows self.NCols 0)).1,
      (window_data_Hann2D lib { self with WSS := 0 } d'.1
        (Array2D.filled self.NRows self.NCols 0) (Array2D.filled self.NRows self.NCols 0)).2.1,
      _, ?_, rfl, rfl, rfl, rfl, p1, p2, p3⟩
    unfold fftw2D_spectral_analysis_padded
    simp only [hd']

end PaddingProofs

theorem padded_array_contents_witness :
    ∃ P, fftw2D_filter_padded sampleLib sampleSurface = P ∧
      P.dim1 = 4 ∧ P.dim2 = 4 ∧ P.get 3 1 = 0 ∧ P.get 1 3 = 0 :=
  let ⟨_, P, _, hP, h1, h2, h3⟩ := (padded_array_contents sampleLib sampleSurface).1
  ⟨P, hP, h1, h2, h3 3 1 (by decide) (by decide), h3 1 3 (by decide) (by decide)⟩

/-! ## The window sum of the analysis path -/

section WindowProofs

variable {K : Type} [LinearOrderedField K]

/-- What `window_data_Hann2D` adds to `WSS`. -/
theorem window_data_Hann2D_WSS (lib : Extern K) (self : LSDRasterSpectral K)
    (zeta_detrend zeta_Hann2D Hann2D : Array2D K) :
    (window_data_Hann2D lib self zeta_detrend zeta_Hann2D Hann2D).1.WSS =
      self.WSS + ∑ i in Finset.range self.NRows, ∑ j in Finset.range self.NCols,
        if hann_inside lib self i j then hann_coefficient lib self i j ^ 2 else 0 := by
  unfold window_data_Hann2D
  show (forLoop self.NRows _ (self.WSS, zeta_Hann2D, Hann2D)).1 = _
  rw [nested_accumulates (fun (s : K × Array2D K × Array2D K) => s.1) _ _ _
    (fun i j => if hann_inside lib self i j then hann_coefficient lib self i j ^ 2 else 0)]
  intro i j _ _ s
  by_cases hc : hann_inside lib self i j
  · rw [if_pos hc]
    have hc' := hc
    unfold hann_inside at hc'
    dsimp only at hc' ⊢
    rw [if_pos hc']
    unfold hann_coefficient
    dsimp only
    rw [sq]
  · rw [if_neg hc, add_zero]
    have hc' := hc
    unfold hann_inside at hc'
    dsimp only at hc' ⊢
    rw [if_neg hc']

/-- The cells of the window array that `window_data_Hann2D` returns. -/
theorem window_data_Hann2D_cells (lib : Extern K) (self : LSDRasterSpectral K)
    (zeta_detrend zeta_Hann2D Hann2D : Array2D K) (p q : Nat)
    (hp : p < self.NRows) (hq : q < self.NCols) :
    (window_data_Hann2D lib self zeta_detrend zeta_Hann2D Hann2D).2.2.get p q =
      if hann_inside lib self p q then hann_coefficient lib self p q else Hann2D.get p q := by
  unfold window_data_Hann2D
  show (forLoop self.NRows _ (self.WSS, zeta_Hann2D, Hann2D)).2.2.get p q = _
  by_cases hc : hann_inside lib self p q
  · rw [if_pos hc]
    refine (nested_writes (fun (s : K × Array2D K × Array2D K) => s.2.2.get)
      self.NRows self.NCols _
      (fun i j p q => p = i ∧ q = j ∧ hann_inside lib self i j)
      (fun p q => hann_coefficient lib self p q) ?_
      (self.WSS, zeta_Hann2D, Hann2D) p q).1 ⟨p, hp, q, hq, rfl, rfl, hc⟩
    intro i j _ _ s p q
    by_cases hc : hann_inside lib self i j
    · have hc' := hc
      unfold hann_inside at hc'
      dsimp only at hc' ⊢
      rw [if_pos hc']
      constructor
      · rintro ⟨rfl, rfl, _⟩
        unfold hann_coefficient
        simp [Array2D.get, Array2D.set]
      · intro hW
        have hne : ¬ (p = i ∧ q = j) := fun hpq => hW ⟨hpq.1, hpq.2, hc⟩
        simp [Array2D.get, Array2D.set, hne]
    · have hc' := hc
      unfold hann_inside at hc'
      dsimp only at hc' ⊢
      rw [if_neg hc']
      constructor
      · rintro ⟨_, _, h3⟩
        exact absurd h3 hc
      · intro _
        rfl
  · rw [if_neg hc]
    refine (nested_writes (fun (s : K × Array2D K × Array2D K) => s.2.2.get)
      self.NRows self.NCols _
      (fun i j p q => p = i ∧ q = j ∧ hann_inside lib self i j)
      (fun p q => hann_coefficient lib self p q) ?_
      (self.WSS, zeta_Hann2D, Hann2D) p q).2 (by
        rintro ⟨i, _, j, _, rfl, rfl, h3⟩
        exact hc h3)
    intro i j _ _ s p q
    by_cases hc : hann_inside lib self i j
    · have hc' := hc
      unfold hann_inside at hc'
      dsimp only at hc' ⊢
      rw [if_pos hc']
      constructor
      · rintro ⟨rfl, rfl, _⟩
        unfold hann_coefficient
        simp [Array2D.get, Array2D.set]
      · intro hW
        have hne : ¬ (p = i ∧ q = j) := fun hpq => hW ⟨hpq.1, hpq.2, hc⟩
        simp [Array2D.get, Array2D.set, hne]
    · have hc' := hc
      unfold hann_inside at hc'
      dsimp only at hc' ⊢
      rw [if_neg hc']
      constructor
      · rintro ⟨_, _, h3⟩
        exact absurd h3 hc
      · intro _
        rfl

/-- With a window array that starts at 0 and `WSS` at 0, the `WSS` that
`window_data_Hann2D` leaves is the sum of the squared cells of the window. -/
theorem window_data_Hann2D_sum_squares (lib : Extern K) (self : LSDRasterSpectral K)
    (zeta_detrend zeta_Hann2D : Array2D K) (hW : self.WSS = 0) :
    (window_data_Hann2D lib self zeta_detrend zeta_Hann2D
        (Array2D.filled self.NRows self.NCols 0)).1.WSS =
      ∑ i in Finset.range self.NRows, ∑ j in Finset.range self.NCols,
        (window_data_Hann2D lib self zeta_detrend zeta_Hann2D
          (Array2D.filled self.NRows self.NCols 0)).2.2.get i j ^ 2 := by
  rw [window_data_Hann2D_WSS, hW, zero_add]
  refine Finset.sum_congr rfl (fun i hi => Finset.sum_congr rfl (fun j hj => ?_))
  rw [window_data_Hann2D_cells lib self _ _ _ i j (Finset.mem_range.mp hi)
    (Finset.mem_range.mp hj)]
  by_cases hc : hann_inside lib self i j
  · rw [if_pos hc, if_pos hc]
  · rw [if_neg hc, if_neg hc]
    simp [Array2D.get, Array2D.filled]

theorem window_data_Hann2D_frame (lib : Extern K) (self : LSDRasterSpectral K)
    (zeta_detrend zeta_Hann2D Hann2D : Array2D K) :
    (window_data_Hann2D lib self zeta_detrend zeta_Hann2D Hann2D).1.NRows = self.NRows ∧
    (window_data_Hann2D lib self zeta_detrend zeta_Hann2D Hann2D).1.NCols = self.NCols ∧
    (window_data_Hann2D lib self zeta_detrend zeta_Hann2D Hann2D).1.Ly = self.Ly ∧
    (window_data_Hann2D lib self zeta_detrend zeta_Hann2D Hann2D).1.Lx = self.Lx :=
  ⟨rfl, rfl, rfl, rfl⟩

/-- The cells of the periodogram, with the `WSS` the object holds. -/
theorem calculate_2D_PSD_get (self : LSDRasterSpectral K) (re im : Array2D K) (i j : Nat)
    (hi : i < self.Ly) (hj : j < self.Lx) :
    (calculate_2D_PSD self re im).WSS = self.WSS ∧
    (calculate_2D_PSD self re im).P_DFT.get i j =
      (re.get i j ^ 2 + im.get i j ^ 2) / (((self.Ly * self.Lx : Nat) : K) * self.WSS) :=
  ⟨rfl, fill_loop_get self.Ly self.Lx
    (fun i j => (re.get i j ^ 2 + im.get i j ^ 2) / (((self.Ly * self.Lx : Nat) : K) * self.WSS))
    (Array2D.filled self.Ly self.Lx 0) i j hi hj⟩

/-- C21. `fftw2D_spectral_analysis` reaches `calculate_2D_PSD` with a window
array `Hann2D` that holds the Hann coefficient in the cells inside the ellipse
and 0 elsewhere, and with `WSS` equal to the sum over all cells `(i, j)` of
`Hann2D[i][j]^2`; every cell of `P_DFT` is `(re^2 + im^2) / (Ly*Lx*WSS)` with
that `WSS`. -/
theorem fftw2D_spectral_analysis_WSS (lib : Extern K) (self : LSDRasterSpectral K) :
    ∃ s Hann2D re im, fftw2D_spectral_analysis_PSD lib self = some (s, Hann2D, re, im) ∧
      (∀ i j, i < self.NRows → j < self.NCols → Hann2D.get i j =
        if hann_inside lib self i j then hann_coefficient lib self i j else 0) ∧
      s.WSS = ∑ i in Finset.range self.NRows, ∑ j in Finset.range self.NCols,
        Hann2D.get i j ^ 2 ∧
      ∀ i j, i < self.Ly → j < self.Lx →
        s.P_DFT.get i j = (re.get i j ^ 2 + im.get i j ^ 2)
          / (((self.Ly * self.Lx : Nat) : K)
            * ∑ i in Finset.range self.NRows, ∑ j in Finset.range self.NCols,
                Hann2D.get i j ^ 2) := by
  obtain ⟨d, hd⟩ : ∃ d, detrend2D lib.solve_singular self self.RasterData
      (Array2D.uninit lib 10 self.NRows self.NCols)
      (Array2D.uninit lib 11 self.NRows self.NCols) = d := ⟨_, rfl⟩
  have hsum := window_data_Hann2D_sum_squares lib { self with WSS := 0 } d.1
    (Array2D.filled self.NRows self.NCols 0) rfl
  have hcells := window_data_Hann2D_cells lib { self with WSS := 0 } d.1
    (Array2D.filled self.NRows self.NCols 0) (Array2D.filled self.NRows self.NCols 0)
  unfold fftw2D_spectral_analysis_PSD
  simp only [hd]
  unfold dfftw2D_fwd
  simp only [if_true]
  refine ⟨_, _, _, _, rfl, ?_, ?_, ?_⟩
  · intro i j hi hj
    exact hcells i j hi hj
  · exact hsum
  · intro i j hi hj
    rw [← hsum]
    exact (calculate_2D_PSD_get
      (window_data_Hann2D lib { self with WSS := 0 } d.1
        (Array2D.filled self.NRows self.NCols 0) (Array2D.filled self.NRows self.NCols 0)).1
      _ _ i j hi hj).2

end WindowProofs

theorem fftw2D_spectral_analysis_WSS_witness :
    ∃ s Hann2D, (∃ re im, fftw2D_spectral_analysis_PSD sampleLib sampleSurface
        = some (s, Hann2D, re, im)) ∧
      s.WSS = ∑ i in Finset.range sampleSurface.NRows, ∑ j in Finset.range sampleSurface.NCols,
        Hann2D.get i j ^ 2 :=
  let ⟨s, H, re, im, h1, _, h3, _⟩ :=
    fftw2D_spectral_analysis_WSS sampleLib sampleSurface
  ⟨s, H, ⟨re, im, h1⟩, h3⟩

/-! ## Construction from an array -/

section CreateProofs

variable {K : Type} [LinearOrderedField K]

/-- C22. `create(nrows, ncols, xmin, ymin, cellsize, ndv, data)` ends in the
fatal exit exactly when the dimensions of `data` differ from `(nrows, ncols)`;
otherwise the stored row count is `nrows` and `Ly` is computed from it, but the
stored column count is the one the object had before the call, not `ncols`,
while `Lx` is computed from `ncols`; the assignment operator inherits this. -/
theorem create_with_data_keeps_NCols (lib : Extern K) (self : LSDRasterSpectral K)
    (nrows ncols : Nat) (xmin ymin cellsize ndv : K) (data : Array2D K) :
    (LSDRasterSpectral.create_with_data lib self nrows ncols xmin ymin cellsize ndv data = none
      ↔ ¬ (data.dim1 = nrows ∧ data.dim2 = ncols)) ∧
    (data.dim1 = nrows → data.dim2 = ncols →
      ∃ s, LSDRasterSpectral.create_with_data lib self nrows ncols xmin ymin cellsize ndv data
          = some s ∧
        s.NRows = nrows ∧ s.NCols = self.NCols ∧
        s.Ly = padded_length lib nrows ∧ s.Lx = padded_length lib ncols ∧
        s.XMinimum = xmin ∧ s.YMinimum = ymin ∧ s.DataResolution = cellsize ∧
        s.NoDataValue = ndv ∧ s.RasterData = data) ∧
    (∀ rhs : LSDRasterSpectral K, rhs.RasterData.dim1 = rhs.NRows →
      rhs.RasterData.dim2 = rhs.NCols →
      ∃ s, LSDRasterSpectral.assign lib self rhs false = some s ∧
        s.NRows = rhs.NRows ∧ s.NCols = self.NCols ∧ s.Lx = padded_length lib rhs.NCols) := by
  have key : ∀ (nrows ncols : Nat) (xmin ymin cellsize ndv : K) (data : Array2D K),
      data.dim1 = nrows → data.dim2 = ncols →
      LSDRasterSpectral.create_with_data lib self nrows ncols xmin ymin cellsize ndv data
        = some { self with
            NRows := nrows
            XMinimum := xmin
            YMinimum := ymin
            DataResolution := cellsize
            NoDataValue := ndv
            Ly := padded_length lib nrows
            Lx := padded_length lib ncols
            RasterData := data } := by
    intro nrows ncols xmin ymin cellsize ndv data h1 h2
    unfold LSDRasterSpectral.create_with_data
    simp only [h1, h2, ne_eq, not_true_eq_false, if_false]
  refine ⟨?_, ?_, ?_⟩
  · constructor
    · intro h hd
      rw [key nrows ncols xmin ymin cellsize ndv data hd.1 hd.2] at h
      exact absurd h (by simp)
    · intro hd
      unfold LSDRasterSpectral.create_with_data
      dsimp only
      by_cases h1 : data.dim1 = nrows
      · have h2 : data.dim2 ≠ ncols := fun h2 => hd ⟨h1, h2⟩
        rw [if_neg (not_not.mpr h1), if_pos h2]
      · rw [if_pos h1]
  · intro h1 h2
    exact ⟨_, key nrows ncols xmin ymin cellsize ndv data h1 h2,
      rfl, rfl, rfl, rfl, rfl, rfl, rfl, rfl, rfl⟩
  · intro rhs h1 h2
    have ha : LSDRasterSpectral.assign lib self rhs false =
        LSDRasterSpectral.create_with_data lib self rhs.NRows rhs.NCols rhs.XMinimum
          rhs.YMinimum rhs.DataResolution rhs.NoDataValue rhs.RasterData := by
      unfold LSDRasterSpectral.assign
      rw [if_neg (by simp)]
    rw [ha, key rhs.NRows rhs.NCols rhs.XMinimum rhs.YMinimum rhs.DataResolution
      rhs.NoDataValue rhs.RasterData h1 h2]
    exact ⟨_, rfl, rfl, rfl, rfl⟩

/-- C30. With `sqrt 0 = 0`, `bandpass_filter` called with `f1 = f2` computes
`sigma = sqrt((f2-f1)*(f2-f1))/6 = 0`: the divisor `2*sigma*sigma` of the exponent
is 0 at every spectrum cell, whose weight is `exp` of a quotient by that 0. -/
theorem bandpass_filter_zero_divisor (lib : Extern K) (self : LSDRasterSpectral K)
    (re im o1 o2 : Array2D K) (f1 : K) (hs0 : lib.sqrt 0 = 0) :
    ∃ sigma : K, sigma = lib.sqrt ((f1 - f1) * (f1 - f1)) / 6 ∧ sigma = 0 ∧
      2 * sigma * sigma = 0 ∧
      ∀ i j, i < self.Ly → j < self.Lx →
        (bandpass_filter lib self re im o1 o2 f1 f1).1.get i j
          = lib.exp (-(radial_frequency lib self i j - (1 / 2) * (f1 + f1))
              * (radial_frequency lib self i j - (1 / 2) * (f1 + f1))
              / (2 * sigma * sigma)) * re.get i j ∧
        (bandpass_filter lib self re im o1 o2 f1 f1).2.get i j
          = lib.exp (-(radial_frequency lib self i j - (1 / 2) * (f1 + f1))
              * (radial_frequency lib self i j - (1 / 2) * (f1 + f1))
              / (2 * sigma * sigma)) * im.get i j := by
  have hz : lib.sqrt ((f1 - f1) * (f1 - f1)) / 6 = 0 := by
    rw [sub_self, mul_zero, hs0, zero_div]
  refine ⟨_, rfl, hz, ?_, ?_⟩
  · rw [hz, mul_zero]
  · intro i j hi hj
    exact fill_pair_loop_get self.Ly self.Lx
      (fun i j => lib.exp (-(radial_frequency lib self i j - (1 / 2) * (f1 + f1))
          * (radial_frequency lib self i j - (1 / 2) * (f1 + f1))
          / (2 * (lib.sqrt ((f1 - f1) * (f1 - f1)) / 6) * (lib.sqrt ((f1 - f1) * (f1 - f1)) / 6)))
        * re.get i j)
      (fun i j => lib.exp (-(radial_frequency lib self i j - (1 / 2) * (f1 + f1))
          * (radial_frequency lib self i j - (1 / 2) * (f1 + f1))
          / (2 * (lib.sqrt ((f1 - f1) * (f1 - f1)) / 6) * (lib.sqrt ((f1 - f1) * (f1 - f1)) / 6)))
        * im.get i j)
      (o1, o2) i j hi hj

end CreateProofs

theorem create_with_data_keeps_NCols_witness :
    ∃ s, LSDRasterSpectral.create_with_data sampleLib sampleSurface 2 5 0 0 1 (-9999)
        (Array2D.filled 2 5 0) = some s ∧
      s.NRows = 2 ∧ s.NCols = 3 ∧ s.Ly = 2 ∧ s.Lx = 8 :=
  let ⟨s, h, h1, h2, h3, h4, _⟩ :=
    (create_with_data_keeps_NCols sampleLib sampleSurface 2 5 0 0 1 (-9999)
      (Array2D.filled 2 5 0)).2.1 rfl rfl
  ⟨s, h, h1, h2, h3.trans (by decide!), h4.trans (by decide!)⟩

theorem bandpass_filter_zero_divisor_witness :
    ∃ sigma : ℚ, sigma = sampleLib.sqrt ((1 / 2 - 1 / 2) * (1 / 2 - 1 / 2)) / 6 ∧
      2 * sigma * sigma = 0 :=
  let ⟨sigma, h1, _, h3, _⟩ := bandpass_filter_zero_divisor sampleLib sampleSpectrum
    sampleSpectrum.P_DFT sampleSpectrum.P_DFT sampleSpectrum.P_DFT sampleSpectrum.P_DFT
    (1 / 2) (by decide!)
  ⟨sigma, h1, h3⟩

/-! ## Trimming an index raster -/

theorem Array2D_get_set {α : Type} (a : Array2D α) (i j : Nat) (v : α) (p q : Nat) :
    (a.set i j v).get p q = if p = i ∧ q = j then v else a.get p q := rfl

/-- The copy loop of `RasterTrimmer` keeps the dimensions of `TrimmedData` and
fills row `p`, column `q` of it with the raster cell `(min_row - 1 + p,
min_col - 1 + q)`. -/
theorem trim_copy_cells {K : Type} (outside : Int → Int → Int) (self : LSDIndexRaster K)
    (min_row max_row min_col max_col : Int) (T : Array2D Int) :
    (self.trim_copy outside min_row max_row min_col max_col T).1.dim1 = T.dim1 ∧
    (self.trim_copy outside min_row max_row min_col max_col T).1.dim2 = T.dim2 ∧
    ∀ p q, p < (max_row - (min_row - 1)).toNat → q < (max_col - (min_col - 1)).toNat →
      (self.trim_copy outside min_row max_row min_col max_col T).1.get p q =
        self.RasterData.read outside (min_row - 1 + (p : Int)) (min_col - 1 + (q : Int)) := by
  unfold LSDIndexRaster.trim_copy forRange
  have h := forLoop_induct
    (fun k (s : Array2D Int × Nat × Nat) => s.2.1 = k ∧ s.2.2 = 0 ∧ s.1.dim1 = T.dim1 ∧
      s.1.dim2 = T.dim2 ∧
      ∀ p q, p < k → q < (max_col - (min_col - 1)).toNat →
        s.1.get p q =
          self.RasterData.read outside (min_row - 1 + (p : Int)) (min_col - 1 + (q : Int)))
    (max_row - (min_row - 1)).toNat
    (fun k s =>
      ((forLoop (max_col - (min_col - 1)).toNat (fun l s =>
          (s.1.set s.2.1 s.2.2 (self.RasterData.read outside (min_row - 1 + (k : Int))
            (min_col - 1 + (l : Int))), s.2.1, s.2.2 + 1)) s).1,
        (forLoop (max_col - (min_col - 1)).toNat (fun l s =>
          (s.1.set s.2.1 s.2.2 (self.RasterData.read outside (min_row - 1 + (k : Int))
            (min_col - 1 + (l : Int))), s.2.1, s.2.2 + 1)) s).2.1 + 1, 0))
    (T, 0, 0)
    ⟨rfl, rfl, rfl, rfl, fun p q hp _ => absurd hp (Nat.not_lt_zero p)⟩
    (by
      intro k _ t ht
      obtain ⟨t1, t2, t3, t4, t5⟩ := ht
      have hin := forLoop_induct
        (fun l (s : Array2D Int × Nat × Nat) => s.2.1 = k ∧ s.2.2 = l ∧ s.1.dim1 = T.dim1 ∧
          s.1.dim2 = T.dim2 ∧
          (∀ p q, p < k → q < (max_col - (min_col - 1)).toNat →
            s.1.get p q =
              self.RasterData.read outside (min_row - 1 + (p : Int)) (min_col - 1 + (q : Int))) ∧
          ∀ q, q < l → s.1.get k q =
            self.RasterData.read outside (min_row - 1 + (k : Int)) (min_col - 1 + (q : Int)))
        (max_col - (min_col - 1)).toNat
        (fun l s =>
          (s.1.set s.2.1 s.2.2 (self.RasterData.read outside (min_row - 1 + (k : Int))
            (min_col - 1 + (l : Int))), s.2.1, s.2.2 + 1))
        t
        ⟨t1, t2, t3, t4, t5, fun q hq => absurd hq (Nat.not_lt_zero q)⟩
        (by
          intro l _ u hu
          obtain ⟨u1, u2, u3, u4, u5, u6⟩ := hu
          refine ⟨u1, ?_, u3, u4, ?_, ?_⟩
          · show u.2.2 + 1 = l + 1
            rw [u2]
          · intro p q hp hq
            show (u.1.set u.2.1 u.2.2 _).get p q = _
            rw [u1, u2, Array2D_get_set, if_neg (fun hpq => by omega)]
            exact u5 p q hp hq
          · intro q hq
            show (u.1.set u.2.1 u.2.2 _).get k q = _
            rw [u1, u2, Array2D_get_set]
            by_cases hql : q = l
            · subst hql
              rw [if_pos ⟨rfl, rfl⟩]
            · rw [if_neg (fun hpq => hql hpq.2)]
              exact u6 q (by omega))
      obtain ⟨v1, _, v3, v4, v5, v6⟩ := hin
      refine ⟨?_, rfl, v3, v4, ?_⟩
      · show _ + 1 = k + 1
        rw [v1]
      · intro p q hp hq
        by_cases hpk : p = k
        · subst hpk
          exact v6 q hq
        · exact v5 p q (by omega) hq)
  exact ⟨h.2.2.1, h.2.2.2.1, h.2.2.2.2⟩

section TrimProofs

variable {K : Type} [LinearOrderedField K]

/-- C23. `RasterTrimmer` returns a raster of the size of the bounding rectangle
`[min_row..max_row] x [min_col..max_col]`, but its copy loop starts one row and
one column early: cell `(p, q)` of the result is the input cell
`(min_row - 1 + p, min_col - 1 + q)`, not `(min_row + p, min_col + q)`, so the
last row and the last column of the rectangle are not in the result. -/
theorem RasterTrimmer_copies_shifted (outside : Int → Int → Int) (self : LSDIndexRaster K) :
    ∃ r, self.RasterTrimmer outside = some r ∧
      r.NRows = (self.trim_max_row outside - self.trim_min_row outside + 1).toNat ∧
      r.NCols = (self.trim_max_col outside - self.trim_min_col outside + 1).toNat ∧
      r.NoDataValue = self.NoDataValue ∧
      ∀ p q, p < r.NRows → q < r.NCols →
        r.RasterData.get p q = self.RasterData.read outside
          (self.trim_min_row outside - 1 + (p : Int))
          (self.trim_min_col outside - 1 + (q : Int)) := by
  obtain ⟨c1, c2, c3⟩ := trim_copy_cells outside self (self.trim_min_row outside)
    (self.trim_max_row outside) (self.trim_min_col outside) (self.trim_max_col outside)
    (Array2D.filled (self.trim_max_row outside - self.trim_min_row outside + 1).toNat
      (self.trim_max_col outside - self.trim_min_col outside + 1).toNat self.NoDataValue)
  have e1 : (self.trim_max_row outside - (self.trim_min_row outside - 1)).toNat
      = (self.trim_max_row outside - self.trim_min_row outside + 1).toNat := by
    congr 1
    ring
  have e2 : (self.trim_max_col outside - (self.trim_min_col outside - 1)).toNat
      = (self.trim_max_col outside - self.trim_min_col outside + 1).toNat := by
    congr 1
    ring
  have c1' : _ = (self.trim_max_row outside - self.trim_min_row outside + 1).toNat := c1
  have c2' : _ = (self.trim_max_col outside - self.trim_min_col outside + 1).toNat := c2
  unfold LSDIndexRaster.RasterTrimmer LSDIndexRaster.create
  dsimp only
  rw [if_neg (not_not.mpr c1'), if_neg (not_not.mpr c2')]
  refine ⟨_, rfl, rfl, rfl, rfl, ?_⟩
  intro p q hp hq
  exact c3 p q (e1 ▸ hp) (e2 ▸ hq)

end TrimProofs

theorem RasterTrimmer_copies_shifted_witness :
    ∃ r, sampleIndexRaster.RasterTrimmer (fun _ _ => 0) = some r ∧
      r.NRows = 1 ∧ r.NCols = 1 ∧ r.RasterData.get 0 0 = r.NoDataValue ∧
      sampleIndexRaster.RasterData.get 1 1 = 5 :=
  let ⟨r, h, hr, hc, hn, hcell⟩ := RasterTrimmer_copies_shifted (fun _ _ => 0) sampleIndexRaster
  have hr1 : r.NRows = 1 := hr.trans (by decide!)
  have hc1 : r.NCols = 1 := hc.trans (by decide!)
  ⟨r, h, hr1, hc1,
    ((hcell 0 0 (by omega) (by omega)).trans (by decide!)).trans hn.symm, by decide!⟩

/-! ## Thinning: the limits of the raster -/

/-- A pass of step 2 that leaves `IsSkeleton` true ends the `while` loop. -/
theorem thin_loop_stops {K : Type} (outside : Int → Int → Int) (self : LSDIndexRaster K)
    (fuel : Nat) (Skeleton : Array2D Int) (h : (self.thin_pass outside Skeleton).1 = true) :
    self.thin_loop outside (fuel + 1) Skeleton = some (self.thin_pass outside Skeleton).2 := by
  unfold LSDIndexRaster.thin_loop
  simp only [h, if_true]

/-- Step 1 on the raster of ones: the last statement executed is the scalar
assignment `Skeleton = 3`. -/
theorem sampleOnes_outline (outside : Int → Int → Int) :
    sampleOnes.thin_outline outside = Array2D.filled 3 3 3 := by
  simp [LSDIndexRaster.thin_outline, sampleOnes, forRange, forLoop, Array2D.read,
    Array2D.write, Array2D.set, Array2D.filled, Array2D.assign_scalar]

/-- A pass of step 2 over an array of threes changes nothing. -/
theorem sampleOnes_pass (outside : Int → Int → Int) :
    sampleOnes.thin_pass outside (Array2D.filled 3 3 3) = (true, Array2D.filled 3 3 3) := by
  simp [LSDIndexRaster.thin_pass, sampleOnes, forRange, forLoop, thin_edge, thin_inner,
    thin_strip, Array2D.read, Array2D.write, Array2D.set, Array2D.filled, Array2D.assign_scalar]

/-- C24. On the 3 x 3 raster that holds 1 in every cell
`thin_to_single_thread_network` returns, for every number of passes allowed to
the `while` loop and whatever lies outside the arrays, a 3 x 3 raster that holds
1 in every cell: no pixel on the limits of the raster is set to 0. -/
theorem thin_to_single_thread_network_limits_not_zero (outside : Int → Int → Int)
    (fuel : Nat) :
    (∀ i j, i < 3 → j < 3 → sampleOnes.RasterData.get i j = 1) ∧
    ∃ r, sampleOnes.thin_to_single_thread_network outside (fuel + 1) = some r ∧
      r.NRows = 3 ∧ r.NCols = 3 ∧
      ∀ i j, i < 3 → j < 3 → r.RasterData.get i j = 1 := by
  refine ⟨fun _ _ _ _ => rfl, ?_⟩
  unfold LSDIndexRaster.thin_to_single_thread_network
  rw [sampleOnes_outline,
    thin_loop_stops outside sampleOnes fuel _ (by rw [sampleOnes_pass]), sampleOnes_pass]
  refine ⟨_, rfl, rfl, rfl, ?_⟩
  intro i j hi hj
  interval_cases i <;> interval_cases j <;> rfl

theorem thin_to_single_thread_network_limits_not_zero_witness :
    ∃ r, sampleOnes.thin_to_single_thread_network (fun _ _ => 0) 1 = some r ∧
      r.RasterData.get 0 0 = 1 ∧ r.RasterData.get 0 2 = 1 ∧ r.RasterData.get 2 1 = 1 :=
  let ⟨r, h, _, _, hc⟩ := (thin_to_single_thread_network_limits_not_zero (fun _ _ => 0) 0).2
  ⟨r, h, hc 0 0 (by decide) (by decide), hc 0 2 (by decide) (by decide),
    hc 2 1 (by decide) (by decide)⟩

/-! ## Resampling an index raster -/

section ResampleProofs

variable {K : Type} [LinearOrderedField K] [FloorRing K]

/-- The centre of output cell `i` lies inside the input: if `i` is below the
rounded-down quotient `n*d/o`, then `i*r + r/2 < n` for `r = o/d`. -/
theorem resample_centre_bound (n i : Nat) (d o : K) (hd : 0 < d) (ho : d ≤ o)
    (hi : i < ⌊(n : K) * d / o⌋.toNat) :
    0 ≤ (i : K) * (o / d) + o / d / 2 ∧ (i : K) * (o / d) + o / d / 2 < (n : K) := by
  have ho' : 0 < o := lt_of_lt_of_le hd ho
  have hr : 0 < o / d := div_pos ho' hd
  have hi0 : (0 : K) ≤ (i : K) := Nat.cast_nonneg i
  constructor
  · positivity
  · have h1 : ((i : Int) + 1) ≤ ⌊(n : K) * d / o⌋ := by omega
    have h2 : (((i : Int) + 1 : Int) : K) ≤ (n : K) * d / o := Int.le_floor.mp h1
    have h3 : ((i : K) + 1) ≤ (n : K) * d / o := by
      have e : (((i : Int) + 1 : Int) : K) = (i : K) + 1 := by push_cast; rfl
      rw [← e]
      exact h2
    have h4 : ((i : K) + 1) * (o / d) ≤ (n : K) * d / o * (o / d) :=
      mul_le_mul_of_nonneg_right h3 hr.le
    have h5 : (n : K) * d / o * (o / d) = (n : K) := by
      field_simp
    rw [h5] at h4
    have h6 : (i : K) * (o / d) + o / d / 2 < ((i : K) + 1) * (o / d) := by
      have : o / d / 2 < o / d := half_lt_self hr
      linarith
    exact lt_of_lt_of_le h6 h4

/-- An in-range read with `int` indices is the cell of the array. -/
theorem Array2D_read_inside {α : Type} (a : Array2D α) (outside : Int → Int → α) (i j : Int)
    (hi0 : 0 ≤ i) (hi : i < (a.dim1 : Int)) (hj0 : 0 ≤ j) (hj : j < (a.dim2 : Int)) :
    a.read outside i j = a.get i.toNat j.toNat := by
  unfold Array2D.read
  rw [if_pos ⟨hi0, hi, hj0, hj⟩]
  rfl

/-- `Resample` in exact arithmetic, for a raster with positive `DataResolution`
whose array has the stated dimensions, and with `int(x)` rounding non-negative
`x` down: the fatal exit, the size of the result and its cells. -/
theorem Resample_exact_cells (lib : Extern K) (outside : Int → Int → Int) (self : LSDIndexRaster K)
    (OutputResolution : K) (hto : ∀ x : K, 0 ≤ x → lib.to_int x = ⌊x⌋)
    (hres : 0 < self.DataResolution)
    (hd1 : self.RasterData.dim1 = self.NRows) (hd2 : self.RasterData.dim2 = self.NCols) :
    (self.Resample lib outside OutputResolution = none
      ↔ OutputResolution < self.DataResolution) ∧
    (¬ OutputResolution < self.DataResolution →
      ∃ r, self.Resample lib outside OutputResolution = some r ∧
        (r.NRows : Int) = ⌊(self.NRows : K) * self.DataResolution / OutputResolution⌋ ∧
        (r.NCols : Int) = ⌊(self.NCols : K) * self.DataResolution / OutputResolution⌋ ∧
        r.XMinimum = self.XMinimum ∧ r.YMinimum = self.YMinimum ∧
        r.NoDataValue = self.NoDataValue ∧ r.DataResolution = OutputResolution ∧
        ∀ i j, i < r.NRows → j < r.NCols →
          ⌊(i : K) * (OutputResolution / self.DataResolution)
            + OutputResolution / self.DataResolution / 2⌋.toNat < self.NRows ∧
          ⌊(j : K) * (OutputResolution / self.DataResolution)
            + OutputResolution / self.DataResolution / 2⌋.toNat < self.NCols ∧
          r.RasterData.get i j = self.RasterData.get
            ⌊(i : K) * (OutputResolution / self.DataResolution)
              + OutputResolution / self.DataResolution / 2⌋.toNat
            ⌊(j : K) * (OutputResolution / self.DataResolution)
              + OutputResolution / self.DataResolution / 2⌋.toNat) := by
  have hsome : ¬ OutputResolution < self.DataResolution →
      ∃ r, self.Resample lib outside OutputResolution = some r ∧
        (r.NRows : Int) = ⌊(self.NRows : K) * self.DataResolution / OutputResolution⌋ ∧
        (r.NCols : Int) = ⌊(self.NCols : K) * self.DataResolution / OutputResolution⌋ ∧
        r.XMinimum = self.XMinimum ∧ r.YMinimum = self.YMinimum ∧
        r.NoDataValue = self.NoDataValue ∧ r.DataResolution = OutputResolution ∧
        ∀ i j, i < r.NRows → j < r.NCols →
          ⌊(i : K) * (OutputResolution / self.DataResolution)
            + OutputResolution / self.DataResolution / 2⌋.toNat < self.NRows ∧
          ⌊(j : K) * (OutputResolution / self.DataResolution)
            + OutputResolution / self.DataResolution / 2⌋.toNat < self.NCols ∧
          r.RasterData.get i j = self.RasterData.get
            ⌊(i : K) * (OutputResolution / self.DataResolution)
              + OutputResolution / self.DataResolution / 2⌋.toNat
            ⌊(j : K) * (OutputResolution / self.DataResolution)
              + OutputResolution / self.DataResolution / 2⌋.toNat := by
    intro hge
    have ho : self.DataResolution ≤ OutputResolution := not_lt.mp hge
    have ho' : 0 < OutputResolution := lt_of_lt_of_le hres ho
    have hx : ∀ n : Nat, (0 : K) ≤ (n : K) * self.DataResolution / OutputResolution :=
      fun n => by positivity
    have hfl : ∀ n : Nat, (0 : Int) ≤ ⌊(n : K) * self.DataResolution / OutputResolution⌋ :=
      fun n => Int.floor_nonneg.mpr (hx n)
    have hdims := fill_loop_dims
      (lib.to_int ((self.NRows : K) * self.DataResolution / OutputResolution)).toNat
      (lib.to_int ((self.NCols : K) * self.DataResolution / OutputResolution)).toNat
      (fun i j => self.RasterData.read outside
        (lib.to_int (((i : K) * (OutputResolution / self.DataResolution))
          + (OutputResolution / self.DataResolution / 2)))
        (lib.to_int (((j : K) * (OutputResolution / self.DataResolution))
          + (OutputResolution / self.DataResolution / 2))))
      (Array2D.filled
        (lib.to_int ((self.NRows : K) * self.DataResolution / OutputResolution)).toNat
        (lib.to_int ((self.NCols : K) * self.DataResolution / OutputResolution)).toNat
        self.NoDataValue)
    have hc1 : _ = (lib.to_int ((self.NRows : K) * self.DataResolution
        / OutputResolution)).toNat := hdims.1
    have hc2 : _ = (lib.to_int ((self.NCols : K) * self.DataResolution
        / OutputResolution)).toNat := hdims.2
    unfold LSDIndexRaster.Resample LSDIndexRaster.create
    dsimp only
    rw [if_neg hge, if_neg (not_not.mpr hc1), if_neg (not_not.mpr hc2)]
    refine ⟨_, rfl, ?_, ?_, rfl, rfl, rfl, rfl, ?_⟩
    · show ((lib.to_int _).toNat : Int) = _
      rw [hto _ (hx _), Int.toNat_of_nonneg (hfl _)]
    · show ((lib.to_int _).toNat : Int) = _
      rw [hto _ (hx _), Int.toNat_of_nonneg (hfl _)]
    · intro i j hi hj
      have hi' : i < ⌊(self.NRows : K) * self.DataResolution / OutputResolution⌋.toNat := by
        have := hi
        change i < (lib.to_int _).toNat at this
        rwa [hto _ (hx _)] at this
      have hj' : j < ⌊(self.NCols : K) * self.DataResolution / OutputResolution⌋.toNat := by
        have := hj
        change j < (lib.to_int _).toNat at this
        rwa [hto _ (hx _)] at this
      obtain ⟨bi0, bi⟩ := resample_centre_bound self.NRows i self.DataResolution
        OutputResolution hres ho hi'
      obtain ⟨bj0, bj⟩ := resample_centre_bound self.NCols j self.DataResolution
        OutputResolution hres ho hj'
      have fi0 := Int.floor_nonneg.mpr bi0
      have fj0 := Int.floor_nonneg.mpr bj0
      have fi : ⌊(i : K) * (OutputResolution / self.DataResolution)
          + OutputResolution / self.DataResolution / 2⌋ < (self.NRows : Int) :=
        Int.floor_lt.mpr (by exact_mod_cast bi)
      have fj : ⌊(j : K) * (OutputResolution / self.DataResolution)
          + OutputResolution / self.DataResolution / 2⌋ < (self.NCols : Int) :=
        Int.floor_lt.mpr (by exact_mod_cast bj)
      refine ⟨by omega, by omega, ?_⟩
      have hget := fill_loop_get
        (lib.to_int ((self.NRows : K) * self.DataResolution / OutputResolution)).toNat
        (lib.to_int ((self.NCols : K) * self.DataResolution / OutputResolution)).toNat
        (fun i j => self.RasterData.read outside
          (lib.to_int (((i : K) * (OutputResolution / self.DataResolution))
            + (OutputResolution / self.DataResolution / 2)))
          (lib.to_int (((j : K) * (OutputResolution / self.DataResolution))
            + (OutputResolution / self.DataResolution / 2))))
        (Array2D.filled
          (lib.to_int ((self.NRows : K) * self.DataResolution / OutputResolution)).toNat
          (lib.to_int ((self.NCols : K) * self.DataResolution / OutputResolution)).toNat
          self.NoDataValue) i j hi hj
      refine hget.trans ?_
      dsimp only
      rw [hto _ bi0, hto _ bj0]
      exact Array2D_read_inside _ _ _ _ fi0 (by rw [hd1]; exact fi) fj0 (by rw [hd2]; exact fj)
  refine ⟨?_, hsome⟩
  constructor
  · intro h
    by_contra hge
    obtain ⟨r, hr, _⟩ := hsome hge
    rw [hr] at h
    exact absurd h (by simp)
  · intro h
    unfold LSDIndexRaster.Resample
    rw [if_pos h]

end ResampleProofs

/-- Without rounding, the `float` operations of `Resample` are the exact ones. -/
theorem Resample_rounded_exact {K : Type} [LinearOrderedField K] (fl : K → K)
    (hfl : ∀ x : K, fl x = x) (lib : Extern K)
    (outside : Int → Int → Int) (self : LSDIndexRaster K) (OutputResolution : K) :
    self.Resample_rounded fl lib outside OutputResolution
      = self.Resample lib outside OutputResolution := by
  have e : fl = fun x => x := funext hfl
  subst e
  rfl

section ResampleRoundedProofs

variable {K : Type} [LinearOrderedField K] [FloorRing K]

/-- C25 (as amended). In exact arithmetic, that is when no `float` operation of
`Resample` rounds its result (`fl x = x`), for a raster with positive
`DataResolution` whose array has the stated dimensions, and with `int(x)`
rounding non-negative `x` down: `Resample` ends in the fatal exit exactly when
`OutputResolution < DataResolution`; otherwise it returns a raster with
`floor(NRows*DataResolution/OutputResolution)` rows and
`floor(NCols*DataResolution/OutputResolution)` columns, the same `XMinimum`,
`YMinimum` and `NoDataValue`, `DataResolution = OutputResolution`, and cell
`(i, j)` equal to the input cell `(floor(i*r + r/2), floor(j*r + r/2))`, which is
a cell of the input, `r = OutputResolution/DataResolution`. -/
theorem Resample_cells (fl : K → K) (lib : Extern K) (outside : Int → Int → Int)
    (self : LSDIndexRaster K) (OutputResolution : K) (hfl : ∀ x : K, fl x = x)
    (hto : ∀ x : K, 0 ≤ x → lib.to_int x = ⌊x⌋)
    (hres : 0 < self.DataResolution)
    (hd1 : self.RasterData.dim1 = self.NRows) (hd2 : self.RasterData.dim2 = self.NCols) :
    (self.Resample_rounded fl lib outside OutputResolution = none
      ↔ OutputResolution < self.DataResolution) ∧
    (¬ OutputResolution < self.DataResolution →
      ∃ r, self.Resample_rounded fl lib outside OutputResolution = some r ∧
        (r.NRows : Int) = ⌊(self.NRows : K) * self.DataResolution / OutputResolution⌋ ∧
        (r.NCols : Int) = ⌊(self.NCols : K) * self.DataResolution / OutputResolution⌋ ∧
        r.XMinimum = self.XMinimum ∧ r.YMinimum = self.YMinimum ∧
        r.NoDataValue = self.NoDataValue ∧ r.DataResolution = OutputResolution ∧
        ∀ i j, i < r.NRows → j < r.NCols →
          ⌊(i : K) * (OutputResolution / self.DataResolution)
            + OutputResolution / self.DataResolution / 2⌋.toNat < self.NRows ∧
          ⌊(j : K) * (OutputResolution / self.DataResolution)
            + OutputResolution / self.DataResolution / 2⌋.toNat < self.NCols ∧
          r.RasterData.get i j = self.RasterData.get
            ⌊(i : K) * (OutputResolution / self.DataResolution)
              + OutputResolution / self.DataResolution / 2⌋.toNat
            ⌊(j : K) * (OutputResolution / self.DataResolution)
              + OutputResolution / self.DataResolution / 2⌋.toNat) := by
  rw [Resample_rounded_exact fl hfl lib outside self OutputResolution]
  exact Resample_exact_cells lib outside self OutputResolution hto hres hd1 hd2

end ResampleRoundedProofs

theorem Resample_cells_witness :
    ∃ r, sampleIndexRaster.Resample_rounded (fun x => x) sampleLib (fun _ _ => 0) 2 = some r ∧
      (r.NRows : Int) = 1 ∧ (r.NCols : Int) = 1 ∧ r.DataResolution = 2 ∧
      r.RasterData.get 0 0 = sampleIndexRaster.RasterData.get 1 1 :=
  let ⟨r, h, hr, hc, _, _, _, hres, hcell⟩ :=
    (Resample_cells (fun x => x) sampleLib (fun _ _ => 0) sampleIndexRaster 2 (fun _ => rfl)
      (fun _ hx => if_pos hx) (by decide!) rfl rfl).2 (by decide!)
  have hr1 : (r.NRows : Int) = 1 := hr.trans (by decide!)
  have hc1 : (r.NCols : Int) = 1 := hc.trans (by decide!)
  ⟨r, h, hr1, hc1, hres,
    (hcell 0 0 (by omega) (by omega)).2.2.trans (by decide!)⟩

/-- The rounding to `float` on known values: 0.1f and 1/3 as their bit patterns
give them, the ties at `2^24 + 1` and `2^24 + 3` resolved to the even
neighbour, a representable value left as it is, and a tie between the two
least subnormals. -/
theorem round_to_single_values :
    round_to_single (1 / 10) = 13421773 / 2 ^ 27 ∧
    round_to_single (1 / 3) = 11184811 / 2 ^ 25 ∧
    round_to_single 16777217 = 16777216 ∧
    round_to_single 16777219 = 16777220 ∧
    round_to_single (-(5 / 8)) = -(5 / 8) ∧
    round_to_single (3 / 2 ^ 150) = 1 / 2 ^ 148 := by
  refine ⟨?_, ?_, ?_, ?_, ?_, ?_⟩ <;> decide!

/-- C25 (counterexample). In single precision, with `DataResolution` the `float`
nearest to 0.1. A 3 x 3 raster resampled to the `float` nearest to 0.3:
`3*0.1f` rounds to that very `float`, the quotient is 1 and the result has one
row and one column, whereas `NRows*DataResolution/OutputResolution` is below 1
and its floor is 0. A 10 x 10 raster resampled to 1: `1/0.1f` rounds to 10, so
output cell `(0, 0)` is input cell `(5, 5)`, whereas `r/2` with
`r = OutputResolution/DataResolution` is below 5 and its floor is 4. -/
theorem Resample_single_precision :
    round_to_single (1 / 10) = 13421773 / 134217728 ∧
    round_to_single (3 / 10) = 5033165 / 16777216 ∧
    Option.map (fun r => (r.NRows, r.NCols))
      ((sampleTenthRaster 3).Resample_rounded round_to_single sampleLib (fun _ _ => 0)
        (round_to_single (3 / 10))) = some (1, 1) ∧
    ⌊((sampleTenthRaster 3).NRows : ℚ) * (sampleTenthRaster 3).DataResolution
      / round_to_single (3 / 10)⌋ = 0 ∧
    Option.map (fun r => r.RasterData.get 0 0)
      ((sampleTenthRaster 10).Resample_rounded round_to_single sampleLib (fun _ _ => 0) 1)
      = some ((sampleTenthRaster 10).RasterData.get 5 5) ∧
    ⌊(0 : ℚ) * (1 / (sampleTenthRaster 10).DataResolution)
      + 1 / (sampleTenthRaster 10).DataResolution / 2⌋ = 4 ∧
    (sampleTenthRaster 10).RasterData.get 5 5 ≠ (sampleTenthRaster 10).RasterData.get 4 4 := by
  refine ⟨?_, ?_, ?_, ?_, ?_, ?_, ?_⟩ <;> decide!

/-! ## Vector geometry of the swath -/

section GeometryProofs

variable {K : Type} [LinearOrderedField K]

/-- The parameter `t = -((b-a).(a-p)) / |b-a|^2` makes the residual orthogonal
to `b - a`. -/
theorem projection_orthogonal (ax ay bx by' px py : K)
    (hL : (bx - ax) * (bx - ax) + (by' - ay) * (by' - ay) ≠ 0) :
    (px - ax - -((bx - ax) * (ax - px) + (by' - ay) * (ay - py))
          / ((bx - ax) * (bx - ax) + (by' - ay) * (by' - ay)) * (bx - ax)) * (bx - ax)
      + (py - ay - -((bx - ax) * (ax - px) + (by' - ay) * (ay - py))
          / ((bx - ax) * (bx - ax) + (by' - ay) * (by' - ay)) * (by' - ay)) * (by' - ay) = 0 := by
  field_simp
  ring

/-- The squared distance from `p` to its projection is the squared cross
product over `|b-a|^2`. -/
theorem projection_distance (ax ay bx by' px py : K)
    (hL : (bx - ax) * (bx - ax) + (by' - ay) * (by' - ay) ≠ 0) :
    ((bx - ax) * (ay - py) - (by' - ay) * (ax - px))
        * ((bx - ax) * (ay - py) - (by' - ay) * (ax - px))
        / ((bx - ax) * (bx - ax) + (by' - ay) * (by' - ay))
      = (px - (ax + -((bx - ax) * (ax - px) + (by' - ay) * (ay - py))
            / ((bx - ax) * (bx - ax) + (by' - ay) * (by' - ay)) * (bx - ax)))
          * (px - (ax + -((bx - ax) * (ax - px) + (by' - ay) * (ay - py))
            / ((bx - ax) * (bx - ax) + (by' - ay) * (by' - ay)) * (bx - ax)))
        + (py - (ay + -((bx - ax) * (ax - px) + (by' - ay) * (ay - py))
            / ((bx - ax) * (bx - ax) + (by' - ay) * (by' - ay)) * (by' - ay)))
          * (py - (ay + -((bx - ax) * (ax - px) + (by' - ay) * (ay - py))
            / ((bx - ax) * (bx - ax) + (by' - ay) * (by' - ay)) * (by' - ay))) := by
  field_simp
  ring

/-- C26. `test_point_left` computes in its local `test` whether `V_p` lies
strictly to the left of the directed line from `V_a` to `V_b` (cross product
`> 0`), but it has no `return` statement: the value the caller receives is not
`test`, it is whatever `received` is, also when it differs from `test`. -/
theorem test_point_left_returns_nothing (received : Bool) (V_a V_b V_p : List K) :
    ((test_point_left received V_a V_b V_p).1 = true ↔
      (V_b.getD 0 0 - V_a.getD 0 0) * (V_p.getD 1 0 - V_a.getD 1 0)
        - (V_b.getD 1 0 - V_a.getD 1 0) * (V_p.getD 0 0 - V_a.getD 0 0) > 0) ∧
    (test_point_left received V_a V_b V_p).2 = received ∧
    (test_point_left (!(test_point_left received V_a V_b V_p).1) V_a V_b V_p).2
      ≠ (test_point_left received V_a V_b V_p).1 := by
  refine ⟨?_, rfl, ?_⟩
  · unfold test_point_left
    dsimp only
    split_ifs with h
    · exact ⟨fun _ => h, fun _ => rfl⟩
    · exact ⟨fun h' => absurd h' (by simp), fun h' => absurd h' h⟩
  · show (!(test_point_left received V_a V_b V_p).1) ≠ (test_point_left received V_a V_b V_p).1
    cases (test_point_left received V_a V_b V_p).1 <;> simp

/-- C27. For `V_a ≠ V_b` and a `sqrt` that is non-negative and squares back on
non-negative numbers: with `t = calculate_t(V_a, V_b, V_p)` the point
`V_a + t*(V_b - V_a)` is the orthogonal projection of `V_p` onto the line
through `V_a` and `V_b`, and `calculate_shortest_distance_to_line(V_a, V_b, V_p)`
is the distance between `V_p` and that point. -/
theorem calculate_t_projects (lib : Extern K) (V_a V_b V_p : List K)
    (hab : V_a.getD 0 0 ≠ V_b.getD 0 0 ∨ V_a.getD 1 0 ≠ V_b.getD 1 0)
    (hnn : ∀ x : K, 0 ≤ lib.sqrt x) (hsq : ∀ x : K, 0 ≤ x → lib.sqrt x * lib.sqrt x = x) :
    (V_p.getD 0 0 - V_a.getD 0 0 - calculate_t V_a V_b V_p * (V_b.getD 0 0 - V_a.getD 0 0))
        * (V_b.getD 0 0 - V_a.getD 0 0)
      + (V_p.getD 1 0 - V_a.getD 1 0 - calculate_t V_a V_b V_p * (V_b.getD 1 0 - V_a.getD 1 0))
        * (V_b.getD 1 0 - V_a.getD 1 0) = 0 ∧
    calculate_shortest_distance_to_line lib V_a V_b V_p =
      calculate_distance_between_two_points lib V_p
        [V_a.getD 0 0 + calculate_t V_a V_b V_p * (V_b.getD 0 0 - V_a.getD 0 0),
         V_a.getD 1 0 + calculate_t V_a V_b V_p * (V_b.getD 1 0 - V_a.getD 1 0)] := by
  have hL : 0 < (V_b.getD 0 0 - V_a.getD 0 0) * (V_b.getD 0 0 - V_a.getD 0 0)
      + (V_b.getD 1 0 - V_a.getD 1 0) * (V_b.getD 1 0 - V_a.getD 1 0) := by
    rcases hab with h | h
    · have : V_b.getD 0 0 - V_a.getD 0 0 ≠ 0 := sub_ne_zero.mpr (Ne.symm h)
      have h1 := mul_self_pos.mpr this
      have h2 := mul_self_nonneg (V_b.getD 1 0 - V_a.getD 1 0)
      linarith
    · have : V_b.getD 1 0 - V_a.getD 1 0 ≠ 0 := sub_ne_zero.mpr (Ne.symm h)
      have h1 := mul_self_pos.mpr this
      have h2 := mul_self_nonneg (V_b.getD 0 0 - V_a.getD 0 0)
      linarith
  have hL0 := hL.ne'
  constructor
  · exact projection_orthogonal _ _ _ _ _ _ hL0
  · have hsL := hsq _ hL.le
    have hsLpos : 0 < lib.sqrt ((V_b.getD 0 0 - V_a.getD 0 0) * (V_b.getD 0 0 - V_a.getD 0 0)
        + (V_b.getD 1 0 - V_a.getD 1 0) * (V_b.getD 1 0 - V_a.getD 1 0)) := by
      rcases (hnn ((V_b.getD 0 0 - V_a.getD 0 0) * (V_b.getD 0 0 - V_a.getD 0 0)
        + (V_b.getD 1 0 - V_a.getD 1 0) * (V_b.getD 1 0 - V_a.getD 1 0))).lt_or_eq with h | h
      · exact h
      · rw [← h, mul_zero] at hsL
        exact absurd hsL.symm hL0
    have hc := hsq _ (mul_self_nonneg ((V_b.getD 0 0 - V_a.getD 0 0) * (V_a.getD 1 0 - V_p.getD 1 0)
        - (V_b.getD 1 0 - V_a.getD 1 0) * (V_a.getD 0 0 - V_p.getD 0 0)))
    have hd := hsq _ (add_nonneg
      (mul_self_nonneg (V_p.getD 0 0
        - (V_a.getD 0 0 + calculate_t V_a V_b V_p * (V_b.getD 0 0 - V_a.getD 0 0))))
      (mul_self_nonneg (V_p.getD 1 0
        - (V_a.getD 1 0 + calculate_t V_a V_b V_p * (V_b.getD 1 0 - V_a.getD 1 0)))))
    have hsquares : calculate_shortest_distance_to_line lib V_a V_b V_p
          * calculate_shortest_distance_to_line lib V_a V_b V_p
        = calculate_distance_between_two_points lib V_p
            [V_a.getD 0 0 + calculate_t V_a V_b V_p * (V_b.getD 0 0 - V_a.getD 0 0),
             V_a.getD 1 0 + calculate_t V_a V_b V_p * (V_b.getD 1 0 - V_a.getD 1 0)]
          * calculate_distance_between_two_points lib V_p
            [V_a.getD 0 0 + calculate_t V_a V_b V_p * (V_b.getD 0 0 - V_a.getD 0 0),
             V_a.getD 1 0 + calculate_t V_a V_b V_p * (V_b.getD 1 0 - V_a.getD 1 0)] := by
      unfold calculate_shortest_distance_to_line calculate_distance_between_two_points
      dsimp only [List.getD_cons_zero, List.getD_cons_succ]
      rw [hd, div_mul_div_comm, hc, hsL]
      exact projection_distance _ _ _ _ _ _ hL0
    have h1 : 0 ≤ calculate_shortest_distance_to_line lib V_a V_b V_p := by
      unfold calculate_shortest_distance_to_line
      exact div_nonneg (hnn _) (hnn _)
    have h2 : 0 ≤ calculate_distance_between_two_points lib V_p
        [V_a.getD 0 0 + calculate_t V_a V_b V_p * (V_b.getD 0 0 - V_a.getD 0 0),
         V_a.getD 1 0 + calculate_t V_a V_b V_p * (V_b.getD 1 0 - V_a.getD 1 0)] := by
      unfold calculate_distance_between_two_points
      exact hnn _
    exact (mul_self_inj h1 h2).mp hsquares

end GeometryProofs

theorem test_point_left_returns_nothing_witness :
    (test_point_left false ([0, 0] : List ℚ) [1, 0] [0, 1]).1 = true ∧
    (test_point_left false ([0, 0] : List ℚ) [1, 0] [0, 1]).2 = false :=
  ⟨by decide!, (test_point_left_returns_nothing false ([0, 0] : List ℚ) [1, 0] [0, 1]).2.1⟩

theorem calculate_t_projects_witness :
    calculate_shortest_distance_to_line sampleRealLib [0, 0] [2, 0] [1, 1] =
      calculate_distance_between_two_points sampleRealLib [1, 1]
        [([0, 0] : List ℝ).getD 0 0
            + calculate_t [0, 0] [2, 0] [1, 1] * (([2, 0] : List ℝ).getD 0 0
              - ([0, 0] : List ℝ).getD 0 0),
         ([0, 0] : List ℝ).getD 1 0
            + calculate_t [0, 0] [2, 0] [1, 1] * (([2, 0] : List ℝ).getD 1 0
              - ([0, 0] : List ℝ).getD 1 0)] :=
  (calculate_t_projects sampleRealLib [0, 0] [2, 0] [1, 1] (Or.inl (by simp))
    Real.sqrt_nonneg (fun _ hx => Real.mul_self_sqrt hx)).2

/-! ## The longitudinal swath profile -/

/-- A loop that assigns `f i` and `g i` to element `i` of a pair of vectors. -/
theorem forLoop_set_pair {α : Type} (n : Nat) (f g : Nat → α) (l0 m0 : List α)
    (hl : n ≤ l0.length) (hm : n ≤ m0.length) (b : Nat) (hb : b < n) (d : α) :
    (forLoop n (fun i s => (s.1.set i (f i), s.2.set i (g i))) (l0, m0)).1.getD b d = f b ∧
    (forLoop n (fun i s => (s.1.set i (f i), s.2.set i (g i))) (l0, m0)).2.getD b d = g b := by
  have h := forLoop_induct
    (fun k (s : List α × List α) => s.1.length = l0.length ∧ s.2.length = m0.length ∧
      ∀ b, b < k → s.1[b]? = some (f b) ∧ s.2[b]? = some (g b))
    n (fun i s => (s.1.set i (f i), s.2.set i (g i))) (l0, m0)
    ⟨rfl, rfl, fun b hb => absurd hb (Nat.not_lt_zero b)⟩
    (by
      intro i hi t ht
      obtain ⟨t1, t2, t3⟩ := ht
      refine ⟨by simp [t1], by simp [t2], ?_⟩
      intro b hb
      by_cases hbi : b = i
      · subst hbi
        constructor
        · show (t.1.set b (f b))[b]? = _
          rw [List.getElem?_set_self (by omega)]
        · show (t.2.set b (g b))[b]? = _
          rw [List.getElem?_set_self (by omega)]
      · constructor
        · show (t.1.set i (f i))[b]? = _
          rw [List.getElem?_set_ne (fun h => hbi h.symm)]
          exact (t3 b (by omega)).1
        · show (t.2.set i (g i))[b]? = _
          rw [List.getElem?_set_ne (fun h => hbi h.symm)]
          exact (t3 b (by omega)).2)
  obtain ⟨_, _, h3⟩ := h
  constructor
  · rw [List.getD_eq_getElem?_getD, (h3 b hb).1]
    rfl
  · rw [List.getD_eq_getElem?_getD, (h3 b hb).2]
    rfl

section SwathProofs

variable {K : Type} [LinearOrderedField K]

/-- C28. `get_longitudinal_swath_profile` does not use the distance along the
baseline: replacing `DistanceAlongBaselineArray` by any other array leaves all its
results as they are (the distance it pairs with the raster values is the cell of
`DistanceToBaselineArray`). For every bin `b` the returned mean is `get_mean` of
the bin, but the returned standard deviation is taken about element `b` of the
caller's `mean_profile` as it was on entry, not about the mean of the bin. -/
theorem get_longitudinal_swath_profile_inputs (lib : Extern K) (st : StatsTools K)
    (self : LSDSwath K) (Raster : LSDRaster K) (desired_percentiles : List K) (BinWidth : K)
    (mean_profile : List K) (stale : Nat → K) :
    (∀ A : Array2D K,
      LSDSwath.get_longitudinal_swath_profile lib st
          { self with DistanceAlongBaselineArray := A } Raster desired_percentiles BinWidth
          mean_profile stale
        = self.get_longitudinal_swath_profile lib st Raster desired_percentiles BinWidth
            mean_profile stale) ∧
    (self.get_longitudinal_swath_profile lib st Raster desired_percentiles BinWidth
        mean_profile stale).1
      = (self.longitudinal_bins lib st Raster desired_percentiles BinWidth).1 ∧
    ∀ b d, b < (self.longitudinal_bins lib st Raster desired_percentiles BinWidth).1.length →
      (self.get_longitudinal_swath_profile lib st Raster desired_percentiles BinWidth
          mean_profile stale).2.1.getD b d
        = st.get_mean
            ((self.longitudinal_bins lib st Raster desired_percentiles BinWidth).2.getD b []) ∧
      (self.get_longitudinal_swath_profile lib st Raster desired_percentiles BinWidth
          mean_profile stale).2.2.1.getD b d
        = st.get_standard_deviation
            ((self.longitudinal_bins lib st Raster desired_percentiles BinWidth).2.getD b [])
            (mean_profile.getD b (stale b)) := by
  refine ⟨fun _ => rfl, rfl, ?_⟩
  intro b d hb
  exact forLoop_set_pair _
    (fun i => st.get_mean
      ((self.longitudinal_bins lib st Raster desired_percentiles BinWidth).2.getD i []))
    (fun i => st.get_standard_deviation
      ((self.longitudinal_bins lib st Raster desired_percentiles BinWidth).2.getD i [])
      (mean_profile.getD i (stale i)))
    _ _ (by simp) (by simp) b hb d

/-- C29. For a basin whose `NumberOfCells` is the number of its `BasinNodes`, the
count of data points is at most `NumberOfCells`, and equals it when the field is
not `NoDataValue` at any node of `BasinNodes`. -/
theorem CalculateNumDataPoints_le (retrieve_current_row_and_col : Nat → Nat × Nat)
    (self : LSDBasin) (Data : LSDRaster K)
    (hcells : self.NumberOfCells = self.BasinNodes.length) :
    self.CalculateNumDataPoints retrieve_current_row_and_col Data ≤ self.NumberOfCells ∧
    ((∀ node ∈ self.BasinNodes,
        Data.RasterData.get (retrieve_current_row_and_col node).1
          (retrieve_current_row_and_col node).2 ≠ Data.NoDataValue) →
      self.CalculateNumDataPoints retrieve_current_row_and_col Data = self.NumberOfCells) := by
  have h := forLoop_induct
    (fun k (count : Nat) => count ≤ k ∧
      ((∀ node ∈ self.BasinNodes,
        Data.RasterData.get (retrieve_current_row_and_col node).1
          (retrieve_current_row_and_col node).2 ≠ Data.NoDataValue) → count = k))
    self.BasinNodes.length
    (fun q count =>
      if Data.RasterData.get (retrieve_current_row_and_col (self.BasinNodes.getD q 0)).1
          (retrieve_current_row_and_col (self.BasinNodes.getD q 0)).2 ≠ Data.NoDataValue
      then count + 1 else count) 0
    ⟨le_refl 0, fun _ => rfl⟩
    (by
      intro q hq count hc
      obtain ⟨c1, c2⟩ := hc
      have hmem : self.BasinNodes.getD q 0 ∈ self.BasinNodes := by
        rw [List.getD_eq_getElem _ _ hq]
        exact List.getElem_mem hq
      constructor
      · dsimp only
        split_ifs <;> omega
      · intro hall
        dsimp only
        rw [if_pos (hall _ hmem), c2 hall])
  rw [hcells]
  exact h

end SwathProofs

theorem get_longitudinal_swath_profile_inputs_witness :
    (sampleSwath.get_longitudinal_swath_profile sampleLib sampleStats sampleSwathRaster [] 1 []
        (fun _ => 0)).2.1.getD 0 0 = 4 ∧
    (sampleSwath.get_longitudinal_swath_profile sampleLib sampleStats sampleSwathRaster [] 1 []
        (fun _ => 0)).2.2.1.getD 0 0 = 5 ∧
    sampleStats.get_standard_deviation [1, 7] 4 = 3 :=
  ⟨((get_longitudinal_swath_profile_inputs sampleLib sampleStats sampleSwath sampleSwathRaster
      [] 1 [] (fun _ => 0)).2.2 0 0 (by decide!)).1.trans (by decide!),
   ((get_longitudinal_swath_profile_inputs sampleLib sampleStats sampleSwath sampleSwathRaster
      [] 1 [] (fun _ => 0)).2.2 0 0 (by decide!)).2.trans (by decide!),
   by decide!⟩

theorem CalculateNumDataPoints_le_witness :
    LSDBasin.CalculateNumDataPoints (fun node => (node / 3, node % 3)) sampleBasin
      sampleSurface.toLSDRaster ≤ 3 :=
  (CalculateNumDataPoints_le (fun node => (node / 3, node % 3)) sampleBasin
    sampleSurface.toLSDRaster rfl).1

/-! ## The scans of `RasterTrimmer` run to their end -/

/-- When the loop condition bounds `a` above by `N`, `N - a` steps are enough
for `while (cond a) ++a;` to reach an `a` at which the condition fails. -/
theorem scan_up_ends (cond : Int → Bool) (N : Int) (hc : ∀ a, cond a = true → a < N)
    (fuel : Nat) (a : Int) (h : N - a ≤ (fuel : Int)) :
    cond (scan_up cond fuel a) = false := by
  induction fuel generalizing a with
  | zero =>
    unfold scan_up
    cases hca : cond a
    · rfl
    · have := hc a hca
      simp at h
      omega
  | succ n ih =>
    unfold scan_up
    cases hca : cond a
    · simp [hca]
    · simp only [if_true]
      exact ih (a + 1) (by push_cast at h; omega)

/-- When the loop condition bounds `a` below by `L`, `a - L` steps are enough
for `while (cond a) --a;` to reach an `a` at which the condition fails. -/
theorem scan_down_ends (cond : Int → Bool) (L : Int) (hc : ∀ a, cond a = true → L < a)
    (fuel : Nat) (a : Int) (h : a - L ≤ (fuel : Int)) :
    cond (scan_down cond fuel a) = false := by
  induction fuel generalizing a with
  | zero =>
    unfold scan_down
    cases hca : cond a
    · rfl
    · have := hc a hca
      simp at h
      omega
  | succ n ih =>
    unfold scan_down
    cases hca : cond a
    · simp [hca]
    · simp only [if_true]
      exact ih (a - 1) (by push_cast at h; omega)

/-- The column scans of `RasterTrimmer` end within the `NCols` steps given to
them: at the value they return the `while` condition is false. -/
theorem trim_scans_end {K : Type} (outside : Int → Int → Int) (self : LSDIndexRaster K)
    (row : Int) :
    ¬ (self.RasterData.read outside row
          (scan_up (fun a => decide (self.RasterData.read outside row a = self.NoDataValue
            ∧ a < (self.NCols : Int) - 1)) self.NCols 0) = self.NoDataValue
        ∧ scan_up (fun a => decide (self.RasterData.read outside row a = self.NoDataValue
            ∧ a < (self.NCols : Int) - 1)) self.NCols 0 < (self.NCols : Int) - 1) ∧
    ¬ (self.RasterData.read outside row
          (scan_down (fun a => decide (self.RasterData.read outside row a = self.NoDataValue
            ∧ a > 0)) self.NCols ((self.NCols : Int) - 1)) = self.NoDataValue
        ∧ scan_down (fun a => decide (self.RasterData.read outside row a = self.NoDataValue
            ∧ a > 0)) self.NCols ((self.NCols : Int) - 1) > 0) := by
  constructor
  · have h := scan_up_ends
      (fun a => decide (self.RasterData.read outside row a = self.NoDataValue
        ∧ a < (self.NCols : Int) - 1)) ((self.NCols : Int) - 1)
      (fun a ha => (of_decide_eq_true ha).2) self.NCols 0 (by omega)
    exact of_decide_eq_false h
  · have h := scan_down_ends
      (fun a => decide (self.RasterData.read outside row a = self.NoDataValue ∧ a > 0)) 0
      (fun a ha => (of_decide_eq_true ha).2) self.NCols ((self.NCols : Int) - 1) (by omega)
    exact of_decide_eq_false h

/-- The row scans of `RasterTrimmer` end within the `NRows` steps given to
them: at the value they return the `while` condition is false. -/
theorem trim_row_scans_end {K : Type} (outside : Int → Int → Int) (self : LSDIndexRaster K)
    (col : Int) :
    ¬ (self.RasterData.read outside
          (scan_up (fun a => decide (self.RasterData.read outside a col = self.NoDataValue
            ∧ a < (self.NRows : Int) - 1)) self.NRows 0) col = self.NoDataValue
        ∧ scan_up (fun a => decide (self.RasterData.read outside a col = self.NoDataValue
            ∧ a < (self.NRows : Int) - 1)) self.NRows 0 < (self.NRows : Int) - 1) ∧
    ¬ (self.RasterData.read outside
          (scan_down (fun a => decide (self.RasterData.read outside a col = self.NoDataValue
            ∧ a > 0)) self.NRows ((self.NRows : Int) - 1)) col = self.NoDataValue
        ∧ scan_down (fun a => decide (self.RasterData.read outside a col = self.NoDataValue
            ∧ a > 0)) self.NRows ((self.NRows : Int) - 1) > 0) := by
  constructor
  · have h := scan_up_ends
      (fun a => decide (self.RasterData.read outside a col = self.NoDataValue
        ∧ a < (self.NRows : Int) - 1)) ((self.NRows : Int) - 1)
      (fun a ha => (of_decide_eq_true ha).2) self.NRows 0 (by omega)
    exact of_decide_eq_false h
  · have h := scan_down_ends
      (fun a => decide (self.RasterData.read outside a col = self.NoDataValue ∧ a > 0)) 0
      (fun a ha => (of_decide_eq_true ha).2) self.NRows ((self.NRows : Int) - 1) (by omega)
    exact of_decide_eq_false h

/-! ## Quadrant shift: the two loops -/

/-- Two loops whose bodies agree at every index below the bound agree. -/
theorem forLoop_congr {σ : Type} (n : Nat) (f g : Nat → σ → σ)
    (h : ∀ i, i < n → ∀ s, f i s = g i s) (s : σ) : forLoop n f s = forLoop n g s := by
  induction n with
  | zero => rfl
  | succ n ih =>
    show f n (forLoop n f s) = g n (forLoop n g s)
    rw [ih (fun i hi => h i (Nat.lt_succ_of_lt hi)), h n (Nat.lt_succ_self n)]

/-- Writes to four different cells give the same array in either order. -/
theorem set_four_reorder {α : Type} (a : Array2D α) (i j QR QC : Nat) (hQR : 0 < QR)
    (hQC : 0 < QC) (v1 v2 v3 v4 : α) :
    (((a.set (i + QR) (j + QC) v4).set i (j + QC) v3).set (i + QR) j v2).set i j v1
      = (((a.set i j v1).set (i + QR) j v2).set i (j + QC) v3).set (i + QR) (j + QC) v4 := by
  simp only [Array2D.set]
  congr 1
  funext p q
  split_ifs <;> first | rfl | (exfalso; omega)

/-- C32. The loop of `shift_spectrum_inv` makes the four assignments of
`shift_spectrum` in another order, to four different cells: for every `Ly`, `Lx`,
input arrays and output arrays the two functions return the same pair of arrays.
Hence, for even `Ly` and `Lx`, `shift_spectrum` applied twice gives back the real
and the imaginary input at every cell of the `Ly x Lx` grid. -/
theorem shift_spectrum_inv_eq_shift_spectrum {α : Type} (Ly Lx : Nat)
    (re im o1 o2 : Array2D α) :
    shift_spectrum_inv Ly Lx re im o1 o2 = shift_spectrum Ly Lx re im o1 o2 ∧
    (Ly % 2 = 0 → Lx % 2 = 0 → ∀ d1 d2 : Array2D α, ∀ i j, i < Ly → j < Lx →
      (shift_spectrum Ly Lx (shift_spectrum Ly Lx re im o1 o2).1
          (shift_spectrum Ly Lx re im o1 o2).2 d1 d2).1.get i j = re.get i j ∧
      (shift_spectrum Ly Lx (shift_spectrum Ly Lx re im o1 o2).1
          (shift_spectrum Ly Lx re im o1 o2).2 d1 d2).2.get i j = im.get i j) := by
  constructor
  · unfold shift_spectrum_inv shift_spectrum
    refine forLoop_congr _ _ _ (fun i hi s => ?_) _
    refine forLoop_congr _ _ _ (fun j hj s => ?_) _
    have hQR : 0 < Ly / 2 := by omega
    have hQC : 0 < Lx / 2 := by omega
    simp only
    rw [set_four_reorder s.1 i j _ _ hQR hQC, set_four_reorder s.2 i j _ _ hQR hQC]
  · intro hLy hLx d1 d2 i j hi hj
    have hi2 : i < 2 * (Ly / 2) := by omega
    have hj2 : j < 2 * (Lx / 2) := by omega
    rw [shift_spectrum_real_get Ly Lx _ _ d1 d2 i j hi2 hj2,
      shift_spectrum_imag_get Ly Lx _ _ d1 d2 i j hi2 hj2]
    unfold quadSwap
    have hp : (if i < Ly / 2 then i + Ly / 2 else i - Ly / 2) < 2 * (Ly / 2) := by
      split_ifs <;> omega
    have hq : (if j < Lx / 2 then j + Lx / 2 else j - Lx / 2) < 2 * (Lx / 2) := by
      split_ifs <;> omega
    rw [shift_spectrum_real_get Ly Lx re im o1 o2 _ _ hp hq,
      shift_spectrum_imag_get Ly Lx re im o1 o2 _ _ hp hq]
    unfold quadSwap
    have ei : (if (if i < Ly / 2 then i + Ly / 2 else i - Ly / 2) < Ly / 2
        then (if i < Ly / 2 then i + Ly / 2 else i - Ly / 2) + Ly / 2
        else (if i < Ly / 2 then i + Ly / 2 else i - Ly / 2) - Ly / 2) = i := by
      split_ifs <;> omega
    have ej : (if (if j < Lx / 2 then j + Lx / 2 else j - Lx / 2) < Lx / 2
        then (if j < Lx / 2 then j + Lx / 2 else j - Lx / 2) + Lx / 2
        else (if j < Lx / 2 then j + Lx / 2 else j - Lx / 2) - Lx / 2) = j := by
      split_ifs <;> omega
    rw [ei, ej]
    exact ⟨rfl, rfl⟩

theorem shift_spectrum_inv_eq_shift_spectrum_witness :
    shift_spectrum_inv 2 4 sampleCells sampleCells2 sampleCells sampleCells
      = shift_spectrum 2 4 sampleCells sampleCells2 sampleCells sampleCells ∧
    (shift_spectrum 2 4 (shift_spectrum 2 4 sampleCells sampleCells2 sampleCells sampleCells).1
      (shift_spectrum 2 4 sampleCells sampleCells2 sampleCells sampleCells).2
      sampleCells sampleCells).1.get 1 3 = 13 ∧
    (shift_spectrum 2 4 (shift_spectrum 2 4 sampleCells sampleCells2 sampleCells sampleCells).1
      (shift_spectrum 2 4 sampleCells sampleCells2 sampleCells sampleCells).2
      sampleCells sampleCells).2.get 1 3 = 113 :=
  ⟨(shift_spectrum_inv_eq_shift_spectrum 2 4 sampleCells sampleCells2 sampleCells sampleCells).1,
    ((shift_spectrum_inv_eq_shift_spectrum 2 4 sampleCells sampleCells2 sampleCells
      sampleCells).2 (by decide) (by decide) sampleCells sampleCells 1 3 (by decide)
      (by decide)).1,
    ((shift_spectrum_inv_eq_shift_spectrum 2 4 sampleCells sampleCells2 sampleCells
      sampleCells).2 (by decide) (by decide) sampleCells sampleCells 1 3 (by decide)
      (by decide)).2⟩

/-! ## Filters: no frequency is amplified -/

section WeightBounds

variable {K : Type} [LinearOrderedField K]

/-- A cell multiplied by a weight in `[0, 1]`: the squared magnitude does not
grow, and the ratio of the imaginary to the real part is kept when the weight
is not 0. -/
theorem weighted_cell_bounds (w re im : K) (h0 : 0 ≤ w) (h1 : w ≤ 1) :
    (w * re) * (w * re) + (w * im) * (w * im) ≤ re * re + im * im ∧
    (w ≠ 0 → (w * im) / (w * re) = im / re) := by
  constructor
  · have hw : w * w ≤ 1 := by nlinarith
    have hs : 0 ≤ re * re + im * im := by nlinarith [mul_self_nonneg re, mul_self_nonneg im]
    have e : (w * re) * (w * re) + (w * im) * (w * im) = (w * w) * (re * re + im * im) := by
      ring
    rw [e]
    nlinarith
  · intro hw
    exact mul_div_mul_left im re hw

/-- The argument `-(f - c)*(f - c)/(2*sigma*sigma)` of `exp` in the filters is
never positive. -/
theorem filter_exponent_nonpos (f c sigma : K) :
    -(f - c) * (f - c) / (2 * sigma * sigma) ≤ 0 := by
  apply div_nonpos_of_nonpos_of_nonneg
  · nlinarith [mul_self_nonneg (f - c)]
  · nlinarith [mul_self_nonneg sigma]

/-- The low-pass weight lies in `[0, 1]`. -/
theorem lowpass_weight_unit (lib : Extern K) (f1 f2 f : K)
    (hexp0 : ∀ x : K, 0 ≤ lib.exp x) (hexp1 : ∀ x : K, x ≤ 0 → lib.exp x ≤ 1) :
    0 ≤ lowpass_weight lib f1 f2 f ∧ lowpass_weight lib f1 f2 f ≤ 1 := by
  unfold lowpass_weight
  split_ifs
  · exact ⟨zero_le_one, le_refl 1⟩
  · exact ⟨hexp0 _, hexp1 _ (filter_exponent_nonpos _ _ _)⟩
  · exact ⟨le_refl 0, zero_le_one⟩

/-- The high-pass weight lies in `[0, 1]`. -/
theorem highpass_weight_unit (lib : Extern K) (f1 f2 f : K)
    (hexp0 : ∀ x : K, 0 ≤ lib.exp x) (hexp1 : ∀ x : K, x ≤ 0 → lib.exp x ≤ 1) :
    0 ≤ highpass_weight lib f1 f2 f ∧ highpass_weight lib f1 f2 f ≤ 1 := by
  unfold highpass_weight
  split_ifs
  · exact ⟨zero_le_one, le_refl 1⟩
  · exact ⟨hexp0 _, hexp1 _ (filter_exponent_nonpos _ _ _)⟩
  · exact ⟨le_refl 0, zero_le_one⟩

/-- The band-pass weight lies in `[0, 1]`. -/
theorem bandpass_weight_unit (lib : Extern K) (c sigma f : K)
    (hexp0 : ∀ x : K, 0 ≤ lib.exp x) (hexp1 : ∀ x : K, x ≤ 0 → lib.exp x ≤ 1) :
    0 ≤ gaussian_weight lib c sigma f ∧ gaussian_weight lib c sigma f ≤ 1 := by
  unfold gaussian_weight
  refine ⟨hexp0 _, hexp1 _ ?_⟩
  apply div_nonpos_of_nonpos_of_nonneg
  · nlinarith [sq_nonneg (f - c)]
  · nlinarith [sq_nonneg sigma]

/-- C34. For `f1 < f2`, with `sqrt(x*x) = x` for `x >= 0`, `exp` non-negative and
`exp(x) <= 1` for `x <= 0`: the divisors `2*sigma*sigma` of the three filters
are positive, and at every cell of the `Ly x Lx` spectrum `lowpass_filter`,
`highpass_filter` and `bandpass_filter` multiply the real and the imaginary part
by one weight in `[0, 1]`; hence `filtered_real^2 + filtered_imag^2 <=
raw_real^2 + raw_imag^2`, and `filtered_imag/filtered_real = raw_imag/raw_real`
wherever the weight is not 0. -/
theorem filters_do_not_amplify (lib : Extern K) (self : LSDRasterSpectral K)
    (re im o1 o2 : Array2D K) (f1 f2 : K) (h12 : f1 < f2)
    (hsqrt : ∀ x : K, 0 ≤ x → lib.sqrt (x * x) = x)
    (hexp0 : ∀ x : K, 0 ≤ lib.exp x) (hexp1 : ∀ x : K, x ≤ 0 → lib.exp x ≤ 1) :
    0 < 2 * (lib.sqrt ((f2 - f1) * (f2 - f1)) / 3) * (lib.sqrt ((f2 - f1) * (f2 - f1)) / 3) ∧
    0 < 2 * (lib.sqrt ((f2 - f1) * (f2 - f1)) / 6) * (lib.sqrt ((f2 - f1) * (f2 - f1)) / 6) ∧
    ∀ i j, i < self.Ly → j < self.Lx →
      (∃ w : K, 0 ≤ w ∧ w ≤ 1 ∧
        (lowpass_filter lib self re im o1 o2 f1 f2).1.get i j = w * re.get i j ∧
        (lowpass_filter lib self re im o1 o2 f1 f2).2.get i j = w * im.get i j ∧
        (lowpass_filter lib self re im o1 o2 f1 f2).1.get i j
            * (lowpass_filter lib self re im o1 o2 f1 f2).1.get i j
          + (lowpass_filter lib self re im o1 o2 f1 f2).2.get i j
            * (lowpass_filter lib self re im o1 o2 f1 f2).2.get i j
          ≤ re.get i j * re.get i j + im.get i j * im.get i j ∧
        (w ≠ 0 → (lowpass_filter lib self re im o1 o2 f1 f2).2.get i j
            / (lowpass_filter lib self re im o1 o2 f1 f2).1.get i j
          = im.get i j / re.get i j)) ∧
      (∃ w : K, 0 ≤ w ∧ w ≤ 1 ∧
        (highpass_filter lib self re im o1 o2 f1 f2).1.get i j = w * re.get i j ∧
        (highpass_filter lib self re im o1 o2 f1 f2).2.get i j = w * im.get i j ∧
        (highpass_filter lib self re im o1 o2 f1 f2).1.get i j
            * (highpass_filter lib self re im o1 o2 f1 f2).1.get i j
          + (highpass_filter lib self re im o1 o2 f1 f2).2.get i j
            * (highpass_filter lib self re im o1 o2 f1 f2).2.get i j
          ≤ re.get i j * re.get i j + im.get i j * im.get i j ∧
        (w ≠ 0 → (highpass_filter lib self re im o1 o2 f1 f2).2.get i j
            / (highpass_filter lib self re im o1 o2 f1 f2).1.get i j
          = im.get i j / re.get i j)) ∧
      (∃ w : K, 0 ≤ w ∧ w ≤ 1 ∧
        (bandpass_filter lib self re im o1 o2 f1 f2).1.get i j = w * re.get i j ∧
        (bandpass_filter lib self re im o1 o2 f1 f2).2.get i j = w * im.get i j ∧
        (bandpass_filter lib self re im o1 o2 f1 f2).1.get i j
            * (bandpass_filter lib self re im o1 o2 f1 f2).1.get i j
          + (bandpass_filter lib self re im o1 o2 f1 f2).2.get i j
            * (bandpass_filter lib self re im o1 o2 f1 f2).2.get i j
          ≤ re.get i j * re.get i j + im.get i j * im.get i j ∧
        (w ≠ 0 → (bandpass_filter lib self re im o1 o2 f1 f2).2.get i j
            / (bandpass_filter lib self re im o1 o2 f1 f2).1.get i j
          = im.get i j / re.get i j)) := by
  have hd : 0 < f2 - f1 := by linarith
  have hs : lib.sqrt ((f2 - f1) * (f2 - f1)) = f2 - f1 := hsqrt _ hd.le
  refine ⟨?_, ?_, ?_⟩
  · rw [hs]
    positivity
  · rw [hs]
    positivity
  · intro i j hi hj
    refine ⟨?_, ?_, ?_⟩
    · obtain ⟨c1, c2⟩ := lowpass_filter_cells lib self re im o1 o2 f1 f2 i j hi hj
      obtain ⟨w0, w1⟩ := lowpass_weight_unit lib f1 f2 (radial_frequency lib self i j)
        hexp0 hexp1
      refine ⟨_, w0, w1, c1, c2, ?_, ?_⟩
      · rw [c1, c2]
        exact (weighted_cell_bounds _ _ _ w0 w1).1
      · rw [c1, c2]
        exact (weighted_cell_bounds _ _ _ w0 w1).2
    · obtain ⟨c1, c2⟩ := highpass_filter_cells lib self re im o1 o2 f1 f2 i j hi hj
      obtain ⟨w0, w1⟩ := highpass_weight_unit lib f1 f2 (radial_frequency lib self i j)
        hexp0 hexp1
      refine ⟨_, w0, w1, c1, c2, ?_, ?_⟩
      · rw [c1, c2]
        exact (weighted_cell_bounds _ _ _ w0 w1).1
      · rw [c1, c2]
        exact (weighted_cell_bounds _ _ _ w0 w1).2
    · obtain ⟨c1, c2⟩ := bandpass_filter_cells lib self re im o1 o2 f1 f2 i j hi hj
      obtain ⟨w0, w1⟩ := bandpass_weight_unit lib ((f1 + f2) / 2)
        (lib.sqrt ((f2 - f1) * (f2 - f1)) / 6) (radial_frequency lib self i j) hexp0 hexp1
      refine ⟨_, w0, w1, c1, c2, ?_, ?_⟩
      · rw [c1, c2]
        exact (weighted_cell_bounds _ _ _ w0 w1).1
      · rw [c1, c2]
        exact (weighted_cell_bounds _ _ _ w0 w1).2

end WeightBounds

theorem filters_do_not_amplify_witness :
    (lowpass_filter sampleRealLib sampleRealSurface sampleRealSurface.RasterData
        sampleRealSurface.P_DFT sampleRealSurface.P_DFT sampleRealSurface.P_DFT 1 2).1.get 1 2
      * (lowpass_filter sampleRealLib sampleRealSurface sampleRealSurface.RasterData
        sampleRealSurface.P_DFT sampleRealSurface.P_DFT sampleRealSurface.P_DFT 1 2).1.get 1 2
    + (lowpass_filter sampleRealLib sampleRealSurface sampleRealSurface.RasterData
        sampleRealSurface.P_DFT sampleRealSurface.P_DFT sampleRealSurface.P_DFT 1 2).2.get 1 2
      * (lowpass_filter sampleRealLib sampleRealSurface sampleRealSurface.RasterData
        sampleRealSurface.P_DFT sampleRealSurface.P_DFT sampleRealSurface.P_DFT 1 2).2.get 1 2
    ≤ sampleRealSurface.RasterData.get 1 2 * sampleRealSurface.RasterData.get 1 2
      + sampleRealSurface.P_DFT.get 1 2 * sampleRealSurface.P_DFT.get 1 2 :=
  let ⟨_, _, _, _, _, h, _⟩ := ((filters_do_not_amplify sampleRealLib sampleRealSurface
    sampleRealSurface.RasterData sampleRealSurface.P_DFT sampleRealSurface.P_DFT
    sampleRealSurface.P_DFT 1 2 one_lt_two (fun _ hx => Real.sqrt_mul_self hx)
    (fun x => Real.exp_nonneg x) (fun _ hx => Real.exp_le_one_iff.mpr hx)).2.2 1 2
    (by decide) (by decide)).1
  h

/-! ## Radially averaged spectrum: the indices -/

section RadialIndexProofs

variable {K : Type} [LinearOrderedField K]

/-- In the grouping loop the vectors keep their length, and after `i` passes
`pointer` is the number of changes of value counted so far. -/
theorem group_freqs_pointer (past_end : K) (n : Nat) (R P : List K) (i : Nat) :
    (group_freqs past_end i n R P).1.length = n ∧
    (group_freqs past_end i n R P).2.1.length = n ∧
    (group_freqs past_end i n R P).2.2.2 = count_freqs past_end i R := by
  induction i with
  | zero => exact ⟨by simp [group_freqs, forLoop], by simp [group_freqs, forLoop], rfl⟩
  | succ i ih =>
    obtain ⟨h1, h2, h3⟩ := ih
    have e : group_freqs past_end (i + 1) n R P =
        (if R.getD i 0 ≠ R.getD (i + 1) past_end then
          (((group_freqs past_end i n R P).1.set (group_freqs past_end i n R P).2.2.2
              (R.getD i 0)),
            (((group_freqs past_end i n R P).2.1.set (group_freqs past_end i n R P).2.2.2
              ((group_freqs past_end i n R P).2.1.getD (group_freqs past_end i n R P).2.2.2 0
                + P.getD i 0)).set (group_freqs past_end i n R P).2.2.2
              ((((group_freqs past_end i n R P).2.1.set (group_freqs past_end i n R P).2.2.2
                ((group_freqs past_end i n R P).2.1.getD (group_freqs past_end i n R P).2.2.2 0
                  + P.getD i 0)).getD (group_freqs past_end i n R P).2.2.2 0)
                / (((group_freqs past_end i n R P).2.2.1 + 1 : Nat) : K))),
            0, (group_freqs past_end i n R P).2.2.2 + 1)
        else
          (((group_freqs past_end i n R P).1.set (group_freqs past_end i n R P).2.2.2
              (R.getD i 0)),
            ((group_freqs past_end i n R P).2.1.set (group_freqs past_end i n R P).2.2.2
              ((group_freqs past_end i n R P).2.1.getD (group_freqs past_end i n R P).2.2.2 0
                + P.getD i 0)),
            (group_freqs past_end i n R P).2.2.1 + 1, (group_freqs past_end i n R P).2.2.2)) := rfl
    have c : count_freqs past_end (i + 1) R =
        (if R.getD i 0 ≠ R.getD (i + 1) past_end then count_freqs past_end i R + 1
          else count_freqs past_end i R) := rfl
    rw [e, c]
    split_ifs
    · exact ⟨by simp [h1], by simp [h2], by simp [h3]⟩
    · exact ⟨by simp [h1], by simp [h2], h3⟩

/-- C35. For `Ly >= 1` the sorted vector `RadialFrequencyRaw` has `size = Ly*(Lx/2+1)
> 0` elements, and the pass `i = size - 1` of the counting loop and of the
grouping loop reads `RadialFrequencyRaw[i+1]` at `i + 1 = size`, which is not an
index of the vector. When the value found there equals the last element, the
grouping loop enters that pass with `pointer` equal to `n_freqs`, the length of
`RadialFrequency_grouped` and `RadialPSD_average`, so its writes at `[pointer]`
are outside these vectors too. -/
theorem calculate_radial_PSD_index_past_end (lib : Extern K) (self : LSDRasterSpectral K)
    (hLy : 1 ≤ self.Ly) :
    (matlab_float_sort (radial_PSD_raw lib self).1).1.length = self.Ly * (self.Lx / 2 + 1) ∧
    self.Ly * (self.Lx / 2 + 1) - 1 < self.Ly * (self.Lx / 2 + 1) ∧
    (matlab_float_sort (radial_PSD_raw lib self).1).1[self.Ly * (self.Lx / 2 + 1) - 1 + 1]?
      = none ∧
    (lib.past_end = (matlab_float_sort (radial_PSD_raw lib self).1).1.getD
        (self.Ly * (self.Lx / 2 + 1) - 1) 0 →
      (group_freqs lib.past_end (self.Ly * (self.Lx / 2 + 1) - 1)
        (count_freqs lib.past_end (self.Ly * (self.Lx / 2 + 1))
          (matlab_float_sort (radial_PSD_raw lib self).1).1)
        (matlab_float_sort (radial_PSD_raw lib self).1).1
        (matlab_float_reorder (radial_PSD_raw lib self).2.1
          (matlab_float_sort (radial_PSD_raw lib self).1).2)).2.2.2
        = (group_freqs lib.past_end (self.Ly * (self.Lx / 2 + 1) - 1)
          (count_freqs lib.past_end (self.Ly * (self.Lx / 2 + 1))
            (matlab_float_sort (radial_PSD_raw lib self).1).1)
          (matlab_float_sort (radial_PSD_raw lib self).1).1
          (matlab_float_reorder (radial_PSD_raw lib self).2.1
            (matlab_float_sort (radial_PSD_raw lib self).1).2)).1.length) := by
  have hlen : (matlab_float_sort (radial_PSD_raw lib self).1).1.length
      = self.Ly * (self.Lx / 2 + 1) := by
    rw [matlab_float_sort_length, radial_PSD_raw_length]
  have hpos : 0 < self.Ly * (self.Lx / 2 + 1) := Nat.mul_pos hLy (Nat.succ_pos _)
  refine ⟨hlen, by omega, ?_, ?_⟩
  · rw [List.getElem?_eq_none]
    omega
  · intro hpe
    obtain ⟨n, hn⟩ : ∃ n, self.Ly * (self.Lx / 2 + 1) = n + 1 := ⟨_, (Nat.succ_pred_eq_of_pos hpos).symm⟩
    rw [hn] at hlen hpe ⊢
    simp only [Nat.add_sub_cancel] at hpe ⊢
    obtain ⟨h1, _, h3⟩ := group_freqs_pointer lib.past_end
      (count_freqs lib.past_end (n + 1) (matlab_float_sort (radial_PSD_raw lib self).1).1)
      (matlab_float_sort (radial_PSD_raw lib self).1).1
      (matlab_float_reorder (radial_PSD_raw lib self).2.1
        (matlab_float_sort (radial_PSD_raw lib self).1).2) n
    rw [h1, h3]
    have c : count_freqs lib.past_end (n + 1) (matlab_float_sort (radial_PSD_raw lib self).1).1 =
        (if (matlab_float_sort (radial_PSD_raw lib self).1).1.getD n 0
            ≠ (matlab_float_sort (radial_PSD_raw lib self).1).1.getD (n + 1) lib.past_end
          then count_freqs lib.past_end n (matlab_float_sort (radial_PSD_raw lib self).1).1 + 1
          else count_freqs lib.past_end n (matlab_float_sort (radial_PSD_raw lib self).1).1) :=
      rfl
    rw [c, List.getD_eq_default _ _ (le_of_eq hlen), if_neg (not_not.mpr hpe.symm)]

end RadialIndexProofs

theorem calculate_radial_PSD_index_past_end_witness :
    (matlab_float_sort (radial_PSD_raw sampleLibHalf sampleSpectrum).1).1.length = 4 ∧
    (matlab_float_sort (radial_PSD_raw sampleLibHalf sampleSpectrum).1).1[4]? = none ∧
    (group_freqs sampleLibHalf.past_end 3
      (count_freqs sampleLibHalf.past_end 4
        (matlab_float_sort (radial_PSD_raw sampleLibHalf sampleSpectrum).1).1)
      (matlab_float_sort (radial_PSD_raw sampleLibHalf sampleSpectrum).1).1
      (matlab_float_reorder (radial_PSD_raw sampleLibHalf sampleSpectrum).2.1
        (matlab_float_sort (radial_PSD_raw sampleLibHalf sampleSpectrum).1).2)).2.2.2
      = (group_freqs sampleLibHalf.past_end 3
        (count_freqs sampleLibHalf.past_end 4
          (matlab_float_sort (radial_PSD_raw sampleLibHalf sampleSpectrum).1).1)
        (matlab_float_sort (radial_PSD_raw sampleLibHalf sampleSpectrum).1).1
        (matlab_float_reorder (radial_PSD_raw sampleLibHalf sampleSpectrum).2.1
          (matlab_float_sort (radial_PSD_raw sampleLibHalf sampleSpectrum).1).2)).1.length :=
  have h := calculate_radial_PSD_index_past_end sampleLibHalf sampleSpectrum (by decide)
  ⟨h.1, h.2.2.1, h.2.2.2 (by decide!)⟩

/-! ## Trimming: the first row -/

/-- The upward scan does not pass an index at which its condition fails. -/
theorem scan_up_le_stop (cond : Int → Bool) (c : Int) (hc : cond c = false)
    (fuel : Nat) (a : Int) (h : a ≤ c) : a ≤ scan_up cond fuel a ∧ scan_up cond fuel a ≤ c := by
  induction fuel generalizing a with
  | zero => exact ⟨le_refl a, h⟩
  | succ n ih =>
    unfold scan_up
    cases hca : cond a
    · simp only [Bool.false_eq_true, if_false]
      exact ⟨le_refl a, h⟩
    · simp only [if_true]
      have hne : a ≠ c := fun e => by rw [e, hc] at hca; exact Bool.noConfusion hca
      have := ih (a + 1) (by omega)
      exact ⟨by omega, this.2⟩

/-- The downward scan does not pass an index at which its condition fails. -/
theorem scan_down_ge_stop (cond : Int → Bool) (c : Int) (hc : cond c = false)
    (fuel : Nat) (a : Int) (h : c ≤ a) :
    c ≤ scan_down cond fuel a ∧ scan_down cond fuel a ≤ a := by
  induction fuel generalizing a with
  | zero => exact ⟨h, le_refl a⟩
  | succ n ih =>
    unfold scan_down
    cases hca : cond a
    · simp only [Bool.false_eq_true, if_false]
      exact ⟨h, le_refl a⟩
    · simp only [if_true]
      have hne : a ≠ c := fun e => by rw [e, hc] at hca; exact Bool.noConfusion hca
      have := ih (a - 1) (by omega)
      exact ⟨this.1, by omega⟩

/-- The upward scan never ends below its start. -/
theorem scan_up_ge (cond : Int → Bool) (fuel : Nat) (a : Int) : a ≤ scan_up cond fuel a := by
  induction fuel generalizing a with
  | zero => exact le_refl a
  | succ n ih =>
    unfold scan_up
    split_ifs
    · have := ih (a + 1)
      omega
    · exact le_refl a

/-- With a data cell in row 0, `min_row` is 0, `max_row` is not below it, and
`min_col <= max_col`. -/
theorem trim_bounds_of_first_row {K : Type} (outside : Int → Int → Int)
    (self : LSDIndexRaster K)
    (hd1 : self.RasterData.dim1 = self.NRows) (hd2 : self.RasterData.dim2 = self.NCols)
    (h0 : 0 < self.NRows) (c : Nat) (hc : c < self.NCols)
    (hdata : self.RasterData.get 0 c ≠ self.NoDataValue) :
    self.trim_min_row outside = 0 ∧ 0 ≤ self.trim_max_row outside ∧
    0 ≤ self.trim_min_col outside ∧
    self.trim_min_col outside ≤ (c : Int) ∧ (c : Int) ≤ self.trim_max_col outside := by
  have hread : self.RasterData.read outside 0 (c : Int) ≠ self.NoDataValue := by
    rw [Array2D_read_inside _ _ _ _ (le_refl 0) (by rw [hd1]; exact_mod_cast h0)
      (Int.natCast_nonneg c) (by rw [hd2]; exact_mod_cast hc)]
    simpa using hdata
  refine ⟨?_, ?_, ?_, ?_, ?_⟩
  · unfold LSDIndexRaster.trim_min_row
    have h := forLoop_induct (fun k (m : Int) => 0 ≤ m ∧ (c < k → m = 0)) self.NCols
      (fun col min_row =>
        let a := scan_up (fun a => decide (self.RasterData.read outside a col = self.NoDataValue
          ∧ a < (self.NRows : Int) - 1)) self.NRows 0
        if min_row > a then a else min_row) 100000
      ⟨by norm_num, fun h => absurd h (Nat.not_lt_zero c)⟩
      (by
        intro k _ m hm
        have ha := scan_up_ge (fun a => decide (self.RasterData.read outside a k
          = self.NoDataValue ∧ a < (self.NRows : Int) - 1)) self.NRows 0
        dsimp only
        constructor
        · split_ifs
          · exact ha
          · exact hm.1
        · intro hck
          by_cases hk : c = k
          · subst hk
            have hs := scan_up_le_stop (fun a => decide (self.RasterData.read outside a c
              = self.NoDataValue ∧ a < (self.NRows : Int) - 1)) 0
              (by simp [hread]) self.NRows 0 (le_refl 0)
            split_ifs with hgt
            · omega
            · have := hm.1
              omega
          · have hm0 := hm.2 (by omega)
            split_ifs with hgt
            · omega
            · exact hm0)
    exact h.2 hc
  · unfold LSDIndexRaster.trim_max_row
    refine forLoop_preserves (fun (m : Int) => 0 ≤ m) _ _ ?_ _ (le_refl 0)
    intro i m hm
    dsimp only
    split_ifs with hlt
    · omega
    · exact hm
  · unfold LSDIndexRaster.trim_min_col
    refine forLoop_preserves (fun (m : Int) => 0 ≤ m) _ _ ?_ _ (by norm_num)
    intro i m hm
    have ha := scan_up_ge (fun a => decide (self.RasterData.read outside i a
      = self.NoDataValue ∧ a < (self.NCols : Int) - 1)) self.NCols 0
    dsimp only
    split_ifs
    · exact ha
    · exact hm
  · unfold LSDIndexRaster.trim_min_col
    have h := forLoop_induct (fun k (m : Int) => 0 < k → m ≤ (c : Int)) self.NRows
      (fun row min_col =>
        let a := scan_up (fun a => decide (self.RasterData.read outside row a = self.NoDataValue
          ∧ a < (self.NCols : Int) - 1)) self.NCols 0
        if min_col > a then a else min_col) 100000
      (fun h => absurd h (Nat.lt_irrefl 0))
      (by
        intro k _ m hm _
        dsimp only
        rcases Nat.eq_zero_or_pos k with hk | hk
        · subst hk
          have hs := scan_up_le_stop (fun a => decide (self.RasterData.read outside
            ((0 : Nat) : Int) a = self.NoDataValue ∧ a < (self.NCols : Int) - 1)) (c : Int)
            (by simpa using fun h => absurd h hread) self.NCols 0 (Int.natCast_nonneg c)
          split_ifs with hgt
          · exact hs.2
          · omega
        · have := hm hk
          split_ifs with hgt
          · omega
          · exact this)
    exact h h0
  · unfold LSDIndexRaster.trim_max_col
    have h := forLoop_induct (fun k (m : Int) => 0 < k → (c : Int) ≤ m) self.NRows
      (fun row max_col =>
        let a := scan_down (fun a => decide (self.RasterData.read outside row a
          = self.NoDataValue ∧ a > 0)) self.NCols ((self.NCols : Int) - 1)
        if max_col < a then a else max_col) 0
      (fun h => absurd h (Nat.lt_irrefl 0))
      (by
        intro k _ m hm _
        dsimp only
        rcases Nat.eq_zero_or_pos k with hk | hk
        · subst hk
          have hs := scan_down_ge_stop (fun a => decide (self.RasterData.read outside
            ((0 : Nat) : Int) a = self.NoDataValue ∧ a > 0)) (c : Int)
            (by simpa using fun h => absurd h hread) self.NCols ((self.NCols : Int) - 1)
            (by omega)
          split_ifs with hgt
          · exact hs.1
          · omega
        · have := hm hk
          split_ifs with hgt
          · omega
          · exact this)
    exact h h0

section TrimBounds

variable {K : Type} [LinearOrderedField K]

/-- C36. For every raster whose array has the stated dimensions and that has a
data cell in row 0, `RasterTrimmer` returns a raster with at least one row and
one column, and the first pass of its copy loop runs with `row = min_row - 1 =
-1`: the reads `RasterData[-1][col]` are outside the array, and row 0 of the
result holds whatever lies there. -/
theorem RasterTrimmer_reads_before_first_row (outside : Int → Int → Int)
    (self : LSDIndexRaster K)
    (hd1 : self.RasterData.dim1 = self.NRows) (hd2 : self.RasterData.dim2 = self.NCols)
    (h0 : 0 < self.NRows) (c : Nat) (hc : c < self.NCols)
    (hdata : self.RasterData.get 0 c ≠ self.NoDataValue) :
    self.trim_min_row outside - 1 = -1 ∧
    ∃ r, self.RasterTrimmer outside = some r ∧ 0 < r.NRows ∧ 0 < r.NCols ∧
      ∀ q, q < r.NCols →
        r.RasterData.get 0 q = outside (-1) (self.trim_min_col outside - 1 + (q : Int)) := by
  obtain ⟨b1, b2, b3, b4, b5⟩ := trim_bounds_of_first_row outside self hd1 hd2 h0 c hc hdata
  obtain ⟨c1, c2, c3⟩ := trim_copy_cells outside self (self.trim_min_row outside)
    (self.trim_max_row outside) (self.trim_min_col outside) (self.trim_max_col outside)
    (Array2D.filled (self.trim_max_row outside - self.trim_min_row outside + 1).toNat
      (self.trim_max_col outside - self.trim_min_col outside + 1).toNat self.NoDataValue)
  have e1 : (self.trim_max_row outside - (self.trim_min_row outside - 1)).toNat
      = (self.trim_max_row outside - self.trim_min_row outside + 1).toNat := by
    congr 1
    ring
  have e2 : (self.trim_max_col outside - (self.trim_min_col outside - 1)).toNat
      = (self.trim_max_col outside - self.trim_min_col outside + 1).toNat := by
    congr 1
    ring
  have c1' : _ = (self.trim_max_row outside - self.trim_min_row outside + 1).toNat := c1
  have c2' : _ = (self.trim_max_col outside - self.trim_min_col outside + 1).toNat := c2
  refine ⟨by omega, ?_⟩
  unfold LSDIndexRaster.RasterTrimmer LSDIndexRaster.create
  dsimp only
  rw [if_neg (not_not.mpr c1'), if_neg (not_not.mpr c2')]
  refine ⟨_, rfl, ?_, ?_, ?_⟩
  · show 0 < (self.trim_max_row outside - self.trim_min_row outside + 1).toNat
    omega
  · show 0 < (self.trim_max_col outside - self.trim_min_col outside + 1).toNat
    omega
  · intro q hq
    have hq' : q < (self.trim_max_col outside - self.trim_min_col outside + 1).toNat := hq
    have h := c3 0 q (by omega) (e2 ▸ hq')
    refine h.trans ?_
    unfold Array2D.read
    rw [if_neg (by omega)]
    congr 1
    omega

end TrimBounds

theorem RasterTrimmer_reads_before_first_row_witness :
    ∃ r, sampleCornerRaster.RasterTrimmer (fun _ _ => 7) = some r ∧ 0 < r.NRows ∧
      0 < r.NCols ∧ r.RasterData.get 0 0 = 7 :=
  let ⟨r, h, hr, hc, hcell⟩ := (RasterTrimmer_reads_before_first_row (fun _ _ => 7)
    sampleCornerRaster rfl rfl (by decide) 0 (by decide) (by decide)).2
  ⟨r, h, hr, hc, hcell 0 hc⟩

/-! ## Resampling: the source indices -/

section ResampleBounds

variable {K : Type} [LinearOrderedField K] [FloorRing K]

/-- C37. For `OutputResolution >= DataResolution > 0`, with `int(x)` rounding
non-negative `x` down, every output cell `(i, j)` of `Resample` (`i` below the
new number of rows, `j` below the new number of columns) has source indices
`centre_i = floor(i*r + r/2)` and `centre_j = floor(j*r + r/2)`,
`r = OutputResolution/DataResolution`, with `0 <= centre_i < NRows` and
`0 <= centre_j < NCols`; and, the array having the stated dimensions, `Resample`
returns the same raster whatever lies outside the array. -/
theorem Resample_reads_inside (lib : Extern K) (self : LSDIndexRaster K)
    (OutputResolution : K) (hto : ∀ x : K, 0 ≤ x → lib.to_int x = ⌊x⌋)
    (hres : 0 < self.DataResolution) (hge : self.DataResolution ≤ OutputResolution)
    (hd1 : self.RasterData.dim1 = self.NRows) (hd2 : self.RasterData.dim2 = self.NCols) :
    (∀ i j : Nat,
      i < (lib.to_int ((self.NRows : K) * self.DataResolution / OutputResolution)).toNat →
      j < (lib.to_int ((self.NCols : K) * self.DataResolution / OutputResolution)).toNat →
      lib.to_int (((i : K) * (OutputResolution / self.DataResolution))
          + (OutputResolution / self.DataResolution / 2))
        = ⌊(i : K) * (OutputResolution / self.DataResolution)
          + OutputResolution / self.DataResolution / 2⌋ ∧
      lib.to_int (((j : K) * (OutputResolution / self.DataResolution))
          + (OutputResolution / self.DataResolution / 2))
        = ⌊(j : K) * (OutputResolution / self.DataResolution)
          + OutputResolution / self.DataResolution / 2⌋ ∧
      0 ≤ lib.to_int (((i : K) * (OutputResolution / self.DataResolution))
          + (OutputResolution / self.DataResolution / 2)) ∧
      lib.to_int (((i : K) * (OutputResolution / self.DataResolution))
          + (OutputResolution / self.DataResolution / 2)) < (self.NRows : Int) ∧
      0 ≤ lib.to_int (((j : K) * (OutputResolution / self.DataResolution))
          + (OutputResolution / self.DataResolution / 2)) ∧
      lib.to_int (((j : K) * (OutputResolution / self.DataResolution))
          + (OutputResolution / self.DataResolution / 2)) < (self.NCols : Int)) ∧
    ∀ outside outside' : Int → Int → Int,
      self.Resample lib outside OutputResolution
        = self.Resample lib outside' OutputResolution := by
  have ho' : 0 < OutputResolution := lt_of_lt_of_le hres hge
  have hx : ∀ n : Nat, (0 : K) ≤ (n : K) * self.DataResolution / OutputResolution :=
    fun n => by positivity
  have main : ∀ i j : Nat,
      i < (lib.to_int ((self.NRows : K) * self.DataResolution / OutputResolution)).toNat →
      j < (lib.to_int ((self.NCols : K) * self.DataResolution / OutputResolution)).toNat →
      lib.to_int (((i : K) * (OutputResolution / self.DataResolution))
          + (OutputResolution / self.DataResolution / 2))
        = ⌊(i : K) * (OutputResolution / self.DataResolution)
          + OutputResolution / self.DataResolution / 2⌋ ∧
      lib.to_int (((j : K) * (OutputResolution / self.DataResolution))
          + (OutputResolution / self.DataResolution / 2))
        = ⌊(j : K) * (OutputResolution / self.DataResolution)
          + OutputResolution / self.DataResolution / 2⌋ ∧
      0 ≤ lib.to_int (((i : K) * (OutputResolution / self.DataResolution))
          + (OutputResolution / self.DataResolution / 2)) ∧
      lib.to_int (((i : K) * (OutputResolution / self.DataResolution))
          + (OutputResolution / self.DataResolution / 2)) < (self.NRows : Int) ∧
      0 ≤ lib.to_int (((j : K) * (OutputResolution / self.DataResolution))
          + (OutputResolution / self.DataResolution / 2)) ∧
      lib.to_int (((j : K) * (OutputResolution / self.DataResolution))
          + (OutputResolution / self.DataResolution / 2)) < (self.NCols : Int) := by
    intro i j hi hj
    rw [hto _ (hx _)] at hi hj
    obtain ⟨bi0, bi⟩ := resample_centre_bound self.NRows i self.DataResolution
      OutputResolution hres hge hi
    obtain ⟨bj0, bj⟩ := resample_centre_bound self.NCols j self.DataResolution
      OutputResolution hres hge hj
    rw [hto _ bi0, hto _ bj0]
    exact ⟨rfl, rfl, Int.floor_nonneg.mpr bi0, Int.floor_lt.mpr (by exact_mod_cast bi),
      Int.floor_nonneg.mpr bj0, Int.floor_lt.mpr (by exact_mod_cast bj)⟩
  refine ⟨main, ?_⟩
  intro outside outside'
  unfold LSDIndexRaster.Resample
  dsimp only
  rw [if_neg (not_lt.mpr hge), if_neg (not_lt.mpr hge)]
  congr 1
  refine forLoop_congr _ _ _ (fun i hi s => ?_) _
  refine forLoop_congr _ _ _ (fun j hj s => ?_) _
  obtain ⟨_, _, a0, a1, b0, b1⟩ := main i j hi hj
  rw [Array2D_read_inside _ outside _ _ a0 (by rw [hd1]; exact a1) b0 (by rw [hd2]; exact b1),
    Array2D_read_inside _ outside' _ _ a0 (by rw [hd1]; exact a1) b0 (by rw [hd2]; exact b1)]

end ResampleBounds

theorem Resample_reads_inside_witness :
    (0 ≤ sampleLib.to_int ((((0 : Nat) : ℚ) * (2 / sampleIndexRaster.DataResolution))
        + (2 / sampleIndexRaster.DataResolution / 2)) ∧
      sampleLib.to_int ((((0 : Nat) : ℚ) * (2 / sampleIndexRaster.DataResolution))
        + (2 / sampleIndexRaster.DataResolution / 2)) < (sampleIndexRaster.NRows : Int)) ∧
    sampleIndexRaster.Resample sampleLib (fun _ _ => 0) 2
      = sampleIndexRaster.Resample sampleLib (fun _ _ => 7) 2 :=
  have h := Resample_reads_inside sampleLib sampleIndexRaster 2 (fun _ hx => if_pos hx)
    (by decide!) (by decide!) rfl rfl
  ⟨⟨(h.1 0 0 (by decide!) (by decide!)).2.2.1, (h.1 0 0 (by decide!) (by decide!)).2.2.2.1⟩,
    h.2 (fun _ _ => 0) (fun _ _ => 7)⟩

/-! ## The noise level of the Wiener filter -/

section NoiseCount

variable {K : Type} [LinearOrderedField K]

/-- A read `l[k]`, with 0 for a missing element, of a vector bounded by `B >= 0`. -/
theorem getD_le_bound (l : List K) (B : K) (hB : 0 ≤ B) (h : ∀ x ∈ l, x ≤ B) (k : Nat) :
    l.getD k 0 ≤ B := by
  by_cases hk : k < l.length
  · rw [List.getD_eq_getElem _ _ hk]
    exact h _ (List.getElem_mem _)
  · rw [List.getD_eq_default _ _ (not_lt.mp hk)]
    exact hB

/-- Every element of `RadialFrequencyRaw` after the collection loop is at most
the Nyquist frequency. -/
theorem radial_PSD_raw_le_nyquist (lib : Extern K) (self : LSDRasterSpectral K)
    (hres : 0 < self.DataResolution) :
    ∀ x ∈ (radial_PSD_raw lib self).1, x ≤ 1 / (2 * self.DataResolution) := by
  have hN : (0 : K) ≤ 1 / (2 * self.DataResolution) := by positivity
  unfold radial_PSD_raw
  refine forLoop_preserves
    (fun (t : List K × List K × Nat) => ∀ x ∈ t.1, x ≤ 1 / (2 * self.DataResolution)) _ _ ?_ _
    (by
      intro x hx
      rw [List.eq_of_mem_replicate hx]
      exact hN)
  intro i t ht
  refine forLoop_preserves
    (fun (t : List K × List K × Nat) => ∀ x ∈ t.1, x ≤ 1 / (2 * self.DataResolution)) _ _ ?_ t ht
  intro j t ht
  show ∀ x ∈ (if radial_frequency lib self i j ≤ 1 / (2 * self.DataResolution) then _ else t).1,
    x ≤ 1 / (2 * self.DataResolution)
  split_ifs with hf
  · intro x hx
    rcases List.mem_or_eq_of_mem_set hx with h | h
    · exact ht x h
    · rw [h]
      exact hf
  · exact ht

/-- The grouped frequencies are values of the sorted vector or the initial 0. -/
theorem group_freqs_le_bound (past_end : K) (n : Nat) (R P : List K) (B : K) (hB : 0 ≤ B)
    (hR : ∀ k, R.getD k 0 ≤ B) (i : Nat) :
    ∀ x ∈ (group_freqs past_end i n R P).1, x ≤ B := by
  unfold group_freqs
  refine forLoop_preserves (fun (t : List K × List K × Nat × Nat) => ∀ x ∈ t.1, x ≤ B) _ _ ?_ _
    (by
      intro x hx
      rw [List.eq_of_mem_replicate hx]
      exact hB)
  intro k t ht
  have hset : ∀ x ∈ t.1.set t.2.2.2 (R.getD k 0), x ≤ B := by
    intro x hx
    rcases List.mem_or_eq_of_mem_set hx with h | h
    · exact ht x h
    · rw [h]
      exact hR k
  dsimp only
  split_ifs
  · exact hset
  · exact hset

/-- With every radial frequency below `f_highpass` the noise loop adds nothing
and counts nothing. -/
theorem wiener_noise_sum_none (lib : Extern K) (self : LSDRasterSpectral K)
    (h : ∀ k, self.RadialFrequency.getD k 0 < lib.pow 10 (-(7 / 10))) :
    wiener_noise_sum lib self = ((0 : K), 0) := by
  unfold wiener_noise_sum
  refine forLoop_preserves (fun (s : K × Nat) => s = ((0 : K), 0)) _ _ ?_ _ rfl
  intro i s hs
  dsimp only
  rw [if_neg (not_le.mpr (h i))]
  exact hs

/-- C31. On every surface with `DataResolution > 0` whose Nyquist frequency
`1/(2*DataResolution)` lies below `pow(10, -0.7)`, every entry of
`RadialFrequency` is below `f_highpass`: the noise loop of `wiener_filter` ends
with sum 0 and `n_freqs_noise = 0`, and `WhiteNoiseAmplitude` is the quotient
`0/0`. -/
theorem wiener_filter_noise_count_zero (lib : Extern K) (self : LSDRasterSpectral K)
    (re im o1 o2 : Array2D K) (hres : 0 < self.DataResolution)
    (hthr : 1 / (2 * self.DataResolution) < lib.pow 10 (-(7 / 10))) :
    (∀ f ∈ (wiener_filter lib self re im o1 o2).1.RadialFrequency,
      f < lib.pow 10 (-(7 / 10))) ∧
    (wiener_noise_sum lib (wiener_filter lib self re im o1 o2).1).1 = 0 ∧
    (wiener_noise_sum lib (wiener_filter lib self re im o1 o2).1).2 = 0 := by
  have hN : (0 : K) ≤ 1 / (2 * self.DataResolution) := by positivity
  have hraw := radial_PSD_raw_le_nyquist lib (calculate_2D_PSD self re im) hres
  have hsorted : ∀ k, (matlab_float_sort (radial_PSD_raw lib
      (calculate_2D_PSD self re im)).1).1.getD k 0 ≤ 1 / (2 * self.DataResolution) := by
    intro k
    apply getD_le_bound _ _ hN
    intro x hx
    unfold matlab_float_sort at hx
    obtain ⟨m, _, rfl⟩ := List.mem_map.mp hx
    exact getD_le_bound _ _ hN hraw m
  have hgrouped : ∀ f ∈ (wiener_filter lib self re im o1 o2).1.RadialFrequency,
      f ≤ 1 / (2 * self.DataResolution) :=
    group_freqs_le_bound lib.past_end _ _ _ _ hN hsorted _
  have hlt : ∀ k, (wiener_filter lib self re im o1 o2).1.RadialFrequency.getD k 0
      < lib.pow 10 (-(7 / 10)) :=
    fun k => lt_of_le_of_lt (getD_le_bound _ _ hN hgrouped k) hthr
  refine ⟨fun f hf => lt_of_le_of_lt (hgrouped f hf) hthr, ?_, ?_⟩
  · rw [wiener_noise_sum_none lib _ hlt]
  · rw [wiener_noise_sum_none lib _ hlt]

end NoiseCount

theorem wiener_filter_noise_count_zero_witness :
    (wiener_noise_sum sampleRealLib (wiener_filter sampleRealLib sampleCoarseSurface
      sampleCoarseSurface.RasterData sampleCoarseSurface.RasterData sampleCoarseSurface.P_DFT
      sampleCoarseSurface.P_DFT).1).2 = 0 :=
  (wiener_filter_noise_count_zero sampleRealLib sampleCoarseSurface
    sampleCoarseSurface.RasterData sampleCoarseSurface.RasterData sampleCoarseSurface.P_DFT
    sampleCoarseSurface.P_DFT
    (by show (0 : ℝ) < 10; norm_num)
    (by
      show (1 : ℝ) / (2 * 10) < (10 : ℝ) ^ (-(7 / 10) : ℝ)
      have h1 : (10 : ℝ) ^ (-1 : ℝ) ≤ (10 : ℝ) ^ (-(7 / 10) : ℝ) :=
        Real.rpow_le_rpow_of_exponent_le (by norm_num) (by norm_num)
      rw [Real.rpow_neg_one] at h1
      have h2 : (1 : ℝ) / (2 * 10) < (10 : ℝ)⁻¹ := by norm_num
      exact lt_of_lt_of_le h2 h1)).2.2

/-! ## The all-pass filter -/

/-- De-shifting arrays that agree, on the `Ly x Lx` grid, with the shifted
spectrum gives back the spectrum on the grid (`Ly`, `Lx` even). -/
theorem deshift_of_shifted {α : Type} (Ly Lx : Nat) (hLy : Ly % 2 = 0) (hLx : Lx % 2 = 0)
    (re im s1 s2 d1 d2 : Array2D α) (F : Array2D α × Array2D α)
    (hF : ∀ i j, i < Ly → j < Lx →
      F.1.get i j = (shift_spectrum Ly Lx re im s1 s2).1.get i j ∧
      F.2.get i j = (shift_spectrum Ly Lx re im s1 s2).2.get i j)
    (i j : Nat) (hi : i < Ly) (hj : j < Lx) :
    (shift_spectrum_inv Ly Lx F.1 F.2 d1 d2).1.get i j = re.get i j ∧
    (shift_spectrum_inv Ly Lx F.1 F.2 d1 d2).2.get i j = im.get i j := by
  have hi2 : i < 2 * (Ly / 2) := by omega
  have hj2 : j < 2 * (Lx / 2) := by omega
  rw [shift_spectrum_inv_real_get Ly Lx _ _ d1 d2 i j hi2 hj2,
    shift_spectrum_inv_imag_get Ly Lx _ _ d1 d2 i j hi2 hj2]
  unfold quadSwap
  have hp : (if i < Ly / 2 then i + Ly / 2 else i - Ly / 2) < 2 * (Ly / 2) := by
    split_ifs <;> omega
  have hq : (if j < Lx / 2 then j + Lx / 2 else j - Lx / 2) < 2 * (Lx / 2) := by
    split_ifs <;> omega
  obtain ⟨f1, f2⟩ := hF _ _ (by omega : (if i < Ly / 2 then i + Ly / 2 else i - Ly / 2) < Ly)
    (by omega : (if j < Lx / 2 then j + Lx / 2 else j - Lx / 2) < Lx)
  rw [f1, f2, shift_spectrum_real_get Ly Lx re im s1 s2 _ _ hp hq,
    shift_spectrum_imag_get Ly Lx re im s1 s2 _ _ hp hq]
  unfold quadSwap
  have ei : (if (if i < Ly / 2 then i + Ly / 2 else i - Ly / 2) < Ly / 2
      then (if i < Ly / 2 then i + Ly / 2 else i - Ly / 2) + Ly / 2
      else (if i < Ly / 2 then i + Ly / 2 else i - Ly / 2) - Ly / 2) = i := by
    split_ifs <;> omega
  have ej : (if (if j < Lx / 2 then j + Lx / 2 else j - Lx / 2) < Lx / 2
      then (if j < Lx / 2 then j + Lx / 2 else j - Lx / 2) + Lx / 2
      else (if j < Lx / 2 then j + Lx / 2 else j - Lx / 2) - Lx / 2) = j := by
    split_ifs <;> omega
  rw [ei, ej]
  exact ⟨rfl, rfl⟩

section AllPass

variable {K : Type} [LinearOrderedField K]

/-- The rescaling loop at a cell of the raster that holds data. -/
theorem rescale_topography_valid (self : LSDRasterSpectral K) (padded tp : Array2D K)
    (p q : Nat) (hp : p < self.NRows) (hq : q < self.NCols)
    (h : self.RasterData.get p q ≠ self.NoDataValue) :
    (rescale_topography self padded tp).get p q
      = padded.get p q / ((self.Lx * self.Ly : Nat) : K) + tp.get p q := by
  unfold rescale_topography
  have hw := (nested_writes (fun (P : Array2D K) => P.get) self.NRows self.NCols
    (fun i j FilteredTopography =>
      if self.RasterData.get i j ≠ self.NoDataValue then
        FilteredTopography.set i j
          (padded.get i j / ((self.Lx * self.Ly : Nat) : K) + tp.get i j)
      else FilteredTopography)
    (fun i j p q => p = i ∧ q = j ∧ self.RasterData.get i j ≠ self.NoDataValue)
    (fun p q => padded.get p q / ((self.Lx * self.Ly : Nat) : K) + tp.get p q)
    (by
      intro i j _ _ P p q
      by_cases hc : self.RasterData.get i j ≠ self.NoDataValue
      · dsimp only
        rw [if_pos hc]
        constructor
        · rintro ⟨rfl, rfl, _⟩
          simp [Array2D.get, Array2D.set]
        · intro hW
          have hne : ¬ (p = i ∧ q = j) := fun hpq => hW ⟨hpq.1, hpq.2, hc⟩
          simp [Array2D.get, Array2D.set, hne]
      · dsimp only
        rw [if_neg hc]
        exact ⟨fun hW => absurd hW.2.2 hc, fun _ => rfl⟩))
    (Array2D.filled self.NRows self.NCols self.NoDataValue) p q
  exact hw.1 ⟨p, hp, q, hq, rfl, rfl, h⟩

end AllPass

/-- The tail of the pipelines with the exact transform and a filter that leaves
every cell of the shifted spectrum as it is: the raster returned holds, at a
data cell, the padded array plus the trend plane. -/
theorem transform_filter_rebuild_allpass (lib : Extern ℝ) (hexec : lib.fftw_execute = fftw_dft)
    (self : LSDRasterSpectral ℝ) (hLy : self.Ly % 2 = 0) (hLx : self.Lx % 2 = 0)
    (hR : self.NRows ≤ self.Ly) (hC : self.NCols ≤ self.Lx)
    (zeta_padded trend_plane : Array2D ℝ)
    (filter : Array2D ℝ → Array2D ℝ → Array2D ℝ → Array2D ℝ → Array2D ℝ × Array2D ℝ)
    (hfilter : ∀ re im o1 o2 i j, i < self.Ly → j < self.Lx →
      (filter re im o1 o2).1.get i j = re.get i j ∧
      (filter re im o1 o2).2.get i j = im.get i j) :
    ∃ out, transform_filter_rebuild lib self zeta_padded trend_plane filter = some out ∧
      out.NRows = self.NRows ∧ out.NCols = self.NCols ∧
      (∀ i j, i < self.NRows → j < self.NCols →
        self.RasterData.get i j ≠ self.NoDataValue →
        out.RasterData.get i j = zeta_padded.get i j + trend_plane.get i j) ∧
      (∀ i j, i < self.NRows → j < self.NCols →
        self.RasterData.get i j = self.NoDataValue →
        out.RasterData.get i j = self.NoDataValue) := by
  obtain ⟨inp, spectrum, hinp, hfwd, hspec⟩ := dfftw2D_fwd_cells fftw_dft (lib.fftw_buffer 0)
    self zeta_padded (Array2D.uninit lib 3 self.Ly self.Lx) (Array2D.uninit lib 4 self.Ly self.Lx)
  obtain ⟨inp2, out, hinp2, hinv, hout⟩ := dfftw2D_inv_cells fftw_dft (lib.fftw_buffer 1) self
    (shift_spectrum_inv self.Ly self.Lx
      (filter (shift_spectrum self.Ly self.Lx spectrum.1 spectrum.2
          (Array2D.uninit lib 5 self.Ly self.Lx) (Array2D.uninit lib 6 self.Ly self.Lx)).1
        (shift_spectrum self.Ly self.Lx spectrum.1 spectrum.2
          (Array2D.uninit lib 5 self.Ly self.Lx) (Array2D.uninit lib 6 self.Ly self.Lx)).2
        (Array2D.filled self.Ly self.Lx 0) (Array2D.filled self.Ly self.Lx 0)).1
      (filter (shift_spectrum self.Ly self.Lx spectrum.1 spectrum.2
          (Array2D.uninit lib 5 self.Ly self.Lx) (Array2D.uninit lib 6 self.Ly self.Lx)).1
        (shift_spectrum self.Ly self.Lx spectrum.1 spectrum.2
          (Array2D.uninit lib 5 self.Ly self.Lx) (Array2D.uninit lib 6 self.Ly self.Lx)).2
        (Array2D.filled self.Ly self.Lx 0) (Array2D.filled self.Ly self.Lx 0)).2
      (Array2D.uninit lib 7 self.Ly self.Lx) (Array2D.uninit lib 8 self.Ly self.Lx)).1
    (shift_spectrum_inv self.Ly self.Lx
      (filter (shift_spectrum self.Ly self.Lx spectrum.1 spectrum.2
          (Array2D.uninit lib 5 self.Ly self.Lx) (Array2D.uninit lib 6 self.Ly self.Lx)).1
        (shift_spectrum self.Ly self.Lx spectrum.1 spectrum.2
          (Array2D.uninit lib 5 self.Ly self.Lx) (Array2D.uninit lib 6 self.Ly self.Lx)).2
        (Array2D.filled self.Ly self.Lx 0) (Array2D.filled self.Ly self.Lx 0)).1
      (filter (shift_spectrum self.Ly self.Lx spectrum.1 spectrum.2
          (Array2D.uninit lib 5 self.Ly self.Lx) (Array2D.uninit lib 6 self.Ly self.Lx)).1
        (shift_spectrum self.Ly self.Lx spectrum.1 spectrum.2
          (Array2D.uninit lib 5 self.Ly self.Lx) (Array2D.uninit lib 6 self.Ly self.Lx)).2
        (Array2D.filled self.Ly self.Lx 0) (Array2D.filled self.Ly self.Lx 0)).2
      (Array2D.uninit lib 7 self.Ly self.Lx) (Array2D.uninit lib 8 self.Ly self.Lx)).2
    (Array2D.uninit lib 9 self.Ly self.Lx)
  have hback : ∀ a b, a < self.Ly → b < self.Lx →
      inp2 (self.Lx * a + b) = (spectrum.1.get a b, spectrum.2.get a b) := by
    intro a b ha hb
    rw [hinp2 a b ha hb]
    obtain ⟨e1, e2⟩ := deshift_of_shifted self.Ly self.Lx hLy hLx spectrum.1 spectrum.2
      (Array2D.uninit lib 5 self.Ly self.Lx) (Array2D.uninit lib 6 self.Ly self.Lx)
      (Array2D.uninit lib 7 self.Ly self.Lx) (Array2D.uninit lib 8 self.Ly self.Lx)
      (filter (shift_spectrum self.Ly self.Lx spectrum.1 spectrum.2
          (Array2D.uninit lib 5 self.Ly self.Lx) (Array2D.uninit lib 6 self.Ly self.Lx)).1
        (shift_spectrum self.Ly self.Lx spectrum.1 spectrum.2
          (Array2D.uninit lib 5 self.Ly self.Lx) (Array2D.uninit lib 6 self.Ly self.Lx)).2
        (Array2D.filled self.Ly self.Lx 0) (Array2D.filled self.Ly self.Lx 0))
      (fun i j hi hj => hfilter _ _ _ _ i j hi hj) a b ha hb
    rw [e1, e2]
  have hcell : ∀ i j, i < self.Ly → j < self.Lx →
      out.get i j = (self.Ly : ℝ) * (self.Lx : ℝ) * zeta_padded.get i j := by
    intro i j hi hj
    rw [hout i j hi hj]
    simp only [fftw_dft, row_major_div self.Lx i j hj, row_major_mod self.Lx i j hj]
    rw [dft2_congr self.Ly self.Lx 1 _
      (dft2 self.Ly self.Lx (-1) (fun a b => Complex.mk (zeta_padded.get a b)
        (lib.fftw_buffer 0 (self.Lx * a + b)).2)) i j ?_]
    · rw [dft2_inversion self.Ly self.Lx _ i j hi hj]
      simp only [Complex.mul_re, Complex.mul_im, Complex.natCast_re, Complex.natCast_im]
      ring
    · intro a b ha hb
      rw [hback a b ha hb]
      obtain ⟨e1, e2⟩ := hspec a b ha hb
      simp only [e1, e2]
      simp only [fftw_dft, row_major_div self.Lx a b hb, row_major_mod self.Lx a b hb]
      rw [Complex.eta]
      refine dft2_congr self.Ly self.Lx (-1) _ _ a b (fun a' b' ha' hb' => ?_)
      rw [hinp a' b' ha' hb']
  obtain ⟨d1, d2⟩ := rescale_topography_dims self out trend_plane
  refine ⟨⟨self.NRows, self.NCols, self.XMinimum, self.YMinimum, self.DataResolution,
    self.NoDataValue, rescale_topography self out trend_plane⟩, ?_, rfl, rfl, ?_, ?_⟩
  · unfold transform_filter_rebuild
    simp only [hexec, hfwd, hinv]
    unfold LSDRaster.create
    rw [if_neg (not_not.mpr d1), if_neg (not_not.mpr d2)]
  · intro i j hi hj hv
    show (rescale_topography self out trend_plane).get i j = _
    rw [rescale_topography_valid self out trend_plane i j hi hj hv,
      hcell i j (by omega) (by omega)]
    have hLy0 : (self.Ly : ℝ) ≠ 0 := Nat.cast_ne_zero.mpr (by omega)
    have hLx0 : (self.Lx : ℝ) ≠ 0 := Nat.cast_ne_zero.mpr (by omega)
    push_cast
    field_simp
    ring
  · intro i j _ _ hn
    exact rescale_topography_nodata self out trend_plane i j hn

/-- In exact arithmetic no cell of the `Ly x Lx` spectrum has a radial
frequency above `sqrt(2)/(2*DataResolution)`. -/
theorem radial_frequency_le_corner (lib : Extern ℝ) (hsqrt : lib.sqrt = Real.sqrt)
    (self : LSDRasterSpectral ℝ) (hres : 0 < self.DataResolution) (i j : Nat)
    (hi : i < self.Ly) (hj : j < self.Lx) :
    radial_frequency lib self i j ≤ Real.sqrt 2 / (2 * self.DataResolution) := by
  have half : ∀ (L k : Nat), k < L →
      ((k : ℝ) - ((L / 2 : Nat) : ℝ)) * ((k : ℝ) - ((L / 2 : Nat) : ℝ))
        * (1 / (self.DataResolution * (L : ℝ))) * (1 / (self.DataResolution * (L : ℝ)))
      ≤ 1 / (4 * (self.DataResolution * self.DataResolution)) := by
    intro L k hk
    have hL : (0 : ℝ) < (L : ℝ) := Nat.cast_pos.mpr (by omega)
    have h1 : (2 : ℝ) * ((L / 2 : Nat) : ℝ) ≤ (L : ℝ) := by
      have : 2 * (L / 2) ≤ L := by omega
      exact_mod_cast this
    have h2 : (L : ℝ) ≤ 2 * ((L / 2 : Nat) : ℝ) + 1 := by
      have : L ≤ 2 * (L / 2) + 1 := by omega
      exact_mod_cast this
    have h3 : (k : ℝ) + 1 ≤ (L : ℝ) := by
      have : k + 1 ≤ L := hk
      exact_mod_cast this
    have h4 : (0 : ℝ) ≤ (k : ℝ) := Nat.cast_nonneg k
    have hu : ((k : ℝ) - ((L / 2 : Nat) : ℝ)) * ((k : ℝ) - ((L / 2 : Nat) : ℝ))
        ≤ ((L : ℝ) / 2) * ((L : ℝ) / 2) := by
      have ha : -((L : ℝ) / 2) ≤ (k : ℝ) - ((L / 2 : Nat) : ℝ) := by linarith
      have hb : (k : ℝ) - ((L / 2 : Nat) : ℝ) ≤ (L : ℝ) / 2 := by linarith
      nlinarith
    have hd : (0 : ℝ) ≤ (1 / (self.DataResolution * (L : ℝ)))
        * (1 / (self.DataResolution * (L : ℝ))) := mul_self_nonneg _
    have e : ((L : ℝ) / 2) * ((L : ℝ) / 2) * ((1 / (self.DataResolution * (L : ℝ)))
        * (1 / (self.DataResolution * (L : ℝ))))
        = 1 / (4 * (self.DataResolution * self.DataResolution)) := by
      field_simp
      ring
    calc ((k : ℝ) - ((L / 2 : Nat) : ℝ)) * ((k : ℝ) - ((L / 2 : Nat) : ℝ))
          * (1 / (self.DataResolution * (L : ℝ))) * (1 / (self.DataResolution * (L : ℝ)))
        = (((k : ℝ) - ((L / 2 : Nat) : ℝ)) * ((k : ℝ) - ((L / 2 : Nat) : ℝ)))
          * ((1 / (self.DataResolution * (L : ℝ)))
            * (1 / (self.DataResolution * (L : ℝ)))) := by ring
      _ ≤ ((L : ℝ) / 2) * ((L : ℝ) / 2) * ((1 / (self.DataResolution * (L : ℝ)))
            * (1 / (self.DataResolution * (L : ℝ)))) := mul_le_mul_of_nonneg_right hu hd
      _ = 1 / (4 * (self.DataResolution * self.DataResolution)) := e
  unfold radial_frequency
  rw [hsqrt]
  dsimp only
  rw [Real.sqrt_le_left (by positivity)]
  have hy := half self.Ly i hi
  have hx := half self.Lx j hj
  have e2 : (Real.sqrt 2 / (2 * self.DataResolution)) ^ 2
      = 1 / (4 * (self.DataResolution * self.DataResolution))
        + 1 / (4 * (self.DataResolution * self.DataResolution)) := by
    rw [div_pow, Real.sq_sqrt (by norm_num)]
    field_simp
    ring
  rw [e2]
  exact add_le_add hy hx

/-- C33. In exact real arithmetic, with the FFTW plan taken as the exact
transform: for a raster with `NRows >= 2`, `NCols >= 2`, positive
`DataResolution`, a non-singular plane fit, and `Ly`, `Lx` the padded lengths
that the constructor sets, `fftw2D_filter(2, FLow, FHigh)` with `FLow >
sqrt(2)/(2*DataResolution)` returns a raster of the input's size that equals the
input at every cell, data or nodata. -/
theorem fftw2D_filter_allpass (regression : List ℝ → List ℝ → List ℝ)
    (uninit : Nat → Nat → Nat → ℝ) (fftw_buffer : Nat → Nat → ℝ × ℝ) (past_end : ℝ)
    (self : LSDRasterSpectral ℝ) (FLow FHigh : ℝ)
    (hdet : det3 (detrend2D_sums self self.RasterData).1 ≠ 0)
    (hNR : 2 ≤ self.NRows) (hNC : 2 ≤ self.NCols)
    (hLy : self.Ly = padded_length (realLib regression uninit fftw_buffer past_end) self.NRows)
    (hLx : self.Lx = padded_length (realLib regression uninit fftw_buffer past_end) self.NCols)
    (hres : 0 < self.DataResolution)
    (hF : Real.sqrt 2 / (2 * self.DataResolution) < FLow) :
    ∃ out, fftw2D_filter (realLib regression uninit fftw_buffer past_end) self 2 FLow FHigh
        = some out ∧
      out.NRows = self.NRows ∧ out.NCols = self.NCols ∧
      ∀ i j, i < self.NRows → j < self.NCols →
        out.RasterData.get i j = self.RasterData.get i j := by
  rw [padded_length_real] at hLy hLx
  have even : ∀ n : Nat, 2 ≤ n → (2 ^ Nat.clog 2 n) % 2 = 0 := by
    intro n hn
    obtain ⟨k, hk⟩ := Nat.exists_eq_succ_of_ne_zero
      (Nat.pos_iff_ne_zero.mp (Nat.clog_pos (by norm_num : 1 < 2) hn))
    rw [hk, pow_succ]
    exact Nat.mul_mod_left _ _
  have hLyE : self.Ly % 2 = 0 := by rw [hLy]; exact even _ hNR
  have hLxE : self.Lx % 2 = 0 := by rw [hLx]; exact even _ hNC
  have hR : self.NRows ≤ self.Ly := by rw [hLy]; exact Nat.le_pow_clog (by norm_num) _
  have hC : self.NCols ≤ self.Lx := by rw [hLx]; exact Nat.le_pow_clog (by norm_num) _
  obtain ⟨coeffs, hc, _, _, _⟩ :=
    LU_solve_spec (realLib regression uninit fftw_buffer past_end).solve_singular
      (detrend2D_sums self self.RasterData).1 (detrend2D_sums self self.RasterData).2 hdet
  have hco : detrend2D_coeffs (realLib regression uninit fftw_buffer past_end).solve_singular
      self self.RasterData = (coeffs.get 0, coeffs.get 1, coeffs.get 2) := by
    rw [detrend2D_coeffs_eq, hc]
  have hd := detrend2D_of_coeffs (realLib regression uninit fftw_buffer past_end).solve_singular
    self self.RasterData
    (Array2D.uninit (realLib regression uninit fftw_buffer past_end) 0 self.NRows self.NCols)
    (Array2D.uninit (realLib regression uninit fftw_buffer past_end) 1 self.NRows self.NCols)
    _ _ _ hco
  obtain ⟨out, ho, hr, hcn, hv, hn⟩ := transform_filter_rebuild_allpass
    (realLib regression uninit fftw_buffer past_end) rfl self hLyE hLxE hR hC
    (pad_to_power_of_two self
      (detrend2D_surface self (coeffs.get 0) (coeffs.get 1) (coeffs.get 2) self.RasterData
        (Array2D.uninit (realLib regression uninit fftw_buffer past_end) 0 self.NRows
          self.NCols)
        (Array2D.uninit (realLib regression uninit fftw_buffer past_end) 1 self.NRows
          self.NCols)).1
      (Array2D.uninit (realLib regression uninit fftw_buffer past_end) 2 self.Ly self.Lx))
    (detrend2D_surface self (coeffs.get 0) (coeffs.get 1) (coeffs.get 2) self.RasterData
      (Array2D.uninit (realLib regression uninit fftw_buffer past_end) 0 self.NRows self.NCols)
      (Array2D.uninit (realLib regression uninit fftw_buffer past_end) 1 self.NRows
        self.NCols)).2
    (fun spectrum_real_shift spectrum_imaginary_shift FilteredSpectrumReal
        FilteredSpectrumImaginary =>
      if (2 : Int) = 1 then
        bandpass_filter (realLib regression uninit fftw_buffer past_end) self
          spectrum_real_shift spectrum_imaginary_shift
          FilteredSpectrumReal FilteredSpectrumImaginary FLow FHigh
      else if (2 : Int) = 2 then
        lowpass_filter (realLib regression uninit fftw_buffer past_end) self
          spectrum_real_shift spectrum_imaginary_shift
          FilteredSpectrumReal FilteredSpectrumImaginary FLow FHigh
      else if (2 : Int) = 3 then
        highpass_filter (realLib regression uninit fftw_buffer past_end) self
          spectrum_real_shift spectrum_imaginary_shift
          FilteredSpectrumReal FilteredSpectrumImaginary FLow FHigh
      else (FilteredSpectrumReal, FilteredSpectrumImaginary))
    (by
      intro re im o1 o2 i j hi hj
      dsimp only
      rw [if_neg (by decide), if_pos rfl]
      obtain ⟨c1, c2⟩ := lowpass_filter_cells (realLib regression uninit fftw_buffer past_end)
        self re im o1 o2 FLow FHigh i j hi hj
      have hw : lowpass_weight (realLib regression uninit fftw_buffer past_end) FLow FHigh
          (radial_frequency (realLib regression uninit fftw_buffer past_end) self i j) = 1 := by
        unfold lowpass_weight
        rw [if_pos (lt_of_le_of_lt
          (radial_frequency_le_corner _ rfl self hres i j hi hj) hF)]
      rw [c1, c2, hw, one_mul, one_mul]
      exact ⟨rfl, rfl⟩)
  refine ⟨out, ?_, hr, hcn, ?_⟩
  · unfold fftw2D_filter
    simp only [hd]
    exact ho
  · intro i j hi hj
    by_cases hdata : self.RasterData.get i j = self.NoDataValue
    · rw [hn i j hi hj hdata, hdata]
    · rw [hv i j hi hj hdata,
        (pad_to_power_of_two_cells (realLib regression uninit fftw_buffer past_end) self _ 2).2.2
          i j (by omega) (by omega),
        if_pos ⟨hi, hj⟩, detrend2D_surface_detrend self _ _ _ _ _ _ i j hi hj,
        detrend2D_surface_trend self _ _ _ _ _ _ i j hi hj, if_pos hdata]
      ring

/-- The normal matrix of the real sample surface is not singular. -/
theorem sampleRealSurface_det :
    det3 (detrend2D_sums sampleRealSurface sampleRealSurface.RasterData).1 ≠ 0 := by
  obtain ⟨h00, h01, h02, h10, h11, h12, h20, h21, h22, _, _, _⟩ :=
    detrend2D_sums_get sampleRealSurface sampleRealSurface.RasterData
  have hv : ∀ f : Nat → Nat → ℝ, validSum sampleRealSurface sampleRealSurface.RasterData f
      = f 0 0 + f 0 1 + f 0 2 + (f 1 0 + f 1 1 + f 1 2) + (f 2 0 + f 2 1 + f 2 2) := by
    intro f
    unfold validSum
    have hne : ∀ i j : Nat, sampleRealSurface.RasterData.get i j ≠ sampleRealSurface.NoDataValue := by
      intro i j
      show (i : ℝ) * j + i + 2 * j ≠ -9999
      have h1 : (0 : ℝ) ≤ (i : ℝ) := Nat.cast_nonneg i
      have h2 : (0 : ℝ) ≤ (j : ℝ) := Nat.cast_nonneg j
      have h3 := mul_nonneg h1 h2
      linarith
    simp only [hne, ne_eq, not_false_eq_true, if_true]
    show ∑ i in Finset.range 3, ∑ j in Finset.range 3, f i j = _
    simp only [Finset.sum_range_succ, Finset.sum_range_zero, zero_add]
  unfold det3
  rw [h00, h01, h02, h10, h11, h12, h20, h21, h22]
  simp only [hv]
  norm_num

/-- The padded length of three rows or columns. -/
theorem clog_three : 2 ^ Nat.clog 2 3 = 4 := by
  have h : Nat.clog 2 3 = 2 := by
    rw [Nat.clog_of_two_le (by norm_num) (by norm_num)]
    norm_num
    rw [Nat.clog_of_two_le (by norm_num) (by norm_num)]
    norm_num
  rw [h]
  rfl

theorem fftw2D_filter_allpass_witness :
    ∃ out, fftw2D_filter sampleRealLib sampleRealSurface 2 2 3 = some out ∧
      out.RasterData.get 1 2 = sampleRealSurface.RasterData.get 1 2 :=
  let ⟨out, h, _, _, hc⟩ := fftw2D_filter_allpass (fun _ _ => [0, 0, 0, 0]) (fun _ _ _ => 0)
    (fun _ _ => (0, 0)) 0 sampleRealSurface 2 3 sampleRealSurface_det (by decide) (by decide)
    ((padded_length_real _ _ _ _ 3).trans clog_three).symm
    ((padded_length_real _ _ _ _ 3).trans clog_three).symm
    (by show (0 : ℝ) < 1; norm_num)
    (by
      show Real.sqrt 2 / (2 * (1 : ℝ)) < 2
      have h2 : Real.sqrt 2 ≤ 2 := Real.sqrt_le_iff.mpr ⟨by norm_num, by norm_num⟩
      linarith)
  ⟨out, h, hc 1 2 (by decide) (by decide)⟩

/-! ## Thinning: the boundary-peeling loop -/

theorem Array2D_write_dim1 {α : Type} (a : Array2D α) (i j : Int) (v : α) :
    (a.write i j v).dim1 = a.dim1 := by
  unfold Array2D.write
  split_ifs <;> rfl

theorem Array2D_write_dim2 {α : Type} (a : Array2D α) (i j : Int) (v : α) :
    (a.write i j v).dim2 = a.dim2 := by
  unfold Array2D.write
  split_ifs <;> rfl

/-- A read after an in-range write. -/
theorem Array2D_read_write {α : Type} (a : Array2D α) (outside : Int → Int → α) (i j : Int)
    (v : α) (p q : Int) (h : 0 ≤ i ∧ i < (a.dim1 : Int) ∧ 0 ≤ j ∧ j < (a.dim2 : Int)) :
    (a.write i j v).read outside p q = if p = i ∧ q = j then v else a.read outside p q := by
  unfold Array2D.write
  rw [if_pos h]
  unfold Array2D.read Array2D.set
  simp only
  by_cases hpq : p = i ∧ q = j
  · obtain ⟨rfl, rfl⟩ := hpq
    simp [h]
  · rw [if_neg hpq]
    by_cases hin : 0 ≤ p ∧ p < (a.dim1 : Int) ∧ 0 ≤ q ∧ q < (a.dim2 : Int)
    · rw [if_pos hin, if_pos hin, if_neg (by omega)]
    · rw [if_neg hin, if_neg hin]

/-- A write outside the array changes nothing. -/
theorem Array2D_write_outside {α : Type} (a : Array2D α) (i j : Int) (v : α)
    (h : ¬ (0 ≤ i ∧ i < (a.dim1 : Int) ∧ 0 ≤ j ∧ j < (a.dim2 : Int))) :
    a.write i j v = a := by
  unfold Array2D.write
  rw [if_neg h]

theorem sampleThread_read (outside : Int → Int → Int) :
    sampleThread.RasterData.read outside 0 0 = 0 ∧
    sampleThread.RasterData.read outside 0 1 = 1 ∧
    sampleThread.RasterData.read outside 0 2 = -9999 ∧
    sampleThread.RasterData.read outside 1 0 = 0 ∧
    sampleThread.RasterData.read outside 1 1 = 1 ∧
    sampleThread.RasterData.read outside 1 2 = 0 ∧
    sampleThread.RasterData.read outside 2 0 = 0 ∧
    sampleThread.RasterData.read outside 2 1 = 0 ∧
    sampleThread.RasterData.read outside 2 2 = 0 :=
  ⟨rfl, rfl, rfl, rfl, rfl, rfl, rfl, rfl, rfl⟩

theorem threadSkeleton_read (outside : Int → Int → Int) (b c : Int) :
    (threadSkeleton b c).read outside 0 0 = 0 ∧
    (threadSkeleton b c).read outside 0 1 = b ∧
    (threadSkeleton b c).read outside 0 2 = c ∧
    (threadSkeleton b c).read outside 1 0 = 0 ∧
    (threadSkeleton b c).read outside 1 1 = 1 ∧
    (threadSkeleton b c).read outside 1 2 = 0 ∧
    (threadSkeleton b c).read outside 2 0 = 0 ∧
    (threadSkeleton b c).read outside 2 1 = 0 ∧
    (threadSkeleton b c).read outside 2 2 = 0 ∧
    (threadSkeleton b c).read outside 0 3 = outside 0 3 ∧
    (threadSkeleton b c).read outside 2 3 = outside 2 3 :=
  ⟨rfl, rfl, rfl, rfl, rfl, rfl, rfl, rfl, rfl, rfl, rfl⟩

/-- An in-range write with `int` indices is the write at the natural indices. -/
theorem Array2D_write_inside {α : Type} (a : Array2D α) (i j : Nat) (v : α)
    (hi : i < a.dim1) (hj : j < a.dim2) : a.write (i : Int) (j : Int) v = a.set i j v := by
  unfold Array2D.write
  rw [if_pos ⟨Int.natCast_nonneg i, by exact_mod_cast hi, Int.natCast_nonneg j,
    by exact_mod_cast hj⟩]
  rfl

/-- Writes of `b'` to `(0, 1)` and of `c'` to `(0, 2)` in a skeleton array of the
sample. -/
theorem threadSkeleton_write (b c b' c' : Int) :
    (threadSkeleton b c).write 0 1 b' = threadSkeleton b' c ∧
    (threadSkeleton b c).write 0 2 c' = threadSkeleton b c' := by
  have h1 := Array2D_write_inside (threadSkeleton b c) 0 1 b'
    (by show 0 < 3; decide) (by show 1 < 3; decide)
  have h2 := Array2D_write_inside (threadSkeleton b c) 0 2 c'
    (by show 0 < 3; decide) (by show 2 < 3; decide)
  simp only [Nat.cast_zero, Nat.cast_one, Nat.cast_ofNat] at h1 h2
  rw [h1, h2]
  simp only [Array2D.set, threadSkeleton, Array2D.mk.injEq, true_and]
  constructor
  · funext p q
    split_ifs <;> first | rfl | (exfalso; omega)
  · funext p q
    split_ifs <;> first | rfl | (exfalso; omega)

/-- Step 1 on the sample: the border cell `(0, 1)` becomes a boundary pixel
(2), the cell `(1, 1)` a skeleton pixel (1), and `(0, 2)` keeps the nodata
value. -/
theorem sampleThread_outline (outside : Int → Int → Int) :
    sampleThread.thin_outline outside = threadSkeleton 2 (-9999) := by
  obtain ⟨r00, r01, r02, r10, r11, r12, r20, r21, r22⟩ := sampleThread_read outside
  unfold LSDIndexRaster.thin_outline
  generalize sampleThread.RasterData.read outside = R at *
  simp only [show sampleThread.NRows = 3 from rfl, show sampleThread.NCols = 3 from rfl,
    show sampleThread.NoDataValue = -9999 from rfl, forRange, forLoop]
  simp [r00, r01, r02, r10, r11, r12, r20, r21, r22]
  simp [Array2D.write, Array2D.set, Array2D.filled, threadSkeleton]
  funext p q
  split_ifs <;> first | rfl | (exfalso; omega)

/-- A pass of step 2 from a state with 2 at `(0, 1)`, when the read of
`Skeleton[0][3]` gives 0: the east-facing test moves the 2 to `(0, 2)` and the
west-facing test moves it back; `IsSkeleton` is left false. -/
theorem sampleThread_pass (outside : Int → Int → Int) (h : outside 0 3 = 0) (c : Int)
    (hc : c ≠ 2) :
    sampleThread.thin_pass outside (threadSkeleton 2 c) = (false, threadSkeleton 2 0) := by
  obtain ⟨r00, r01, r02, r10, r11, r12, r20, r21, r22, r03, r23⟩ :=
    threadSkeleton_read outside 2 c
  have d1 : (threadSkeleton 2 c).dim1 = 3 := rfl
  have d2 : (threadSkeleton 2 c).dim2 = 3 := rfl
  unfold LSDIndexRaster.thin_pass
  simp only [show sampleThread.NRows = 3 from rfl, show sampleThread.NCols = 3 from rfl,
    forRange, forLoop]
  simp [thin_edge, thin_inner, thin_strip, Array2D_read_write, Array2D_write_dim1,
    Array2D_write_dim2, r00, r01, r02, r10, r11, r12, r20, r21, r22, r03, r23, d1, d2, h, hc]
  rw [(threadSkeleton_write 2 c 0 0).1, (threadSkeleton_write 0 c 0 2).2,
    (threadSkeleton_write 0 2 0 0).2, (threadSkeleton_write 0 0 2 0).1]

/-- From the state with 2 at `(0, 1)` no number of passes ends the loop. -/
theorem sampleThread_loop (outside : Int → Int → Int) (h : outside 0 3 = 0) (c : Int)
    (hc : c ≠ 2) (fuel : Nat) :
    sampleThread.thin_loop outside fuel (threadSkeleton 2 c) = none := by
  induction fuel generalizing c with
  | zero => rfl
  | succ n ih =>
    unfold LSDIndexRaster.thin_loop
    simp only [sampleThread_pass outside h c hc]
    exact ih 0 (by decide)

/-- A pass of step 2 from the state after step 1 when the read of
`Skeleton[0][3]` is not 0: the east-facing test moves the 2 to `(0, 2)` and the
west-facing test leaves it there. -/
theorem sampleThread_pass_first (outside : Int → Int → Int) (h : outside 0 3 ≠ 0) :
    sampleThread.thin_pass outside (threadSkeleton 2 (-9999)) = (false, threadSkeleton 0 2) := by
  obtain ⟨r00, r01, r02, r10, r11, r12, r20, r21, r22, r03, r23⟩ :=
    threadSkeleton_read outside 2 (-9999)
  have d1 : (threadSkeleton 2 (-9999)).dim1 = 3 := rfl
  have d2 : (threadSkeleton 2 (-9999)).dim2 = 3 := rfl
  unfold LSDIndexRaster.thin_pass
  simp only [show sampleThread.NRows = 3 from rfl, show sampleThread.NCols = 3 from rfl,
    forRange, forLoop]
  simp [thin_edge, thin_inner, thin_strip, Array2D_read_write, Array2D_write_dim1,
    Array2D_write_dim2, r00, r01, r02, r10, r11, r12, r20, r21, r22, r03, r23, d1, d2, h]
  rw [(threadSkeleton_write 2 (-9999) 0 0).1, (threadSkeleton_write 0 (-9999) 0 2).2]

/-- The next pass: the east-facing test at `(0, 2)` sets the cell to 0 and
writes to `Skeleton[0][3]`, outside the array. -/
theorem sampleThread_pass_second (outside : Int → Int → Int) (h : outside 0 3 ≠ 0) :
    sampleThread.thin_pass outside (threadSkeleton 0 2) = (false, threadSkeleton 0 0) := by
  obtain ⟨r00, r01, r02, r10, r11, r12, r20, r21, r22, r03, r23⟩ :=
    threadSkeleton_read outside 0 2
  have d1 : (threadSkeleton 0 2).dim1 = 3 := rfl
  have d2 : (threadSkeleton 0 2).dim2 = 3 := rfl
  unfold LSDIndexRaster.thin_pass
  simp only [show sampleThread.NRows = 3 from rfl, show sampleThread.NCols = 3 from rfl,
    forRange, forLoop]
  simp [thin_edge, thin_inner, thin_strip, Array2D_read_write, Array2D_write_dim1,
    Array2D_write_dim2, Array2D_write_outside, r00, r01, r02, r10, r11, r12, r20, r21, r22,
    r03, r23, d1, d2, h]
  rw [(threadSkeleton_write 0 2 0 0).2]

/-- The third pass finds no boundary pixel. -/
theorem sampleThread_pass_third (outside : Int → Int → Int) :
    sampleThread.thin_pass outside (threadSkeleton 0 0) = (true, threadSkeleton 0 0) := by
  obtain ⟨r00, r01, r02, r10, r11, r12, r20, r21, r22, r03, r23⟩ :=
    threadSkeleton_read outside 0 0
  have d1 : (threadSkeleton 0 0).dim1 = 3 := rfl
  have d2 : (threadSkeleton 0 0).dim2 = 3 := rfl
  unfold LSDIndexRaster.thin_pass
  simp only [show sampleThread.NRows = 3 from rfl, show sampleThread.NCols = 3 from rfl,
    forRange, forLoop]
  simp [thin_edge, thin_inner, thin_strip, r00, r01, r02, r10, r11, r12, r20, r21, r22,
    r03, r23, d1, d2]

/-- C38. The raster `[[0, 1, NoData], [0, 1, 0], [0, 0, 0]]` has 3 rows and 3
columns and cells 0, 1 or `NoDataValue`. Step 1 leaves a boundary pixel (2) at
`(0, 1)`. When the read of `Skeleton[0][3]` by the west-facing edge test gives 0,
every pass of the boundary-peeling loop moves the 2 from `(0, 1)` to `(0, 2)` and
back and leaves `IsSkeleton` false: whatever number of passes is allowed,
`thin_to_single_thread_network` has not returned. When that read gives another
value, the third pass ends the loop. -/
theorem thin_to_single_thread_network_never_ends (outside : Int → Int → Int) (fuel : Nat) :
    3 ≤ sampleThread.NRows ∧ 3 ≤ sampleThread.NCols ∧
    (∀ i j, i < 3 → j < 3 → sampleThread.RasterData.get i j = 0 ∨
      sampleThread.RasterData.get i j = 1 ∨
      sampleThread.RasterData.get i j = sampleThread.NoDataValue) ∧
    (outside 0 3 = 0 →
      (sampleThread.thin_pass outside (threadSkeleton 2 0)).1 = false ∧
      (sampleThread.thin_pass outside (threadSkeleton 2 0)).2 = threadSkeleton 2 0 ∧
      sampleThread.thin_loop outside fuel (sampleThread.thin_outline outside) = none ∧
      sampleThread.thin_to_single_thread_network outside fuel = none) ∧
    (outside 0 3 ≠ 0 →
      ∃ r, sampleThread.thin_to_single_thread_network outside (fuel + 3) = some r) := by
  refine ⟨by decide, by decide, ?_, ?_, ?_⟩
  · intro i j hi hj
    interval_cases i <;> interval_cases j <;> decide
  · intro h
    refine ⟨?_, ?_, ?_, ?_⟩
    · rw [sampleThread_pass outside h 0 (by decide)]
    · rw [sampleThread_pass outside h 0 (by decide)]
    · rw [sampleThread_outline]
      exact sampleThread_loop outside h _ (by decide) fuel
    · unfold LSDIndexRaster.thin_to_single_thread_network
      rw [sampleThread_outline, sampleThread_loop outside h _ (by decide) fuel]
  · intro h
    have hloop : sampleThread.thin_loop outside (fuel + 3) (threadSkeleton 2 (-9999))
        = some (threadSkeleton 0 0) := by
      show sampleThread.thin_loop outside (fuel + 2 + 1) (threadSkeleton 2 (-9999)) = _
      unfold LSDIndexRaster.thin_loop
      simp only [sampleThread_pass_first outside h, Bool.false_eq_true, if_false]
      unfold LSDIndexRaster.thin_loop
      simp only [sampleThread_pass_second outside h, Bool.false_eq_true, if_false]
      rw [thin_loop_stops outside sampleThread fuel _ (by rw [sampleThread_pass_third]),
        sampleThread_pass_third]
    unfold LSDIndexRaster.thin_to_single_thread_network
    rw [sampleThread_outline, hloop]
    exact ⟨_, rfl⟩

theorem thin_to_single_thread_network_never_ends_witness :
    sampleThread.thin_to_single_thread_network (fun _ _ => 0) 1000 = none :=
  ((thin_to_single_thread_network_never_ends (fun _ _ => 0) 1000).2.2.2.1 rfl).2.2.2

/-! ## Radially averaged spectrum: the writes of the grouping loop -/

section RadialRangeProofs

variable {K : Type} [LinearOrderedField K]

end RadialRangeProofs

end LSD
